import Mathlib

/-!
SLProject: scene view draw ordering, render-mode state machine, commands,
scene-view registry and the IFC importer.

Shallow embedding of parts of `lib-SLProject/source/SLSceneView.cpp`,
`include/SLScene.h` and `lib-SLExternal/assimp/code/IFCLoader.cpp`.

Conventions of the embedding
* A pointer `SLNode*` is an `Option SLNode`; `none` is the null pointer and the
  field `id` of a node stands for its address.
* A function that dereferences a pointer returns `Option`; `none` means that a
  null pointer was dereferenced.
* An `SLfloat` is only compared, never computed with: it is a NaN or a number,
  and the numbers are carried by integers with the same order.
* OpenGL is a record of the state flags the code sets plus the list of draw
  calls issued so far, oldest first. Each draw call stores the flags that were
  in force when it was issued.
* Code that is called but lives in other translation units (`std::sort`,
  `SLNode::cull3DRec`, the ray tracer, camera and GUI, the STEP reader and the
  unzip library) is passed in as a parameter record.
* A C++ exception is an `Except` error value; a loop that may run forever takes
  a number of passes as fuel and returns `none` when the passes are used up.
-/

namespace SLProject

/-! ## Floats -/

/-- A value of `SLfloat` as the comparisons of the code see it: a NaN or a
number. The numbers are totally ordered and are carried by integers with the
same order: the finite float `x` by `x * 2^149` (every finite float is an
integer multiple of `2^-149`), plus and minus infinity by `2^277` and `-2^277`,
which lie beyond every finite float. -/
inductive SLfloat where
  | nan
  | num (v : Int)
  deriving DecidableEq, Repr

/-- Is the value a NaN? -/
def SLfloat.isNaN : SLfloat → Bool
  | .nan => true
  | .num _ => false

/-- The comparison `a < b` of floats: false when an operand is a NaN. -/
def SLfloat.lt : SLfloat → SLfloat → Bool
  | .num x, .num y => decide (x < y)
  | _, _ => false

/-- The comparison `a > b` of floats: false when an operand is a NaN. -/
def SLfloat.gt (a b : SLfloat) : Bool := b.lt a

/-- The comparison `a <= b` of floats: false when an operand is a NaN. -/
def SLfloat.le : SLfloat → SLfloat → Bool
  | .num x, .num y => decide (x ≤ y)
  | _, _ => false

/-- The comparison `a >= b` of floats: false when an operand is a NaN. -/
def SLfloat.ge (a b : SLfloat) : Bool := b.le a

/-- The comparison `a == b` of floats: false when an operand is a NaN. -/
def SLfloat.eq : SLfloat → SLfloat → Bool
  | .num x, .num y => decide (x = y)
  | _, _ => false

/-! ## Nodes and node vectors -/

/-- Draw bits of `SLDrawBits` that `SLSceneView.cpp` reads or toggles. -/
structure SLDrawBits where
  normals : Bool
  wiremesh : Bool
  bbox : Bool
  axis : Bool
  skeleton : Bool
  voxels : Bool
  culloff : Bool
  texoff : Bool
  selected : Bool
  deriving DecidableEq, Repr

/-- The part of an `SLJoint` that `draw3DGLLinesOverlay` reads. -/
structure SLJoint where
  /-- is `joint->parent()` a non-null pointer? -/
  hasParent : Bool
  deriving DecidableEq, Repr

/-- An element of the vector `skeleton->joints()` of `SLJoint*`. -/
abbrev SLJointPtr := Option SLJoint

/-- The part of an `SLNode` the scene view reads while drawing. -/
structure SLNode where
  /-- address of the node object -/
  id : Nat
  /-- value of `aabb()->sqrViewDist()` -/
  sqrViewDist : SLfloat
  /-- value of `numMeshes()` -/
  numMeshes : Nat
  /-- the draw bits of the node, read through `drawBit(...)` -/
  drawBits : SLDrawBits
  /-- is `parent()` a non-null pointer? -/
  hasParent : Bool
  /-- the vector `skeleton()->joints()`, `none` when `skeleton()` is null -/
  skeleton : Option (List SLJointPtr)
  deriving DecidableEq, Repr

/-- An element of `SLVNode = vector<SLNode*>`. -/
abbrev SLNodePtr := Option SLNode

/-- The vector type `SLVNode`. -/
abbrev SLVNode := List SLNodePtr

/-! ## std::sort -/

/-- Type of `std::sort(first, last, comp)` on a node vector. -/
abbrev StdSortFn := (SLNodePtr → SLNodePtr → Bool) → SLVNode → SLVNode

/-- The requirement of the C++ standard on the comparison object of
`std::sort`: it induces a strict weak ordering on the values of the range `l`.
It is irreflexive and transitive, and so is the equivalence it induces. -/
def StrictWeakOrdering (comp : SLNodePtr → SLNodePtr → Bool) (l : SLVNode) : Prop :=
  (∀ a ∈ l, comp a a = false) ∧
  (∀ a ∈ l, ∀ b ∈ l, ∀ c ∈ l, comp a b = true → comp b c = true → comp a c = true) ∧
  (∀ a ∈ l, ∀ b ∈ l, ∀ c ∈ l,
    comp a b = false → comp b a = false → comp b c = false → comp c b = false →
    comp a c = false ∧ comp c a = false)

/-- The range `l` is sorted with respect to `comp` in the sense of the C++
standard: no later element compares before an earlier one. -/
def SortedWrt (comp : SLNodePtr → SLNodePtr → Bool) (l : SLVNode) : Prop :=
  l.Pairwise (fun a b => comp b a = false)

/-- What the C++ standard promises of `std::sort`: called with a comparison
that is a strict weak ordering on the values of the range, it leaves a
permutation of the range that is sorted with respect to `comp`. The order of
equivalent elements is not part of the promise, and nothing is promised for a
comparison that is not a strict weak ordering on the range. -/
def StdSortContract (sort : StdSortFn) : Prop :=
  ∀ comp l, StrictWeakOrdering comp l → (sort comp l).Perm l ∧ SortedWrt comp (sort comp l)

/-- Insert `x` into the sorted list `acc`, after every element that does not
compare after it; the inner loop of a textbook insertion sort. -/
def insertSorted (comp : SLNodePtr → SLNodePtr → Bool) (x : SLNodePtr) : SLVNode → SLVNode
  | [] => [x]
  | y :: ys => if comp x y then x :: y :: ys else y :: insertSorted comp x ys

/-- A stable implementation of `std::sort`: insertion sort that walks the input
from the front and inserts each element behind its equivalents. -/
def stableInsertionSort : StdSortFn :=
  fun comp l => l.foldl (fun acc x => insertSorted comp x acc) []

/-- Insert `x` into the sorted list `acc`, before the first element that does
not compare before it. -/
def insertSortedEarly (comp : SLNodePtr → SLNodePtr → Bool) (x : SLNodePtr) : SLVNode → SLVNode
  | [] => [x]
  | y :: ys => if comp y x then y :: insertSortedEarly comp x ys else x :: y :: ys

/-- An implementation of `std::sort` that is not stable: insertion sort that
walks the input from the front and inserts each element in front of its
equivalents. -/
def unstableInsertionSort : StdSortFn :=
  fun comp l => l.foldl (fun acc x => insertSortedEarly comp x acc) []

/-- A node with the given address and squared view distance, one mesh, all
draw bits off, a parent and no skeleton. -/
def plainNode (id : Nat) (sqrViewDist : Int) : SLNode :=
  { id := id, sqrViewDist := .num sqrViewDist, numMeshes := 1,
    drawBits := ⟨false, false, false, false, false, false, false, false, false⟩,
    hasParent := true, skeleton := none }

/-- A node like `plainNode` whose squared view distance is a NaN. -/
def nanNode (id : Nat) : SLNode := { plainNode id 0 with sqrViewDist := .nan }

/-! ## One implementation in use: std::sort of GNU libstdc++

The functions below follow `bits/stl_algo.h` of GNU libstdc++, which is not part
of the repository; it is one of the implementations of `std::sort` the scene
view gets linked against. A range is a node vector with the positions `first`
and `last` as indices. Loops carry a step bound, which is the length of the
vector plus one and is not used up before a position leaves the vector; `none`
is returned when a position leaves the vector, where the C++ code reads or
writes outside the vector. -/

/-- `std::iter_swap(first + i, first + j)`. -/
def iterSwap (l : SLVNode) (i j : Nat) : Option SLVNode := do
  let a ← l[i]?
  let b ← l[j]?
  pure ((l.set i b).set j a)

/-- `std::__move_median_to_first(result, a, b, c, comp)`. -/
def moveMedianToFirst (comp : SLNodePtr → SLNodePtr → Bool) (l : SLVNode)
    (result a b c : Nat) : Option SLVNode := do
  let va ← l[a]?
  let vb ← l[b]?
  let vc ← l[c]?
  if comp va vb then
    if comp vb vc then iterSwap l result b
    else if comp va vc then iterSwap l result c
    else iterSwap l result a
  else if comp va vc then iterSwap l result a
  else if comp vb vc then iterSwap l result c
  else iterSwap l result b

/-- The loop `while (comp(first, pivot)) ++first;`. -/
def scanUp (comp : SLNodePtr → SLNodePtr → Bool) (l : SLVNode) (pivot : Nat) :
    Nat → Nat → Option Nat
  | 0, _ => none
  | fuel + 1, first => do
    let vf ← l[first]?
    let vp ← l[pivot]?
    if comp vf vp then scanUp comp l pivot fuel (first + 1) else pure first

/-- The loop `while (comp(pivot, last)) --last;`. -/
def scanDown (comp : SLNodePtr → SLNodePtr → Bool) (l : SLVNode) (pivot : Nat) :
    Nat → Nat → Option Nat
  | 0, _ => none
  | fuel + 1, last => do
    let vl ← l[last]?
    let vp ← l[pivot]?
    if comp vp vl then
      if last = 0 then none else scanDown comp l pivot fuel (last - 1)
    else pure last

/-- `std::__unguarded_partition(first, last, pivot, comp)`. -/
def unguardedPartition (comp : SLNodePtr → SLNodePtr → Bool) (pivot : Nat) :
    Nat → SLVNode → Nat → Nat → Option (SLVNode × Nat)
  | 0, _, _, _ => none
  | fuel + 1, l, first, last => do
    let first1 ← scanUp comp l pivot (l.length + 1) first
    if last = 0 then none
    else
      let last1 ← scanDown comp l pivot (l.length + 1) (last - 1)
      if first1 < last1 then
        let l1 ← iterSwap l first1 last1
        unguardedPartition comp pivot fuel l1 (first1 + 1) last1
      else pure (l, first1)

/-- `std::__unguarded_partition_pivot(first, last, comp)`. -/
def unguardedPartitionPivot (comp : SLNodePtr → SLNodePtr → Bool) (l : SLVNode)
    (first last : Nat) : Option (SLVNode × Nat) := do
  let mid := first + (last - first) / 2
  let l1 ← moveMedianToFirst comp l first (first + 1) mid (last - 1)
  unguardedPartition comp first (l.length + 1) l1 (first + 1) last

/-- Write `v` to position `i` of the vector; `none` when `i` lies outside. -/
def setAt (l : SLVNode) (i : Nat) (v : SLNodePtr) : Option SLVNode :=
  if i < l.length then some (l.set i v) else none

/-- `std::__push_heap(first, holeIndex, topIndex, value, comp)` of
`bits/stl_heap.h`. -/
def pushHeap (comp : SLNodePtr → SLNodePtr → Bool) (first topIndex : Nat) (value : SLNodePtr) :
    Nat → SLVNode → Nat → Option SLVNode
  | 0, _, _ => none
  | fuel + 1, l, holeIndex =>
    let parent := (holeIndex - 1) / 2
    if holeIndex > topIndex then do
      let vp ← l[first + parent]?
      if comp vp value then do
        let l1 ← setAt l (first + holeIndex) vp
        pushHeap comp first topIndex value fuel l1 parent
      else setAt l (first + holeIndex) value
    else setAt l (first + holeIndex) value

/-- The loop `while (secondChild < (len - 1) / 2)` of `std::__adjust_heap`;
`holeIndex` and `secondChild` are equal whenever its condition is tested. The
result is the vector with the position of the hole. -/
def adjustHeapLoop (comp : SLNodePtr → SLNodePtr → Bool) (first len : Nat) :
    Nat → SLVNode → Nat → Option (SLVNode × Nat)
  | 0, _, _ => none
  | fuel + 1, l, holeIndex =>
    if holeIndex < (len - 1) / 2 then do
      let secondChild := 2 * (holeIndex + 1)
      let right ← l[first + secondChild]?
      let left ← l[first + (secondChild - 1)]?
      let child := if comp right left then secondChild - 1 else secondChild
      let vc ← l[first + child]?
      let l1 ← setAt l (first + holeIndex) vc
      adjustHeapLoop comp first len fuel l1 child
    else pure (l, holeIndex)

/-- `std::__adjust_heap(first, holeIndex, len, value, comp)`. The test
`secondChild == (len - 2) / 2` is made on signed numbers, where it fails for a
length below 2. -/
def adjustHeap (comp : SLNodePtr → SLNodePtr → Bool) (l : SLVNode) (first holeIndex len : Nat)
    (value : SLNodePtr) : Option SLVNode := do
  let (l1, hole1) ← adjustHeapLoop comp first len (l.length + 1) l holeIndex
  let (l2, hole2) ←
    if len % 2 = 0 ∧ 2 ≤ len ∧ hole1 = (len - 2) / 2 then do
      let secondChild := 2 * (hole1 + 1)
      let vc ← l1[first + (secondChild - 1)]?
      let l2 ← setAt l1 (first + hole1) vc
      pure (l2, secondChild - 1)
    else pure (l1, hole1)
  pushHeap comp first holeIndex value (l.length + 1) l2 hole2

/-- `std::__pop_heap(first, last, result, comp)`. -/
def popHeap (comp : SLNodePtr → SLNodePtr → Bool) (l : SLVNode) (first last result : Nat) :
    Option SLVNode := do
  let value ← l[result]?
  let top ← l[first]?
  let l1 ← setAt l result top
  adjustHeap comp l1 first 0 (last - first) value

/-- The loop `while (true)` of `std::__make_heap`, from `parent` downwards. -/
def makeHeapLoop (comp : SLNodePtr → SLNodePtr → Bool) (first len : Nat) :
    Nat → SLVNode → Nat → Option SLVNode
  | 0, _, _ => none
  | fuel + 1, l, parent => do
    let value ← l[first + parent]?
    let l1 ← adjustHeap comp l first parent len value
    if parent = 0 then pure l1 else makeHeapLoop comp first len fuel l1 (parent - 1)

/-- `std::__make_heap(first, last, comp)`. -/
def makeHeap (comp : SLNodePtr → SLNodePtr → Bool) (l : SLVNode) (first last : Nat) :
    Option SLVNode :=
  if last - first < 2 then pure l
  else makeHeapLoop comp first (last - first) (l.length + 1) l ((last - first - 2) / 2)

/-- `std::__sort_heap(first, last, comp)`. -/
def sortHeap (comp : SLNodePtr → SLNodePtr → Bool) (first : Nat) :
    Nat → SLVNode → Nat → Option SLVNode
  | 0, _, _ => none
  | fuel + 1, l, last =>
    if last - first > 1 then do
      let l1 ← popHeap comp l first (last - 1) (last - 1)
      sortHeap comp first fuel l1 (last - 1)
    else pure l

/-- The loop `for (i = middle; i < last; ++i)` of `std::__heap_select` over the
next `count` positions starting at `i`. -/
def heapSelectLoop (comp : SLNodePtr → SLNodePtr → Bool) (first middle : Nat) :
    Nat → SLVNode → Nat → Option SLVNode
  | 0, l, _ => pure l
  | count + 1, l, i => do
    let vi ← l[i]?
    let vf ← l[first]?
    let l1 ← if comp vi vf then popHeap comp l first middle i else pure l
    heapSelectLoop comp first middle count l1 (i + 1)

/-- `std::__heap_select(first, middle, last, comp)`. -/
def heapSelect (comp : SLNodePtr → SLNodePtr → Bool) (l : SLVNode) (first middle last : Nat) :
    Option SLVNode := do
  let l1 ← makeHeap comp l first middle
  heapSelectLoop comp first middle (last - middle) l1 middle

/-- `std::__partial_sort(first, middle, last, comp)`. -/
def partialSort (comp : SLNodePtr → SLNodePtr → Bool) (l : SLVNode) (first middle last : Nat) :
    Option SLVNode := do
  let l1 ← heapSelect comp l first middle last
  sortHeap comp first (l.length + 1) l1 middle

/-- `std::__introsort_loop(first, last, depth_limit, comp)` with the threshold
16; the heap sort of `std::__partial_sort` takes over when the depth limit
reaches 0. -/
def introsortLoop (comp : SLNodePtr → SLNodePtr → Bool) :
    Nat → SLVNode → Nat → Nat → Nat → Option SLVNode
  | 0, _, _, _, _ => none
  | fuel + 1, l, first, last, depthLimit =>
    if last - first > 16 then
      if depthLimit = 0 then partialSort comp l first last last
      else do
        let (l1, cut) ← unguardedPartitionPivot comp l first last
        let l2 ← introsortLoop comp fuel l1 cut last (depthLimit - 1)
        introsortLoop comp fuel l2 first cut (depthLimit - 1)
    else pure l

/-- `std::__unguarded_linear_insert(last, comp)` for the saved value `val`. -/
def unguardedLinearInsert (comp : SLNodePtr → SLNodePtr → Bool) (val : SLNodePtr) :
    Nat → SLVNode → Nat → Option SLVNode
  | 0, _, _ => none
  | fuel + 1, l, last =>
    if last = 0 then none
    else do
      let vn ← l[last - 1]?
      if comp val vn then unguardedLinearInsert comp val fuel (l.set last vn) (last - 1)
      else pure (l.set last val)

/-- The loop of `std::__insertion_sort(first, last, comp)` over the next
`count` positions starting at `i`. -/
def insertionSortLoop (comp : SLNodePtr → SLNodePtr → Bool) (first : Nat) :
    Nat → SLVNode → Nat → Option SLVNode
  | 0, l, _ => pure l
  | count + 1, l, i => do
    let vi ← l[i]?
    let vf ← l[first]?
    let l1 ←
      if comp vi vf then
        pure (l.take first ++ [vi] ++ (l.drop first).take (i - first) ++ l.drop (i + 1))
      else unguardedLinearInsert comp vi (l.length + 1) l i
    insertionSortLoop comp first count l1 (i + 1)

/-- `std::__insertion_sort(first, last, comp)`. -/
def insertionSortRange (comp : SLNodePtr → SLNodePtr → Bool) (l : SLVNode)
    (first last : Nat) : Option SLVNode :=
  if first = last then pure l
  else insertionSortLoop comp first (last - (first + 1)) l (first + 1)

/-- `std::__unguarded_insertion_sort(first, last, comp)` over the next `count`
positions starting at `i`. -/
def unguardedInsertionSort (comp : SLNodePtr → SLNodePtr → Bool) :
    Nat → SLVNode → Nat → Option SLVNode
  | 0, l, _ => pure l
  | count + 1, l, i => do
    let vi ← l[i]?
    let l1 ← unguardedLinearInsert comp vi (l.length + 1) l i
    unguardedInsertionSort comp count l1 (i + 1)

/-- `std::__final_insertion_sort(first, last, comp)`. -/
def finalInsertionSort (comp : SLNodePtr → SLNodePtr → Bool) (l : SLVNode)
    (first last : Nat) : Option SLVNode :=
  if last - first > 16 then do
    let l1 ← insertionSortRange comp l first (first + 16)
    unguardedInsertionSort comp (last - (first + 16)) l1 (first + 16)
  else insertionSortRange comp l first last

/-- `std::__lg(n)`: the floor of the binary logarithm, by halving. -/
def lgFloor : Nat → Nat → Nat
  | 0, _ => 0
  | fuel + 1, n => if n ≤ 1 then 0 else 1 + lgFloor fuel (n / 2)

/-- `std::sort(first, last, comp)` of GNU libstdc++. -/
def gnuSort (comp : SLNodePtr → SLNodePtr → Bool) (l : SLVNode) : Option SLVNode :=
  if l.length = 0 then pure l
  else do
    let l1 ← introsortLoop comp (l.length + 1) l 0 l.length (2 * lgFloor l.length l.length)
    finalInsertionSort comp l1 0 l.length

/-- GNU `std::sort` as a function of the type `StdSortFn`. Where `gnuSort` has
no result the C++ code has left the vector, which takes a comparison that is
not a strict weak ordering on the range; the vector is handed back as it was
there. -/
def gnuStdSort : StdSortFn := fun comp l => (gnuSort comp l).getD l

/-- The nodes with the addresses `ids`, all with squared view distance 5. -/
def equalNodes (ids : List Nat) : List SLNode := ids.map (fun i => plainNode i 5)

/-! ## OpenGL state and draw calls -/

/-- The kinds of draw call the scene view issues for its 3D pass. -/
inductive SLDrawKind where
  /-- the call `node->drawMeshes(this)` -/
  | meshes (node : SLNode)
  /-- the call `node->aabb()->drawWS(SLCol3f(r,g,b))` -/
  | aabb (node : SLNode) (r g b : Nat)
  /-- the call `node->aabb()->drawAxisWS()` -/
  | axis (node : SLNode)
  /-- the call `joint->aabb()->drawBoneWS()` for joint number `joint` -/
  | bone (node : SLNode) (joint : Nat)
  /-- the call `animManager().drawVisuals(this)` -/
  | animVisuals
  deriving DecidableEq, Repr

/-- A draw call together with the OpenGL flags in force when it was issued. -/
structure SLDrawCall where
  kind : SLDrawKind
  blend : Bool
  depthMask : Bool
  depthTest : Bool
  deriving DecidableEq, Repr

/-- The flags of `SLGLState` that the 3D pass sets, and the draw calls issued
so far (oldest first). -/
structure SLGLState where
  blend : Bool
  depthMask : Bool
  depthTest : Bool
  multiSample : Bool
  calls : List SLDrawCall
  deriving DecidableEq, Repr

/-- Record a draw call of the given kind under the current flags. -/
def SLGLState.issue (gl : SLGLState) (k : SLDrawKind) : SLGLState :=
  { gl with calls := gl.calls ++ [⟨k, gl.blend, gl.depthMask, gl.depthTest⟩] }

/-- The node of a mesh draw call, `none` for every other kind of call. -/
def SLDrawCall.meshNode (c : SLDrawCall) : Option SLNode :=
  match c.kind with
  | .meshes n => some n
  | _ => none

/-- Is this draw call a mesh draw call? -/
def SLDrawCall.isMesh (c : SLDrawCall) : Bool := c.meshNode.isSome

/-- The mesh draw calls among a list of draw calls, in issue order. -/
def meshCalls (cs : List SLDrawCall) : List SLDrawCall := cs.filter SLDrawCall.isMesh

/-- The mesh draw call for node `n` issued with blending `b` and depth writes
`!b`, depth test flag `dt`. -/
def meshCall (b dt : Bool) (n : SLNode) : SLDrawCall := ⟨.meshes n, b, !b, dt⟩

/-! ## The scene view -/

/-- The renderer selected by `_renderType`. -/
inductive SLRenderType where
  | RT_gl
  | RT_rt
  | RT_pt
  deriving DecidableEq, Repr

/-- The ray tracer state `SLRTState`. -/
inductive SLRTState where
  | rtReady
  | rtBusy
  | rtFinished
  | rtMoveGL
  deriving DecidableEq, Repr

/-- The camera projections `SLProjection`, in declaration order. -/
inductive SLProjection where
  | P_monoPerspective
  | P_monoOrthographic
  | P_stereoSideBySide
  | P_stereoSideBySideP
  | P_stereoSideBySideD
  | P_stereoLineByLine
  | P_stereoColumnByColumn
  | P_stereoPixelByPixel
  | P_stereoColorRC
  | P_stereoColorRG
  | P_stereoColorRB
  | P_stereoColorYB
  deriving DecidableEq, Repr

/-- The test `projection() > P_monoOrthographic`: every stereo projection. -/
def SLProjection.isStereo : SLProjection → Bool
  | .P_monoPerspective => false
  | .P_monoOrthographic => false
  | _ => true

/-- The members of `SLRaytracer` (and of `SLPathtracer`, which derives from it)
that the scene view reads or sets. -/
structure SLRaytracer where
  state : SLRTState
  continuous : Bool
  distributed : Bool
  maxDepth : Int
  aaSamples : Int
  deriving DecidableEq, Repr

/-- The camera the scene view points to with `_camera`. -/
structure SLCamera where
  /-- address of the camera node -/
  id : Nat
  projection : SLProjection
  deriving DecidableEq, Repr

/-- The members of `SLSceneView` used by the modelled methods. `_stateGL` is
the `SLGLState` singleton the view points to. -/
structure SLSceneView where
  _index : Nat
  _scrW : Int
  _scrH : Int
  _scrWdiv2 : Int
  _scrHdiv2 : Int
  _scrWdivH : ℚ
  _renderType : SLRenderType
  _stopRT : Bool
  _stopPT : Bool
  _raytracer : SLRaytracer
  _pathtracer : SLRaytracer
  _camera : Option SLCamera
  _visibleNodes : SLVNode
  _blendNodes : SLVNode
  _drawBits : SLDrawBits
  _doDepthTest : Bool
  _doMultiSampling : Bool
  _doFrustumCulling : Bool
  _waitEvents : Bool
  _isFirstFrame : Bool
  _gotPainted : Bool
  _vrMode : Bool
  _stateGL : SLGLState
  deriving DecidableEq

/-! ### Drawing the node vectors -/

/-- The comparison lambda handed to `std::sort` in `draw3DGLNodes`:
`if (!a) return false; if (!b) return true;` and then the comparison
`a->aabb()->sqrViewDist() > b->aabb()->sqrViewDist()` of two floats. -/
def depthCompare : SLNodePtr → SLNodePtr → Bool
  | none, _ => false
  | some _, none => true
  | some a, some b => a.sqrViewDist.gt b.sqrViewDist

/-- The body of the loop `for (auto node : nodes)` of `draw3DGLNodes`:
`node->updateAndGetWM()` and `node->drawMeshes(this)` dereference `node`. -/
def drawMeshesLoop : SLVNode → SLGLState → Option SLGLState
  | [], gl => some gl
  | none :: _, _ => none
  | some n :: rest, gl => drawMeshesLoop rest (gl.issue (.meshes n))

/-- `SLSceneView::draw3DGLNodes(nodes, alphaBlended, depthSorted)`. The vector
is passed by reference, so the result carries the vector as the call leaves it
together with the OpenGL state. -/
def SLSceneView.draw3DGLNodes (stdSort : StdSortFn) (nodes : SLVNode)
    (alphaBlended depthSorted : Bool) (gl : SLGLState) : Option (SLVNode × SLGLState) :=
  if nodes.length = 0 then some (nodes, gl)
  else
    let gl1 := { gl with blend := alphaBlended }
    let gl2 := { gl1 with depthMask := !alphaBlended }
    let nodes1 := if depthSorted then stdSort depthCompare nodes else nodes
    (drawMeshesLoop nodes1 gl2).map (fun gl3 => (nodes1, gl3))

/-- The test `node != _camera` on pointers. -/
def isNotCamera (cam : Option SLCamera) (node : SLNodePtr) : Bool :=
  decide (node.map SLNode.id ≠ cam.map SLCamera.id)

/-- One iteration of the loop of `draw3DGLLines`. -/
def drawLinesOfNode (viewBits : SLDrawBits) (cam : Option SLCamera) (gl : SLGLState) :
    SLNodePtr → Option SLGLState
  | none => if isNotCamera cam none then none else some gl
  | some n =>
    if isNotCamera cam (some n) then
      let gl1 :=
        if (viewBits.bbox || n.drawBits.bbox) && !n.drawBits.selected then
          if n.numMeshes > 0 then gl.issue (.aabb n 1 0 0) else gl.issue (.aabb n 1 0 1)
        else gl
      some (if n.drawBits.selected then gl1.issue (.aabb n 1 1 0) else gl1)
    else some gl

/-- The loop of `draw3DGLLines` over the node vector. -/
def drawLinesLoop (viewBits : SLDrawBits) (cam : Option SLCamera) :
    SLVNode → SLGLState → Option SLGLState
  | [], gl => some gl
  | p :: rest, gl => (drawLinesOfNode viewBits cam gl p).bind (drawLinesLoop viewBits cam rest)

/-- `SLSceneView::draw3DGLLines(nodes)`. -/
def SLSceneView.draw3DGLLines (sv : SLSceneView) (nodes : SLVNode) (gl : SLGLState) :
    Option SLGLState :=
  if nodes.length = 0 then some gl
  else
    let gl1 := { gl with blend := false }
    let gl2 := { gl1 with depthMask := true }
    drawLinesLoop sv._drawBits sv._camera nodes gl2

/-- The loop `for (auto joint : skeleton->joints())` of `draw3DGLLinesOverlay`
from joint number `j` on. `joint->updateAndGetWM()` dereferences the joint, and
for a joint with a parent `node->parent()->updateAndGetWM()` dereferences the
parent of the node without a test. The matrices themselves are not
represented. -/
def drawBones (n : SLNode) : List SLJointPtr → Nat → SLGLState → Option SLGLState
  | [], _, gl => some gl
  | none :: _, _, _ => none
  | some joint :: rest, j, gl =>
    if joint.hasParent && !n.hasParent then none
    else drawBones n rest (j + 1) (gl.issue (.bone n j))

/-- One iteration of the loop of `draw3DGLLinesOverlay`. -/
def drawOverlayOfNode (viewBits : SLDrawBits) (cam : Option SLCamera) (gl : SLGLState) :
    SLNodePtr → Option SLGLState
  | none => if isNotCamera cam none then none else some gl
  | some n =>
    if isNotCamera cam (some n) then
      if viewBits.axis || n.drawBits.axis || viewBits.skeleton || n.drawBits.skeleton then
        let gl1 := { gl with blend := false }
        let gl2 := { gl1 with depthMask := true }
        let gl3 := { gl2 with depthTest := false }
        let gl4 := if viewBits.axis || n.drawBits.axis then gl3.issue (.axis n) else gl3
        if viewBits.skeleton || n.drawBits.skeleton then
          match n.skeleton with
          | some joints => drawBones n joints 0 gl4
          | none => some gl4
        else some gl4
      else some gl
    else some gl

/-- `SLSceneView::draw3DGLLinesOverlay(nodes)`. -/
def SLSceneView.draw3DGLLinesOverlay (sv : SLSceneView) : SLVNode → SLGLState → Option SLGLState
  | [], gl => some gl
  | p :: rest, gl =>
    (drawOverlayOfNode sv._drawBits sv._camera gl p).bind (sv.draw3DGLLinesOverlay rest)

/-- The scene view after step 1 of `draw3DGLAll` (the opaque pass and the
helper lines), when no null pointer was dereferenced. -/
def SLSceneView.draw3DGLAllOpaque (stdSort : StdSortFn) (sv : SLSceneView) :
    Option SLSceneView := do
  let (vis, gl1) ← SLSceneView.draw3DGLNodes stdSort sv._visibleNodes false false sv._stateGL
  let sv1 := { sv with _visibleNodes := vis, _stateGL := gl1 }
  let gl2 ← sv1.draw3DGLLines sv1._visibleNodes sv1._stateGL
  let gl3 ← sv1.draw3DGLLines sv1._blendNodes gl2
  pure { sv1 with _stateGL := gl3 }

/-- Step 2 of `draw3DGLAll`: the blended pass
`draw3DGLNodes(_blendNodes, true, true)`. -/
def SLSceneView.draw3DGLAllBlendedNodes (stdSort : StdSortFn) (sv : SLSceneView) :
    Option SLSceneView := do
  let (bl, gl4) ← SLSceneView.draw3DGLNodes stdSort sv._blendNodes true true sv._stateGL
  pure { sv with _blendNodes := bl, _stateGL := gl4 }

/-- Steps 3 to 5 of `draw3DGLAll`: the overlays of both vectors, the animation
visuals and the reset of the flags. -/
def SLSceneView.draw3DGLAllOverlays (sv : SLSceneView) : Option SLSceneView := do
  let gl5 ← sv.draw3DGLLinesOverlay sv._visibleNodes sv._stateGL
  let gl6 ← sv.draw3DGLLinesOverlay sv._blendNodes gl5
  let gl7 := gl6.issue .animVisuals
  let gl8 := { gl7 with blend := false }
  let gl9 := { gl8 with depthMask := true }
  let gl10 := { gl9 with depthTest := true }
  pure { sv with _stateGL := gl10 }

/-- Steps 2 to 5 of `draw3DGLAll`: the blended pass, the overlays, the
animation visuals and the reset of the flags. -/
def SLSceneView.draw3DGLAllBlended (stdSort : StdSortFn) (sv : SLSceneView) :
    Option SLSceneView :=
  (sv.draw3DGLAllBlendedNodes stdSort).bind SLSceneView.draw3DGLAllOverlays

/-- `SLSceneView::draw3DGLAll()`. -/
def SLSceneView.draw3DGLAll (stdSort : StdSortFn) (sv : SLSceneView) : Option SLSceneView :=
  (sv.draw3DGLAllOpaque stdSort).bind (SLSceneView.draw3DGLAllBlended stdSort)

/-! ### One OpenGL frame -/

/-- Scene tree as the cull traversal sees it: the node, the outcome of the test
of its bounding box against the frustum planes, the transparency flag of its
material and the children. -/
inductive SLNodeTree where
  | mk (node : SLNode) (outside : Bool) (hasAlpha : Bool) (children : List SLNodeTree)

/-- Modelled from the spec: `SLNode::cull3DRec` is defined in SLNode.cpp, which
is not among the sources. Section 4.1: a node whose box is fully outside the
frustum is skipped with its subtree; otherwise the children are visited and a
node with meshes is appended to the blended set when its material is
transparent and to the opaque set otherwise. -/
def SLNodeTree.cull3DRec : SLNodeTree → SLSceneView → SLSceneView
  | .mk node outside hasAlpha children, sv =>
    if outside then sv
    else
      let sv1 := cullList children sv
      if node.numMeshes > 0 then
        if hasAlpha then { sv1 with _blendNodes := sv1._blendNodes ++ [some node] }
        else { sv1 with _visibleNodes := sv1._visibleNodes ++ [some node] }
      else sv1
where
  /-- The loop over the children. -/
  cullList : List SLNodeTree → SLSceneView → SLSceneView
    | [], sv => sv
    | t :: ts, sv => cullList ts (t.cull3DRec sv)

/-- What `draw3DGL` calls outside of SLSceneView.cpp. -/
structure SLDrawEnv where
  /-- the implementation of `std::sort` -/
  stdSort : StdSortFn
  /-- the virtual hook `preDraw()` -/
  preDraw : SLSceneView → SLSceneView
  /-- the virtual hook `postDraw()` -/
  postDraw : SLSceneView → SLSceneView
  /-- result of `_camera->camUpdate(elapsedTimeMS)` -/
  camUpdate : SLCamera → Bool
  /-- `s->root3D()`: `none` for a null root, otherwise the effect of
  `root3D()->cull3DRec(this)` on the scene view -/
  root3D : Option (SLSceneView → SLSceneView)

/-- Steps 1 to 4 of `SLSceneView::draw3DGL`: everything up to and including
the frustum culling. The result is the scene view on which `draw3DGLAll` is
called, with the value of `camUpdated`. The frame buffer of the Oculus, the
clearing of the buffers, the background, the projection, the view and the
frustum planes belong to the camera and to OpenGL buffers and are left out,
as are the timers. -/
def SLSceneView.draw3DGLCull (env : SLDrawEnv) (sv : SLSceneView) :
    Option (Bool × SLSceneView) :=
  let sv0 := env.preDraw sv
  match sv0._camera with
  | none => none
  | some cam =>
    let camUpdated := env.camUpdate cam
    let gl1 := { sv0._stateGL with multiSample := sv0._doMultiSampling }
    let gl2 := { gl1 with depthTest := sv0._doDepthTest }
    let sv1 := { sv0 with _stateGL := gl2 }
    let sv2 := { sv1 with _blendNodes := [] }
    let sv3 := { sv2 with _visibleNodes := [] }
    match env.root3D with
    | some cull3DRec => some (camUpdated, cull3DRec sv3)
    | none => some (camUpdated, sv3)

/-- Step 5 of `SLSceneView::draw3DGL`: `draw3DGLAll`, a second time for the
right eye of a stereo projection, then `postDraw`. The projection and view of
the right eye and the colour mask are left out. -/
def SLSceneView.draw3DGLDraw (env : SLDrawEnv) (sv : SLSceneView) : Option SLSceneView := do
  let sv1 ← sv.draw3DGLAll env.stdSort
  let cam ← sv1._camera
  let sv2 ← if cam.projection.isStereo then sv1.draw3DGLAll env.stdSort else pure sv1
  pure (env.postDraw sv2)

/-- `SLSceneView::draw3DGL(elapsedTimeMS)`; the result is `camUpdated`. -/
def SLSceneView.draw3DGL (env : SLDrawEnv) (sv : SLSceneView) : Option (Bool × SLSceneView) := do
  let (camUpdated, sv1) ← sv.draw3DGLCull env
  let sv2 ← sv1.draw3DGLDraw env
  pure (camUpdated, sv2)

/-! ### Resize -/

/-- `SLSceneView::onResize(width, height)`. The calls into the GUI and the
Oculus frame buffer act on other objects and are left out; the float quotient
`_scrWdivH` is carried as a rational. -/
def SLSceneView.onResize (sv : SLSceneView) (width height : Int) : SLSceneView :=
  if width = 0 ∨ height = 0 then sv
  else if sv._scrW ≠ width ∨ sv._scrH ≠ height then
    let sv1 := { sv with _scrW := width }
    let sv2 := { sv1 with _scrH := height }
    let sv3 := { sv2 with _scrWdiv2 := sv2._scrW >>> 1 }
    let sv4 := { sv3 with _scrHdiv2 := sv3._scrH >>> 1 }
    let sv5 := { sv4 with _scrWdivH := (sv4._scrW : ℚ) / (sv4._scrH : ℚ) }
    if sv5._renderType ≠ SLRenderType.RT_gl then
      let sv6 := { sv5 with _renderType := SLRenderType.RT_gl }
      { sv6 with _raytracer := { sv6._raytracer with continuous := false } }
    else sv5
  else sv

/-! ### Ray tracing and path tracing frames -/

/-- The methods of the ray tracer and the path tracer that `draw3DRT` and
`draw3DPT` call, as functions on the tracer object. -/
structure SLTracerOps where
  renderClassic : SLRaytracer → SLRaytracer
  renderDistrib : SLRaytracer → SLRaytracer
  /-- `SLPathtracer::render` -/
  render : SLRaytracer → SLRaytracer
  renderImage : SLRaytracer → SLRaytracer

/-- `SLSceneView::draw3DRT()`; the result is `updated`. The update of the
acceleration structures of the meshes of the scene is left out. -/
def SLSceneView.draw3DRT (ops : SLTracerOps) (sv : SLSceneView) : Bool × SLSceneView :=
  let rt1 :=
    if sv._raytracer.state = SLRTState.rtReady then
      if sv._raytracer.distributed then ops.renderDistrib sv._raytracer
      else ops.renderClassic sv._raytracer
    else sv._raytracer
  let sv1 := { sv with _raytracer := ops.renderImage rt1 }
  if sv1._stopRT then (true, { sv1 with _renderType := SLRenderType.RT_gl })
  else (false, sv1)

/-- `SLSceneView::draw3DPT()`; the result is `updated`. The update of the
acceleration structures of the meshes of the scene is left out. -/
def SLSceneView.draw3DPT (ops : SLTracerOps) (sv : SLSceneView) : Bool × SLSceneView :=
  let pt1 :=
    if sv._pathtracer.state = SLRTState.rtReady then ops.render sv._pathtracer
    else sv._pathtracer
  let sv1 := { sv with _pathtracer := ops.renderImage pt1 }
  if sv1._stopPT then (true, { sv1 with _renderType := SLRenderType.RT_gl })
  else (false, sv1)

/-! ### Key presses -/

/-- The keys of `enum SLKey` that `onKeyPress` distinguishes. `K_none` is the
value 0, `K_char c` a character key, `K_other` any further special key. -/
inductive SLKey where
  | K_none
  | K_char (c : Char)
  | K_tab
  | K_esc
  | K_other (code : Nat)
  deriving DecidableEq, Repr

/-- The truth value of a key in `if (key || mod)`. -/
def SLKey.isSet : SLKey → Bool
  | .K_none => false
  | _ => true

/-- The commands of `enum SLCommand` that SLSceneView.cpp names; `C_other`
stands for every further enumerator. -/
inductive SLCommand where
  | C_dpiInc
  | C_dpiDec
  | C_normalsToggle
  | C_wireMeshToggle
  | C_faceCullToggle
  | C_textureToggle
  | C_multiSampleToggle
  | C_frustCullToggle
  | C_bBoxToggle
  | C_camSetNextInScene
  | C_quit
  | C_sceneAll
  | C_sceneMinimal
  | C_sceneLargeModel
  | C_sceneMaximal
  | C_projPersp
  | C_projOrtho
  | C_projSideBySide
  | C_projSideBySideP
  | C_projSideBySideD
  | C_projLineByLine
  | C_projColumnByColumn
  | C_projPixelByPixel
  | C_projColorRC
  | C_projColorRG
  | C_projColorRB
  | C_projColorYB
  | C_camSpeedLimitInc
  | C_camSpeedLimitDec
  | C_camEyeSepInc
  | C_camEyeSepDec
  | C_camFocalDistInc
  | C_camFocalDistDec
  | C_camFOVInc
  | C_camFOVDec
  | C_camAnimTurnYUp
  | C_camAnimTurnZUp
  | C_camAnimWalkYUp
  | C_camAnimWalkZUp
  | C_camAnimDeviceRotYUp
  | C_camAnimDeviceRotYUpPosGPS
  | C_camReset
  | C_camSetSceneViewCamera
  | C_mirrorHMainVideoToggle
  | C_mirrorVMainVideoToggle
  | C_mirrorHScndVideoToggle
  | C_mirrorVScndVideoToggle
  | C_calibFixAspectRatioToggle
  | C_calibFixPrincipPointalToggle
  | C_calibZeroTangentDistToggle
  | C_undistortVideoToggle
  | C_videoSizeIndexInc
  | C_videoSizeIndexDec
  | C_videoSizeIndexDefault
  | C_waitEventsToggle
  | C_depthTestToggle
  | C_axisToggle
  | C_skeletonToggle
  | C_voxelsToggle
  | C_renderOpenGL
  | C_rtContinuously
  | C_rtDistributed
  | C_rt1
  | C_rt2
  | C_rt3
  | C_rt4
  | C_rt5
  | C_rt6
  | C_rt7
  | C_rt8
  | C_rt9
  | C_rt0
  | C_rtSaveImage
  | C_pt1
  | C_pt10
  | C_pt50
  | C_pt100
  | C_pt500
  | C_pt1000
  | C_pt5000
  | C_pt10000
  | C_ptSaveImage
  | C_other (code : Nat)
  deriving Repr

/-- What `onKeyPress` reads and calls outside of its own body. -/
structure SLKeyEnv where
  /-- `s->root3D()` is not null -/
  hasRoot3D : Bool
  /-- `ImGui::GetIO().WantCaptureKeyboard` -/
  wantCaptureKeyboard : Bool
  /-- the command dispatcher `SLSceneView::onCommand` -/
  onCommand : SLCommand → SLSceneView → Bool × SLSceneView
  /-- result of `_camera->onKeyPress(key, mod)` -/
  cameraOnKeyPress : SLKey → SLKey → Bool
  /-- results of `eh->onKeyPress(key, mod)` for the event handlers of the scene -/
  eventHandlers : List (SLKey → SLKey → Bool)

/-- `SLSceneView::onKeyPress(key, mod)`. `none` stands for a dereferenced
null `_camera`. The unit scaling of the camera, changed by the keys 5 and 6,
and the call into the GUI are not part of the scene view and are left out. -/
def SLSceneView.onKeyPress (env : SLKeyEnv) (sv : SLSceneView) (key mod : SLKey) :
    Option (Bool × SLSceneView) :=
  if !env.hasRoot3D then some (false, sv)
  else if env.wantCaptureKeyboard then some (true, sv)
  else if key = .K_char '5' ∨ key = .K_char '6' then
    sv._camera.map (fun _ => (true, sv))
  else if key = .K_char '7' then some (env.onCommand .C_dpiInc sv)
  else if key = .K_char '8' then some (env.onCommand .C_dpiDec sv)
  else if key = .K_char 'N' then some (env.onCommand .C_normalsToggle sv)
  else if key = .K_char 'P' then some (env.onCommand .C_wireMeshToggle sv)
  else if key = .K_char 'C' then some (env.onCommand .C_faceCullToggle sv)
  else if key = .K_char 'T' then some (env.onCommand .C_textureToggle sv)
  else if key = .K_char 'M' then some (env.onCommand .C_multiSampleToggle sv)
  else if key = .K_char 'F' then some (env.onCommand .C_frustCullToggle sv)
  else if key = .K_char 'B' then some (env.onCommand .C_bBoxToggle sv)
  else if key = .K_tab then some (env.onCommand .C_camSetNextInScene sv)
  else if key = .K_esc then
    if sv._renderType = SLRenderType.RT_rt then some (false, { sv with _stopRT := true })
    else if sv._renderType = SLRenderType.RT_pt then some (false, { sv with _stopPT := true })
    else some (true, sv)
  else if key.isSet || mod.isSet then
    sv._camera.map (fun _ =>
      (env.eventHandlers.foldl (fun result eh => if eh key mod then true else result)
        (env.cameraOnKeyPress key mod), sv))
  else some (false, sv)

/-! ### Commands -/

/-- Process-wide variables that `onCommand` reads or writes: `SL::dpi`,
`SLCVCapture::requestedSizeIndex` and the flag set by `slShouldClose`. -/
structure SLGlobals where
  dpi : Int
  requestedSizeIndex : Int
  shouldClose : Bool
  deriving DecidableEq, Repr

/-- What `onCommand` reads and calls outside of SLSceneView.cpp. The numeric
values of `enum SLCommand` are declared in SLEnums.h, which is not among the
sources, so the two tests that compute with them are taken as given. -/
structure SLCommandEnv where
  /-- the test `cmd >= C_sceneMinimal && cmd < C_sceneMaximal` -/
  isSceneCmd : SLCommand → Bool
  /-- the test `prevProjection != (SLProjection)(cmd - C_projPersp)` -/
  perspectiveChanged : SLProjection → SLCommand → Bool
  /-- the call `s->onLoad(this, cmd)` -/
  onLoad : SLCommand → SLSceneView → SLSceneView
  /-- the call `s->nextCameraInScene(this)` -/
  nextCameraInScene : SLSceneView → Option SLCamera
  /-- the member `_sceneViewCamera` -/
  sceneViewCamera : SLCamera
  /-- the value `(SLint)((SLfloat)SL::dpi * 1.1f)` -/
  dpiTimes11 : Int → Int
  /-- the value `(SLint)((SLfloat)SL::dpi * 0.9f)` -/
  dpiTimes09 : Int → Int

/-- `SLSceneView::startRaytracing(maxDepth)`. -/
def SLSceneView.startRaytracing (g : SLGlobals) (sv : SLSceneView) (maxDepth : Int) :
    SLSceneView :=
  let sv1 := { sv with _renderType := SLRenderType.RT_rt }
  let sv2 := { sv1 with _stopRT := false }
  let sv3 := { sv2 with _raytracer := { sv2._raytracer with maxDepth := maxDepth } }
  { sv3 with _raytracer := { sv3._raytracer with
      aaSamples := if sv3._doMultiSampling && decide (g.dpi < 200) then 3 else 1 } }

/-- `SLSceneView::startPathtracing(maxDepth, samples)`. -/
def SLSceneView.startPathtracing (sv : SLSceneView) (maxDepth samples : Int) : SLSceneView :=
  let sv1 := { sv with _renderType := SLRenderType.RT_pt }
  let sv2 := { sv1 with _stopPT := false }
  let sv3 := { sv2 with _pathtracer := { sv2._pathtracer with maxDepth := maxDepth } }
  { sv3 with _pathtracer := { sv3._pathtracer with aaSamples := samples } }

/-- `SLSceneView::switchToSceneViewCamera()`; position and orientation of the
camera are not represented. -/
def SLSceneView.switchToSceneViewCamera (env : SLCommandEnv) (sv : SLSceneView) : SLSceneView :=
  { sv with _camera := some env.sceneViewCamera }

/-- The statement `_camera->projection(p)` followed, for the two mono
projections, by the reset of a finished ray tracer. -/
def setProjectionCmd (sv : SLSceneView) (cam : SLCamera) (p : SLProjection) (resetRT : Bool) :
    SLSceneView :=
  let sv1 := { sv with _camera := some { cam with projection := p } }
  if resetRT && decide (sv1._renderType = SLRenderType.RT_rt) && !sv1._raytracer.continuous &&
      decide (sv1._raytracer.state = SLRTState.rtFinished) then
    { sv1 with _raytracer := { sv1._raytracer with state := SLRTState.rtReady } }
  else sv1

/-- The first `switch (cmd)` of `onCommand`, entered with a camera set. The
first component is `some r` for `return r;` and `none` where the switch is left
by `break`. Speed, eye separation, focal distance, field of view, animation and
initial state belong to the camera alone and are not represented. -/
def onCommandCamera (env : SLCommandEnv) (cmd : SLCommand) (cam : SLCamera) (sv : SLSceneView) :
    Option Bool × SLSceneView :=
  match cmd with
  | .C_projPersp => (none, setProjectionCmd sv cam .P_monoPerspective true)
  | .C_projOrtho => (none, setProjectionCmd sv cam .P_monoOrthographic true)
  | .C_projSideBySide => (none, setProjectionCmd sv cam .P_stereoSideBySide false)
  | .C_projSideBySideP => (none, setProjectionCmd sv cam .P_stereoSideBySideP false)
  | .C_projSideBySideD => (none, setProjectionCmd sv cam .P_stereoSideBySideD false)
  | .C_projLineByLine => (none, setProjectionCmd sv cam .P_stereoLineByLine false)
  | .C_projColumnByColumn => (none, setProjectionCmd sv cam .P_stereoColumnByColumn false)
  | .C_projPixelByPixel => (none, setProjectionCmd sv cam .P_stereoPixelByPixel false)
  | .C_projColorRC => (none, setProjectionCmd sv cam .P_stereoColorRC false)
  | .C_projColorRG => (none, setProjectionCmd sv cam .P_stereoColorRG false)
  | .C_projColorRB => (none, setProjectionCmd sv cam .P_stereoColorRB false)
  | .C_projColorYB => (none, setProjectionCmd sv cam .P_stereoColorYB false)
  | .C_camSpeedLimitInc => (some true, sv)
  | .C_camSpeedLimitDec => (some true, sv)
  | .C_camEyeSepInc => (some true, sv)
  | .C_camEyeSepDec => (some true, sv)
  | .C_camFocalDistInc => (some true, sv)
  | .C_camFocalDistDec => (some true, sv)
  | .C_camFOVInc => (some true, sv)
  | .C_camFOVDec => (some true, sv)
  | .C_camAnimTurnYUp => (some true, sv)
  | .C_camAnimTurnZUp => (some true, sv)
  | .C_camAnimWalkYUp => (some true, sv)
  | .C_camAnimWalkZUp => (some true, sv)
  | .C_camAnimDeviceRotYUp => (some true, sv)
  | .C_camAnimDeviceRotYUpPosGPS => (some true, sv)
  | .C_camReset => (some true, sv)
  | .C_camSetNextInScene =>
    match env.nextCameraInScene sv with
    | none => (some false, sv)
    | some nextCam =>
      if nextCam.id ≠ cam.id then (some true, { sv with _camera := some nextCam })
      else (some true, { sv with _camera := some env.sceneViewCamera })
  | .C_camSetSceneViewCamera => (some true, sv.switchToSceneViewCamera env)
  | _ => (none, sv)

/-- The block `if (perspectiveChanged) ...` of `onCommand`; showing and hiding
the system cursor is left out. -/
def onCommandVrMode (env : SLCommandEnv) (cmd : SLCommand) (prevProjection : SLProjection)
    (sv : SLSceneView) : SLSceneView :=
  if env.perspectiveChanged prevProjection cmd then
    match cmd with
    | .C_projSideBySideD => { sv with _vrMode := true }
    | _ =>
      if prevProjection = SLProjection.P_stereoSideBySideD then { sv with _vrMode := false }
      else sv
  else sv

/-- The case `C_dpiInc` of `onCommand`, which the case `C_quit` falls into. -/
def onCommandDpiInc (env : SLCommandEnv) (g : SLGlobals) (sv : SLSceneView) :
    Bool × SLGlobals × SLSceneView :=
  if g.dpi < 500 then (true, { g with dpi := env.dpiTimes11 g.dpi }, sv)
  else (false, g, sv)

/-- The second `switch (cmd)` of `onCommand` with the final `return false`.
Calibration, video capture flags of other objects and the saving of images are
not represented. -/
def onCommandOther (env : SLCommandEnv) (cmd : SLCommand) (g : SLGlobals) (sv : SLSceneView) :
    Bool × SLGlobals × SLSceneView :=
  match cmd with
  | .C_quit => onCommandDpiInc env { g with shouldClose := true } sv
  | .C_dpiInc => onCommandDpiInc env g sv
  | .C_dpiDec =>
    if g.dpi > 140 then (true, { g with dpi := env.dpiTimes09 g.dpi }, sv) else (false, g, sv)
  | .C_mirrorHMainVideoToggle => (true, g, sv)
  | .C_mirrorVMainVideoToggle => (true, g, sv)
  | .C_mirrorHScndVideoToggle => (true, g, sv)
  | .C_mirrorVScndVideoToggle => (true, g, sv)
  | .C_calibFixAspectRatioToggle => (true, g, sv)
  | .C_calibFixPrincipPointalToggle => (true, g, sv)
  | .C_calibZeroTangentDistToggle => (true, g, sv)
  | .C_undistortVideoToggle => (true, g, sv)
  | .C_videoSizeIndexInc => (true, { g with requestedSizeIndex := g.requestedSizeIndex + 1 }, sv)
  | .C_videoSizeIndexDec => (true, { g with requestedSizeIndex := g.requestedSizeIndex - 1 }, sv)
  | .C_videoSizeIndexDefault => (true, { g with requestedSizeIndex := 0 }, sv)
  | .C_camSetSceneViewCamera => (true, g, sv.switchToSceneViewCamera env)
  | .C_waitEventsToggle => (true, g, { sv with _waitEvents := !sv._waitEvents })
  | .C_multiSampleToggle =>
    let sv1 := { sv with _doMultiSampling := !sv._doMultiSampling }
    (true, g, { sv1 with _raytracer := { sv1._raytracer with
      aaSamples := if sv1._doMultiSampling then 3 else 1 } })
  | .C_frustCullToggle => (true, g, { sv with _doFrustumCulling := !sv._doFrustumCulling })
  | .C_depthTestToggle => (true, g, { sv with _doDepthTest := !sv._doDepthTest })
  | .C_normalsToggle =>
    (true, g, { sv with _drawBits := { sv._drawBits with normals := !sv._drawBits.normals } })
  | .C_wireMeshToggle =>
    (true, g, { sv with _drawBits := { sv._drawBits with wiremesh := !sv._drawBits.wiremesh } })
  | .C_bBoxToggle =>
    (true, g, { sv with _drawBits := { sv._drawBits with bbox := !sv._drawBits.bbox } })
  | .C_axisToggle =>
    (true, g, { sv with _drawBits := { sv._drawBits with axis := !sv._drawBits.axis } })
  | .C_skeletonToggle =>
    (true, g, { sv with _drawBits := { sv._drawBits with skeleton := !sv._drawBits.skeleton } })
  | .C_voxelsToggle =>
    (true, g, { sv with _drawBits := { sv._drawBits with voxels := !sv._drawBits.voxels } })
  | .C_faceCullToggle =>
    (true, g, { sv with _drawBits := { sv._drawBits with culloff := !sv._drawBits.culloff } })
  | .C_textureToggle =>
    (true, g, { sv with _drawBits := { sv._drawBits with texoff := !sv._drawBits.texoff } })
  | .C_renderOpenGL => (true, g, { sv with _renderType := SLRenderType.RT_gl })
  | .C_rtContinuously =>
    (true, g, { sv with _raytracer := { sv._raytracer with
      continuous := !sv._raytracer.continuous } })
  | .C_rtDistributed =>
    (true, g, SLSceneView.startRaytracing g
      { sv with _raytracer := { sv._raytracer with
        distributed := !sv._raytracer.distributed } } 5)
  | .C_rt1 => (true, g, sv.startRaytracing g 1)
  | .C_rt2 => (true, g, sv.startRaytracing g 2)
  | .C_rt3 => (true, g, sv.startRaytracing g 3)
  | .C_rt4 => (true, g, sv.startRaytracing g 4)
  | .C_rt5 => (true, g, sv.startRaytracing g 5)
  | .C_rt6 => (true, g, sv.startRaytracing g 6)
  | .C_rt7 => (true, g, sv.startRaytracing g 7)
  | .C_rt8 => (true, g, sv.startRaytracing g 8)
  | .C_rt9 => (true, g, sv.startRaytracing g 9)
  | .C_rt0 => (true, g, sv.startRaytracing g 0)
  | .C_rtSaveImage => (true, g, sv)
  | .C_pt1 => (true, g, sv.startPathtracing 5 1)
  | .C_pt10 => (true, g, sv.startPathtracing 5 10)
  | .C_pt50 => (true, g, sv.startPathtracing 5 50)
  | .C_pt100 => (true, g, sv.startPathtracing 5 100)
  | .C_pt500 => (true, g, sv.startPathtracing 5 500)
  | .C_pt1000 => (true, g, sv.startPathtracing 5 1000)
  | .C_pt5000 => (true, g, sv.startPathtracing 5 5000)
  | .C_pt10000 => (true, g, sv.startPathtracing 5 100000)
  | .C_ptSaveImage => (true, g, sv)
  | _ => (false, g, sv)

/-- `SLSceneView::onCommand(cmd)`: the result, the process-wide variables and
the scene view afterwards. -/
def SLSceneView.onCommand (env : SLCommandEnv) (cmd : SLCommand) (g : SLGlobals)
    (sv : SLSceneView) : Bool × SLGlobals × SLSceneView :=
  if env.isSceneCmd cmd then (true, g, env.onLoad cmd sv)
  else
    match sv._camera with
    | none => onCommandOther env cmd g sv
    | some cam =>
      match onCommandCamera env cmd cam sv with
      | (some r, sv1) => (r, g, sv1)
      | (none, sv1) => onCommandOther env cmd g (onCommandVrMode env cmd cam.projection sv1)

/-! ### Painting a frame -/

/-- `SLSceneView::draw2DGLAll()`: the meshes of the 2D nodes are drawn blended,
without depth writes and depth test. The touch points and the turntable point,
drawn from a vertex array of the view on desktop builds, are left out. -/
def SLSceneView.draw2DGLAll (sv : SLSceneView) : Option SLSceneView :=
  let gl1 := { sv._stateGL with depthMask := false }
  let gl2 := { gl1 with depthTest := false }
  let gl3 := { gl2 with blend := true }
  (drawMeshesLoop sv._visibleNodes gl3).map (fun gl4 =>
    let gl5 := { gl4 with blend := false }
    let gl6 := { gl5 with depthMask := true }
    let gl7 := { gl6 with depthTest := true }
    { sv with _stateGL := gl7 })

/-- What `onPaint` calls outside of SLSceneView.cpp, besides the environment of
the 3D frame. -/
structure SLPaintEnv where
  draw : SLDrawEnv
  tracer : SLTracerOps
  /-- `SL::testDurationSec` -/
  testDurationSec : Int
  /-- `testRunIsFinished()` with its effect on the scene view -/
  testRunIsFinished : SLSceneView → Bool × SLSceneView
  /-- `_gui.onInitNewFrame(s, this)`: the GUI is built and may send commands
  to the scene view -/
  guiOnInitNewFrame : SLSceneView → SLSceneView
  /-- `s->root2D()`: `none` for a null root, otherwise the effect of
  `root2D()->cull2DRec(this)` on the scene view -/
  root2D : Option (SLSceneView → SLSceneView)

/-- `SLSceneView::draw2DGL()`. The orthographic projection, the viewport and
the rendering of the GUI are left out. -/
def SLSceneView.draw2DGL (env : SLPaintEnv) (sv : SLSceneView) : Option SLSceneView :=
  match sv._camera with
  | none => some sv
  | some cam =>
    if cam.projection ≠ SLProjection.P_stereoSideBySideD then
      let sv1 := { sv with _visibleNodes := [] }
      let sv2 :=
        match env.root2D with
        | some cull2DRec => cull2DRec sv1
        | none => sv1
      sv2.draw2DGLAll
    else some sv

/-- The 3D part of `onPaint`: nothing without a camera, otherwise the renderer
selected by `_renderType`; the first component is `camUpdated`. -/
def SLSceneView.onPaint3D (env : SLPaintEnv) (sv : SLSceneView) : Option (Bool × SLSceneView) :=
  match sv._camera with
  | none => some (false, sv)
  | some _ =>
    match sv._renderType with
    | .RT_gl => sv.draw3DGL env.draw
    | .RT_rt => some (sv.draw3DRT env.tracer)
    | .RT_pt => some (sv.draw3DPT env.tracer)

/-- `SLSceneView::onPaint()` from the GUI set-up to the assignment of
`_gotPainted`: the value of `camUpdated` and the scene view right before the
statements that compute the result. Unbinding and flushing of the OpenGL state
and the end of the Oculus frame are left out. -/
def SLSceneView.onPaintFrame (env : SLPaintEnv) (sv : SLSceneView) :
    Option (Bool × SLSceneView) := do
  let sv1 := env.guiOnInitNewFrame sv
  let (camUpdated, sv2) ← sv1.onPaint3D env
  let sv3 ← sv2.draw2DGL env
  let gotPainted :=
    decide (sv3._renderType = SLRenderType.RT_gl) ||
      decide (sv3._raytracer.state ≠ SLRTState.rtBusy)
  pure (camUpdated, { sv3 with _gotPainted := gotPainted })

/-- The last statements of `onPaint`: true on the first frame, which clears
`_isFirstFrame`, otherwise `!_waitEvents || camUpdated`. -/
def onPaintResult (camUpdated : Bool) (sv : SLSceneView) : Bool × SLSceneView :=
  if sv._isFirstFrame then (true, { sv with _isFirstFrame := false })
  else (!sv._waitEvents || camUpdated, sv)

/-- `SLSceneView::onPaint()`. -/
def SLSceneView.onPaint (env : SLPaintEnv) (sv : SLSceneView) : Option (Bool × SLSceneView) :=
  if env.testDurationSec > 0 ∧ (env.testRunIsFinished sv).1 = true then
    some (false, (env.testRunIsFinished sv).2)
  else
    let sv0 := if env.testDurationSec > 0 then (env.testRunIsFinished sv).2 else sv
    (sv0.onPaintFrame env).map (fun r => onPaintResult r.1 r.2)

/-- The number `nr` that `SLSceneView::windowTitle()` prints as the count of
rendered nodes in OpenGL mode: the sum of the two sizes as `SLuint`. -/
def SLSceneView.windowTitleNodes (sv : SLSceneView) : Nat :=
  (sv._visibleNodes.length % 4294967296 + sv._blendNodes.length % 4294967296) % 4294967296

/-! ## The bounding box of the scene in view space -/

/-- The constant `FLT_MAX`, the float `(2^24 - 1) * 2^104`: in units of
`2^-149` it is `(2^24 - 1) * 2^253`. -/
def FLT_MAX : Int := (2 ^ 24 - 1) * 2 ^ 253

/-- The constant `FLT_MIN`, the smallest positive normalised float `2^-126`: in
units of `2^-149` it is `2^23`. -/
def FLT_MIN : Int := 2 ^ 23

/-- The members of `SLVec3f`; `SLVec4f` values are used by
`initSceneViewCamera` through `x`, `y` and `z` only. The components are
numbers, carried like the numbers of `SLfloat` by integers in units of
`2^-149`. A NaN component is not represented: `min` and `max` are not defined
in the sources, and their definitions differ on a NaN operand only. -/
structure SLVec3f where
  x : Int
  y : Int
  z : Int
  deriving DecidableEq, Repr

/-- The function `min(a, b)` on numbers. -/
def minf (a b : Int) : Int := if b < a then b else a

/-- The function `max(a, b)` on numbers. -/
def maxf (a b : Int) : Int := if a < b then b else a

/-- The array `vsCorners[0..7]` as `initSceneViewCamera` fills it from
`minWS()` and `maxWS()` of the scene bounds. -/
def boxCorners (minWS maxWS : SLVec3f) : List SLVec3f :=
  [⟨minWS.x, minWS.y, minWS.z⟩, ⟨maxWS.x, minWS.y, minWS.z⟩,
   ⟨minWS.x, maxWS.y, minWS.z⟩, ⟨maxWS.x, maxWS.y, minWS.z⟩,
   ⟨minWS.x, minWS.y, maxWS.z⟩, ⟨maxWS.x, minWS.y, maxWS.z⟩,
   ⟨minWS.x, maxWS.y, maxWS.z⟩, ⟨maxWS.x, maxWS.y, maxWS.z⟩]

/-- One run of the body of the loop `for (i = 0; i < 8; ++i)` of
`initSceneViewCamera` on the pair `(vsMin, vsMax)`; `vm` is the product
`vm * vsCorners[i]` of `SLMat4f`, which is not among the sources. -/
def viewSpaceStep (vm : SLVec3f → SLVec3f) (acc : SLVec3f × SLVec3f) (corner : SLVec3f) :
    SLVec3f × SLVec3f :=
  let c := vm corner
  (⟨minf acc.1.x c.x, minf acc.1.y c.y, minf acc.1.z c.z⟩,
   ⟨maxf acc.2.x c.x, maxf acc.2.y c.y, maxf acc.2.z c.z⟩)

/-- The pair `(vsMin, vsMax)` of `SLSceneView::initSceneViewCamera` after the
loop over the eight corners. -/
def viewSpaceMinMax (vm : SLVec3f → SLVec3f) (minWS maxWS : SLVec3f) : SLVec3f × SLVec3f :=
  (boxCorners minWS maxWS).foldl (viewSpaceStep vm)
    (⟨FLT_MAX, FLT_MAX, FLT_MAX⟩, ⟨FLT_MIN, FLT_MIN, FLT_MIN⟩)

/-- The value `m` is the minimum of the list: it bounds every entry from below
and is one of the entries. -/
def IsMinOf (m : Int) (l : List Int) : Prop := (∀ v ∈ l, m ≤ v) ∧ m ∈ l

/-- The value `m` is the maximum of the list: it bounds every entry from above
and is one of the entries. -/
def IsMaxOf (m : Int) (l : List Int) : Prop := (∀ v ∈ l, v ≤ m) ∧ m ∈ l

/-- The eight corners of the box transformed into view space. -/
def viewSpaceCorners (vm : SLVec3f → SLVec3f) (minWS maxWS : SLVec3f) : List SLVec3f :=
  (boxCorners minWS maxWS).map vm

/-! ## The IFC importer of the asset import library -/

/-- An `IOStream`, by its bytes. -/
abbrev IOStream := List Nat

/-- An `IOSystem`, by its method `Open`; `none` is the null stream. -/
structure IOSystem where
  Open : String → Option IOStream

/-- A member of a zip archive as the importer sees it through the unzip
library: the name, `uncompressed_size`, the return value of
`unzReadCurrentFile` and the bytes it delivers. -/
structure ZipMember where
  filename : String
  uncompressedSize : Nat
  readResult : Int
  data : List Nat
  deriving DecidableEq, Repr

/-- The members of `STEP::HeaderInfo` that the importer reads. -/
structure HeaderInfo where
  fileSchema : String
  timestamp : String
  app : String
  deriving DecidableEq, Repr

/-- A `STEP::DB`, by its header and an identifier for the rest. -/
structure STEPDB where
  header : HeaderInfo
  id : Nat
  deriving DecidableEq, Repr

/-- The counts that the importer writes into the `aiScene`. -/
structure aiScene where
  mNumMeshes : Nat
  mNumMaterials : Nat
  deriving DecidableEq, Repr

/-- The exceptions of `IFCImporter::InternReadFile`, one for each
`ThrowException` of the function; `other` is an exception raised by a function
that `InternReadFile` calls. -/
inductive IFCError where
  | couldNotOpen
  | unzipFailed
  | decompressFailed
  | noMember1
  | noMember2
  | noZipSupport
  | unrecognizedSchema (fileSchema : String)
  | missingProject
  | other (message : String)
  deriving DecidableEq, Repr

/-- The text handed to `ThrowException`. -/
def IFCError.message : IFCError → String
  | .couldNotOpen => "Could not open file for reading"
  | .unzipFailed => "Could not open ifczip file for reading, unzip failed"
  | .decompressFailed => "Failed to decompress IFC ZIP file"
  | .noMember1 => "Found no IFC file member in IFCZIP file (1)"
  | .noMember2 => "Found no IFC file member in IFCZIP file (2)"
  | .noZipSupport =>
    "Could not open ifczip file for reading, assimp was built without ifczip support"
  | .unrecognizedSchema fileSchema => "Unrecognized file schema: " ++ fileSchema
  | .missingProject => "missing IfcProject entity"
  | .other message => message

/-- What the importer calls outside of IFCLoader.cpp. A callee reports an
exception by its text. -/
structure IFCEnv where
  /-- `BaseImporter::GetExtension` -/
  GetExtension : String → String
  /-- `BaseImporter::SearchFileHeaderForToken(pIOHandler, pFile, tokens, 1)` -/
  SearchFileHeaderForToken : IOSystem → String → List String → Bool
  /-- the build has `ASSIMP_BUILD_NO_COMPRESSED_IFC` not defined -/
  compressedIFC : Bool
  /-- `unzOpen`: the members of the archive in directory order, `none` for
  `NULL` -/
  unzOpen : String → Option (List ZipMember)
  /-- `STEP::ReadFileHeader` -/
  ReadFileHeader : IOStream → Except String STEPDB
  /-- `STEP::ReadFile` with the schema and the tracked types -/
  ReadFile : STEPDB → Except String STEPDB
  /-- `db->GetObject(type)`: an identifier of the object, `none` for null -/
  GetObject : STEPDB → String → Option Nat
  /-- the conversion of the project into the scene, from `ConversionData` to
  the final copying -/
  convert : STEPDB → Nat → Except String aiScene

/-- `IFCImporter::CanRead(pFile, pIOHandler, checkSig)`; `none` is a null
`pIOHandler`. -/
def IFCImporter.CanRead (env : IFCEnv) (pFile : String) (pIOHandler : Option IOSystem)
    (checkSig : Bool) : Bool :=
  let extension := env.GetExtension pFile
  if extension = "ifc" ∨ extension = "ifczip" then true
  else
    match pIOHandler with
    | some io =>
      if extension.length = 0 ∨ checkSig = true then
        env.SearchFileHeaderForToken io pFile ["ISO-10303-21"]
      else false
    | none => false

/-- The loop `do ... while(true)` of `InternReadFile` over the members of the
archive, run for at most `fuel` passes of the body with the archive positioned
at `current`; `none` when the passes are used up. The statement `continue`
leads to the test `while(true)` and from there to the next pass of the body;
the call of `unzGoToNextFile` stands behind `break` and is never reached, so the
archive stays positioned at the same member. -/
def IFCImporter.memberLoop (env : IFCEnv) : Nat → ZipMember → Option (Except IFCError IOStream)
  | 0, _ => none
  | fuel + 1, current =>
    if env.GetExtension current.filename ≠ "ifc" then IFCImporter.memberLoop env fuel current
    else if current.readResult < 0 ∨ current.readResult.toNat ≠ current.uncompressedSize then
      some (.error .decompressFailed)
    else some (.ok current.data)

/-- The block of `InternReadFile` for an ifczip file: the stream to read from.
`unzGoToFirstFile` succeeds when the archive has a member. -/
def IFCImporter.openZip (env : IFCEnv) (fuel : Nat) (pFile : String) :
    Option (Except IFCError IOStream) :=
  if env.compressedIFC then
    match env.unzOpen pFile with
    | none => some (.error .unzipFailed)
    | some [] => some (.error .noMember2)
    | some (first :: _) => IFCImporter.memberLoop env fuel first
  else some (.error .noZipSupport)

/-- The exception of a callee as an exception of `InternReadFile`. -/
def liftCallee {α : Type} : Except String α → Except IFCError α
  | .ok a => .ok a
  | .error message => .error (.other message)

/-- `IFCImporter::InternReadFile` from `STEP::ReadFileHeader` on; the debug
log is left out. -/
def IFCImporter.readStream (env : IFCEnv) (stream : IOStream) : Except IFCError aiScene :=
  match liftCallee (env.ReadFileHeader stream) with
  | .error e => .error e
  | .ok db =>
    if db.header.fileSchema.length = 0 ∨ db.header.fileSchema.take 3 ≠ "IFC" then
      .error (.unrecognizedSchema db.header.fileSchema)
    else
      match liftCallee (env.ReadFile db) with
      | .error e => .error e
      | .ok db1 =>
        match env.GetObject db1 "ifcproject" with
        | none => .error .missingProject
        | some proj => liftCallee (env.convert db1 proj)

/-- `IFCImporter::InternReadFile(pFile, pScene, pIOHandler)`: the exception or
the scene; `none` when the member loop has not ended within `fuel` passes. -/
def IFCImporter.InternReadFile (env : IFCEnv) (fuel : Nat) (pFile : String)
    (pIOHandler : IOSystem) : Option (Except IFCError aiScene) :=
  match pIOHandler.Open pFile with
  | none => some (.error .couldNotOpen)
  | some stream =>
    if env.GetExtension pFile = "ifczip" then
      match IFCImporter.openZip env fuel pFile with
      | none => none
      | some (.error e) => some (.error e)
      | some (.ok zipStream) => some (IFCImporter.readStream env zipStream)
    else some (IFCImporter.readStream env stream)

/-! ## The scene-view registry of the scene -/

/-- A value of type `SLSceneView*`: `none` is the null pointer, `some a` points
to the scene view at address `a`. -/
abbrev SLSceneViewPtr := Option Nat

/-- The vector `SLScene::_sceneViews`, which `sceneViews()` returns by reference. -/
structure SLScene where
  _sceneViews : List SLSceneViewPtr
  deriving DecidableEq, Repr

/-- The loop `for (i=0; i<sceneViews().size(); ++i)` of the constructor,
started at index `i` on the rest of the vector: on the first null entry it
stores `this` and yields the vector and the index, `none` when it runs off
the end. -/
def fillFirstGap (this : Nat) : List SLSceneViewPtr → Nat → Option (List SLSceneViewPtr × Nat)
  | [], _ => none
  | none :: rest, i => some (some this :: rest, i)
  | some v :: rest, i =>
    match fillFirstGap this rest (i + 1) with
    | some (rest1, k) => some (some v :: rest1, k)
    | none => none

/-- The constructor `SLSceneView::SLSceneView()` for the object at address
`this`: the scene afterwards and the value given to `_index`. -/
def SLSceneView.ctor (s : SLScene) (this : Nat) : SLScene × Nat :=
  match fillFirstGap this s._sceneViews 0 with
  | some (views, i) => ({ s with _sceneViews := views }, i)
  | none =>
    let views := s._sceneViews ++ [some this]
    ({ s with _sceneViews := views }, views.length - 1)

/-- The destructor `SLSceneView::~SLSceneView()` of a view whose member
`_index` is `index`; `none` when the index is outside the vector. The release
of the OpenGL objects of the GUI is left out. -/
def SLSceneView.dtor (s : SLScene) (index : Nat) : Option SLScene :=
  if index < s._sceneViews.length then some { s with _sceneViews := s._sceneViews.set index none }
  else none

/-- One scene with its scene-view objects: each live object is listed with its
address and its member `_index`. -/
structure SLWorld where
  scene : SLScene
  views : List (Nat × Nat)
  deriving DecidableEq, Repr

/-- Construction or destruction of the scene view at an address. -/
inductive SLViewOp where
  | construct (addr : Nat)
  | destruct (addr : Nat)
  deriving DecidableEq, Repr

/-- The member `_index` of the live view at address `a`. -/
def SLWorld.indexOf (w : SLWorld) (a : Nat) : Option Nat :=
  (w.views.find? (fun v => v.1 = a)).map Prod.snd

/-- Run one operation. A view can only be constructed at an address that holds
no live view, and only a live view can be destroyed. -/
def SLWorld.step (w : SLWorld) : SLViewOp → Option SLWorld
  | .construct a =>
    match w.indexOf a with
    | some _ => none
    | none =>
      let r := SLSceneView.ctor w.scene a
      some { scene := r.1, views := w.views ++ [(a, r.2)] }
  | .destruct a =>
    match w.indexOf a with
    | none => none
    | some i =>
      match SLSceneView.dtor w.scene i with
      | some s1 => some { scene := s1, views := w.views.filter (fun v => v.1 ≠ a) }
      | none => none

/-- Run a sequence of operations. -/
def SLWorld.run (w : SLWorld) : List SLViewOp → Option SLWorld
  | [] => some w
  | op :: ops => (w.step op).bind (fun w1 => w1.run ops)

/-- A scene right after its creation: no scene view registered. -/
def SLWorld.init : SLWorld := { scene := { _sceneViews := [] }, views := [] }

/-! ## Properties used to state the results -/

/-- Node `a` stands somewhere before node `b` in the list `l`. -/
def Precedes (l : List SLNode) (a b : SLNode) : Prop := List.Sublist [a, b] l

/-- Nodes of equal squared view distance keep in `output` the relative order
they have in `input`. -/
def TiesKeepOrder (input output : List SLNode) : Prop :=
  ∀ a b, a.sqrViewDist.eq b.sqrViewDist = true → Precedes input a b → Precedes output a b

/-- The nodes of the list whose squared view distance is the number `d`, in
list order. -/
def nodesAtDist (d : Int) (l : List SLNode) : List SLNode :=
  l.filter (fun n => decide (n.sqrViewDist = .num d))

/-- OpenGL state with blending off, depth writes and depth test on, and no
draw call issued yet. -/
def freshGL : SLGLState :=
  { blend := false, depthMask := true, depthTest := true, multiSample := true, calls := [] }

/-- A scene view in OpenGL mode with the given node vectors, no camera and a
fresh OpenGL state. -/
def sampleView (vis bl : SLVNode) : SLSceneView :=
  { _index := 0, _scrW := 640, _scrH := 480, _scrWdiv2 := 320, _scrHdiv2 := 240,
    _scrWdivH := 4 / 3, _renderType := SLRenderType.RT_gl, _stopRT := false, _stopPT := false,
    _raytracer := ⟨SLRTState.rtReady, false, false, 5, 1⟩,
    _pathtracer := ⟨SLRTState.rtReady, false, false, 5, 1⟩,
    _camera := none, _visibleNodes := vis, _blendNodes := bl,
    _drawBits := ⟨false, false, true, false, false, false, false, false, false⟩,
    _doDepthTest := true, _doMultiSampling := true, _doFrustumCulling := true,
    _waitEvents := true, _isFirstFrame := false, _gotPainted := true, _vrMode := false,
    _stateGL := freshGL }

/-- A perspective camera at address 100. -/
def sampleCamera : SLCamera := { id := 100, projection := SLProjection.P_monoPerspective }

/-- A scene of four nodes: a root without meshes, below it an opaque node 1,
a transparent node 2 and a node 3 outside the frustum. -/
def sampleTree : SLNodeTree :=
  .mk { plainNode 10 50 with numMeshes := 0 } false false
    [.mk (plainNode 1 5) false false [],
     .mk (plainNode 2 9) false true [],
     .mk (plainNode 3 7) true false []]

/-- Environment of a frame over `sampleTree` with empty hooks and a camera that
reports no update. -/
def sampleDrawEnv : SLDrawEnv :=
  { stdSort := stableInsertionSort, preDraw := id, postDraw := id,
    camUpdate := fun _ => false, root3D := some sampleTree.cull3DRec }

/-- A scene view with `sampleCamera` whose vectors still hold the nodes 7 and 8
of an earlier frame. -/
def sampleFrameView : SLSceneView :=
  { sampleView [some (plainNode 7 1)] [some (plainNode 8 2)] with _camera := some sampleCamera }

/-- Tracer methods that leave the tracer object as it is. -/
def sampleTracerOps : SLTracerOps :=
  { renderClassic := id, renderDistrib := id, render := id, renderImage := id }

/-- Key environment with a 3D root loaded, the keyboard not captured by the
GUI, a command dispatcher that accepts every command and no event handler. -/
def sampleKeyEnv : SLKeyEnv :=
  { hasRoot3D := true, wantCaptureKeyboard := false, onCommand := fun _ sv => (true, sv),
    cameraOnKeyPress := fun _ _ => false, eventHandlers := [] }

/-- A scene view that is ray tracing continuously. -/
def sampleViewRT : SLSceneView :=
  { sampleFrameView with
    _renderType := SLRenderType.RT_rt,
    _raytracer := ⟨SLRTState.rtBusy, true, false, 5, 3⟩ }

/-- A scene view that is path tracing. -/
def sampleViewPT : SLSceneView :=
  { sampleFrameView with _renderType := SLRenderType.RT_pt }

/-- The ray tracing commands `C_rt<d>` with their digit `d`. -/
def rtCommands : List (Int × SLCommand) :=
  [(0, .C_rt0), (1, .C_rt1), (2, .C_rt2), (3, .C_rt3), (4, .C_rt4), (5, .C_rt5),
   (6, .C_rt6), (7, .C_rt7), (8, .C_rt8), (9, .C_rt9)]

/-- The path tracing commands `C_pt<N>` with the number `N` of their name, which
is also the number that the menu entry of the GUI compares `aaSamples()` with. -/
def ptCommands : List (Int × SLCommand) :=
  [(1, .C_pt1), (10, .C_pt10), (50, .C_pt50), (100, .C_pt100), (500, .C_pt500),
   (1000, .C_pt1000), (5000, .C_pt5000), (10000, .C_pt10000)]

/-- Process-wide variables with a resolution of 142 dpi. -/
def sampleGlobals : SLGlobals := { dpi := 142, requestedSizeIndex := 0, shouldClose := false }

/-- Command environment in which the scene commands named in SLSceneView.cpp
are the only ones inside the scene range. -/
def sampleCommandEnv : SLCommandEnv :=
  { isSceneCmd := fun c =>
      match c with
      | .C_sceneMinimal => true
      | .C_sceneLargeModel => true
      | _ => false,
    perspectiveChanged := fun _ _ => true,
    onLoad := fun _ sv => sv,
    nextCameraInScene := fun _ => none,
    sceneViewCamera := sampleCamera,
    dpiTimes11 := fun d => d * 11 / 10,
    dpiTimes09 := fun d => d * 9 / 10 }

/-- Paint environment over `sampleDrawEnv`: no test run, a GUI that sends no
command and no 2D scene. -/
def samplePaintEnv : SLPaintEnv :=
  { draw := sampleDrawEnv, tracer := sampleTracerOps, testDurationSec := 0,
    testRunIsFinished := fun sv => (false, sv), guiOnInitNewFrame := id, root2D := none }

/-- The extension of the file names used in the examples, as
`BaseImporter::GetExtension` gives it: the part behind the last dot in lower
case. -/
def sampleGetExtension (file : String) : String :=
  if file = "model.ifc" then "ifc"
  else if file = "model.ifczip" then "ifczip"
  else if file = "readme.txt" then "txt"
  else if file = "model.stp" then "stp"
  else ""

/-- A STEP data base with the given file schema. -/
def sampleDB (fileSchema : String) : STEPDB :=
  { header := { fileSchema := fileSchema, timestamp := "", app := "" }, id := 1 }

/-- Importer environment: a stream whose first byte is 1 carries the header
schema `IFC2X3`, any other stream the schema `AP214`; every data base has an
`ifcproject` object; the archive `model.ifczip` holds `readme.txt` followed by
`model.ifc`. -/
def sampleIFCEnv : IFCEnv :=
  { GetExtension := sampleGetExtension,
    SearchFileHeaderForToken := fun _ _ _ => true,
    compressedIFC := true,
    unzOpen := fun _ => some
      [{ filename := "readme.txt", uncompressedSize := 2, readResult := 2, data := [0, 0] },
       { filename := "model.ifc", uncompressedSize := 2, readResult := 2, data := [1, 0] }],
    ReadFileHeader := fun stream =>
      if stream.head? = some 1 then .ok (sampleDB "IFC2X3") else .ok (sampleDB "AP214"),
    ReadFile := fun db => .ok db,
    GetObject := fun _ type => if type = "ifcproject" then some 7 else none,
    convert := fun _ _ => .ok { mNumMeshes := 1, mNumMaterials := 1 } }

/-- An `IOSystem` in which every file opens; `model.ifc` starts with the byte
1, every other file with the byte 0. -/
def sampleIO : IOSystem :=
  { Open := fun file => if file = "model.ifc" then some [1, 0] else some [0, 0] }

/-- The float 1.0 in units of `2^-149`. -/
def oneF : Int := 2 ^ 149

/-- The view matrix of a camera that sits in the origin and looks along the
negative z axis: `vm * v` is `v`. -/
def identityVM : SLVec3f → SLVec3f := fun v => v

/-- The corner `minWS()` of a flat scene: a square in the plane `z = 0`. -/
def flatBoxMin : SLVec3f := ⟨-oneF, -oneF, 0⟩

/-- The corner `maxWS()` of the flat scene. -/
def flatBoxMax : SLVec3f := ⟨oneF, oneF, 0⟩

/-- Every live scene view sits in the slot of the vector that its `_index`
names, and no two live views share an address. -/
def SLWorld.Registered (w : SLWorld) : Prop :=
  (∀ a i, (a, i) ∈ w.views → w.scene._sceneViews[i]? = some (some a)) ∧
  (w.views.map Prod.fst).Nodup

/-! ## std::sort: the comparison and two implementations -/

theorem SLfloat.eq_num_of_isNaN_false {f : SLfloat} (h : f.isNaN = false) : ∃ v, f = .num v := by
  cases f with
  | nan => simp [SLfloat.isNaN] at h
  | num v => exact ⟨v, rfl⟩

/-- An entry of a vector whose nodes have no NaN distance is a null pointer or
a node whose distance is a number. -/
theorem null_or_num_of_mem {l : SLVNode}
    (hnan : ∀ n : SLNode, some n ∈ l → n.sqrViewDist.isNaN = false) :
    ∀ p ∈ l, p = none ∨ ∃ (n : SLNode) (v : Int), p = some n ∧ n.sqrViewDist = .num v := by
  intro p hp
  cases p with
  | none => exact Or.inl rfl
  | some n =>
    obtain ⟨v, hv⟩ := SLfloat.eq_num_of_isNaN_false (hnan n hp)
    exact Or.inr ⟨n, v, rfl, hv⟩

/-- On a vector none of whose nodes has a NaN as squared view distance the
comparison of `draw3DGLNodes` is a strict weak ordering. -/
theorem depthCompare_strictWeakOrdering (l : SLVNode)
    (hnan : ∀ n : SLNode, some n ∈ l → n.sqrViewDist.isNaN = false) :
    StrictWeakOrdering depthCompare l := by
  have key := null_or_num_of_mem hnan
  refine ⟨?_, ?_, ?_⟩
  · intro a ha
    rcases key a ha with rfl | ⟨na, va, rfl, hva⟩
    · rfl
    · simp [depthCompare, SLfloat.gt, SLfloat.lt, hva]
  · intro a ha b hb c hc
    rcases key a ha with rfl | ⟨na, va, rfl, hva⟩ <;>
    rcases key b hb with rfl | ⟨nb, vb, rfl, hvb⟩ <;>
    rcases key c hc with rfl | ⟨nc, vc, rfl, hvc⟩ <;>
      simp only [depthCompare, Bool.false_eq_true, false_implies, implies_true]
    rw [hva, hvb, hvc]
    simp only [SLfloat.gt, SLfloat.lt, decide_eq_true_eq]
    intro h1 h2
    exact lt_trans h2 h1
  · intro a ha b hb c hc
    rcases key a ha with rfl | ⟨na, va, rfl, hva⟩ <;>
    rcases key b hb with rfl | ⟨nb, vb, rfl, hvb⟩ <;>
    rcases key c hc with rfl | ⟨nc, vc, rfl, hvc⟩ <;>
      simp only [depthCompare, Bool.false_eq_true, false_implies, implies_true, and_self,
        Bool.true_eq_false]
    rw [hva, hvb, hvc]
    simp only [SLfloat.gt, SLfloat.lt, decide_eq_false_iff_not, not_lt]
    intro h1 h2 h3 h4
    omega

/-- With a NaN among the distances the comparison of `draw3DGLNodes` is not a
strict weak ordering: the node of distance 1 and the node of distance 3 are
both equivalent to the NaN node and not to each other. -/
theorem depthCompare_nan_not_strictWeakOrdering :
    ¬ StrictWeakOrdering depthCompare
        ([plainNode 1 5, plainNode 2 1, nanNode 3, plainNode 4 3].map some) := by
  intro h
  have h1 := (h.2.2 (some (plainNode 2 1)) (by simp) (some (nanNode 3)) (by simp)
    (some (plainNode 4 3)) (by simp) (by decide) (by decide) (by decide) (by decide)).2
  revert h1
  decide

theorem StrictWeakOrdering.asymm {comp : SLNodePtr → SLNodePtr → Bool} {l : SLVNode}
    (h : StrictWeakOrdering comp l) {a b : SLNodePtr} (ha : a ∈ l) (hb : b ∈ l)
    (hab : comp a b = true) : comp b a = false := by
  cases hba : comp b a with
  | false => rfl
  | true =>
    have := h.2.1 a ha b hb a ha hab hba
    rw [h.1 a ha] at this
    exact absurd this (by simp)

theorem StrictWeakOrdering.negTrans {comp : SLNodePtr → SLNodePtr → Bool} {l : SLVNode}
    (h : StrictWeakOrdering comp l) {a b c : SLNodePtr} (ha : a ∈ l) (hb : b ∈ l) (hc : c ∈ l)
    (hab : comp a b = false) (hbc : comp b c = false) : comp a c = false := by
  cases hac : comp a c with
  | false => rfl
  | true =>
    cases hcb : comp c b with
    | true =>
      have := h.2.1 a ha c hc b hb hac hcb
      rw [hab] at this
      exact absurd this (by simp)
    | false =>
      cases hba : comp b a with
      | true =>
        have := h.2.1 b hb a ha c hc hba hac
        rw [hbc] at this
        exact absurd this (by simp)
      | false =>
        have := (h.2.2 a ha b hb c hc hab hba hbc hcb).1
        rw [hac] at this
        exact absurd this (by simp)

theorem insertSorted_perm (comp : SLNodePtr → SLNodePtr → Bool) (x : SLNodePtr) (l : SLVNode) :
    (insertSorted comp x l).Perm (x :: l) := by
  induction l with
  | nil => simp [insertSorted]
  | cons y ys ih =>
    unfold insertSorted
    split
    · exact List.Perm.refl _
    · exact (List.Perm.cons y ih).trans (List.Perm.swap x y ys)

theorem insertSorted_sorted {comp : SLNodePtr → SLNodePtr → Bool} {r : SLVNode}
    (h : StrictWeakOrdering comp r) (x : SLNodePtr) (hx : x ∈ r) (l : SLVNode)
    (hr : ∀ y ∈ l, y ∈ r) (hl : SortedWrt comp l) :
    SortedWrt comp (insertSorted comp x l) := by
  induction l with
  | nil => simp [insertSorted, SortedWrt]
  | cons y ys ih =>
    have hy : y ∈ r := hr y (List.mem_cons_self _ _)
    have hys : ∀ z ∈ ys, z ∈ r := fun z hz => hr z (List.mem_cons_of_mem _ hz)
    unfold SortedWrt at hl ih ⊢
    rw [List.pairwise_cons] at hl
    unfold insertSorted
    split
    next hxy =>
      refine List.Pairwise.cons ?_ (List.Pairwise.cons hl.1 hl.2)
      intro b hb
      rcases List.mem_cons.1 hb with rfl | hb
      · exact h.asymm hx hy hxy
      · cases hbx : comp b x with
        | false => rfl
        | true =>
          have := h.2.1 b (hys b hb) x hx y hy hbx hxy
          rw [hl.1 b hb] at this
          exact absurd this (by simp)
    next hxy =>
      refine List.Pairwise.cons ?_ (ih hys hl.2)
      intro b hb
      rcases List.mem_cons.1 ((insertSorted_perm comp x ys).subset hb) with rfl | hb
      · simp at hxy; exact hxy
      · exact hl.1 b hb

theorem insertSortedEarly_perm (comp : SLNodePtr → SLNodePtr → Bool) (x : SLNodePtr)
    (l : SLVNode) : (insertSortedEarly comp x l).Perm (x :: l) := by
  induction l with
  | nil => simp [insertSortedEarly]
  | cons y ys ih =>
    unfold insertSortedEarly
    split
    · exact (List.Perm.cons y ih).trans (List.Perm.swap x y ys)
    · exact List.Perm.refl _

theorem insertSortedEarly_sorted {comp : SLNodePtr → SLNodePtr → Bool} {r : SLVNode}
    (h : StrictWeakOrdering comp r) (x : SLNodePtr) (hx : x ∈ r) (l : SLVNode)
    (hr : ∀ y ∈ l, y ∈ r) (hl : SortedWrt comp l) :
    SortedWrt comp (insertSortedEarly comp x l) := by
  induction l with
  | nil => simp [insertSortedEarly, SortedWrt]
  | cons y ys ih =>
    have hy : y ∈ r := hr y (List.mem_cons_self _ _)
    have hys : ∀ z ∈ ys, z ∈ r := fun z hz => hr z (List.mem_cons_of_mem _ hz)
    unfold SortedWrt at hl ih ⊢
    rw [List.pairwise_cons] at hl
    unfold insertSortedEarly
    split
    next hyx =>
      refine List.Pairwise.cons ?_ (ih hys hl.2)
      intro b hb
      rcases List.mem_cons.1 ((insertSortedEarly_perm comp x ys).subset hb) with rfl | hb
      · exact h.asymm hy hx hyx
      · exact hl.1 b hb
    next hyx =>
      have hyx1 : comp y x = false := by simpa using hyx
      refine List.Pairwise.cons ?_ (List.Pairwise.cons hl.1 hl.2)
      intro b hb
      rcases List.mem_cons.1 hb with rfl | hb
      · exact hyx1
      · exact h.negTrans (hys b hb) hy hx (hl.1 b hb) hyx1

theorem foldl_insert_contract (ins : SLNodePtr → SLVNode → SLVNode)
    (comp : SLNodePtr → SLNodePtr → Bool) (r : SLVNode)
    (hperm : ∀ x l, (ins x l).Perm (x :: l))
    (hsorted : ∀ x l, x ∈ r → (∀ y ∈ l, y ∈ r) → SortedWrt comp l → SortedWrt comp (ins x l))
    (l acc : SLVNode) (hl : ∀ y ∈ l, y ∈ r) (hr : ∀ y ∈ acc, y ∈ r)
    (hacc : SortedWrt comp acc) :
    (l.foldl (fun acc x => ins x acc) acc).Perm (l ++ acc) ∧
      SortedWrt comp (l.foldl (fun acc x => ins x acc) acc) := by
  induction l generalizing acc with
  | nil => exact ⟨List.Perm.refl _, hacc⟩
  | cons x xs ih =>
    have hx : x ∈ r := hl x (List.mem_cons_self _ _)
    have hr1 : ∀ y ∈ ins x acc, y ∈ r := by
      intro y hy
      rcases List.mem_cons.1 ((hperm x acc).subset hy) with rfl | hy
      · exact hx
      · exact hr y hy
    obtain ⟨hp, hs⟩ := ih (ins x acc) (fun y hy => hl y (List.mem_cons_of_mem _ hy)) hr1
      (hsorted x acc hx hr hacc)
    refine ⟨?_, hs⟩
    refine hp.trans ?_
    refine ((List.Perm.append_left xs (hperm x acc)).trans ?_)
    exact List.perm_middle

theorem stableInsertionSort_contract : StdSortContract stableInsertionSort := by
  intro comp l h
  have := foldl_insert_contract (insertSorted comp) comp l (insertSorted_perm comp)
    (fun x acc hx hr hs => insertSorted_sorted h x hx acc hr hs) l [] (fun _ hy => hy)
    (by simp) (by simp [SortedWrt])
  simpa [stableInsertionSort] using this

theorem unstableInsertionSort_contract : StdSortContract unstableInsertionSort := by
  intro comp l h
  have := foldl_insert_contract (insertSortedEarly comp) comp l (insertSortedEarly_perm comp)
    (fun x acc hx hr hs => insertSortedEarly_sorted h x hx acc hr hs) l [] (fun _ hy => hy)
    (by simp) (by simp [SortedWrt])
  simpa [unstableInsertionSort] using this

/-! ## Drawing a node vector -/

theorem drawMeshesLoop_nonnull (ns : List SLNode) (gl : SLGLState) :
    drawMeshesLoop (ns.map some) gl =
      some { gl with
        calls := gl.calls ++ ns.map (fun n => ⟨.meshes n, gl.blend, gl.depthMask, gl.depthTest⟩) } := by
  induction ns generalizing gl with
  | nil => simp [drawMeshesLoop]
  | cons n ns ih => simp [drawMeshesLoop, ih, SLGLState.issue]

theorem eq_map_some_of_perm {l : SLVNode} {ns : List SLNode} (h : l.Perm (ns.map some)) :
    ∃ ms : List SLNode, l = ms.map some ∧ ms.Perm ns := by
  refine ⟨l.filterMap id, ?_, ?_⟩
  · have hall : ∀ x ∈ l, ∃ n, x = some n := by
      intro x hx
      obtain ⟨n, _, hn⟩ := List.mem_map.1 (h.subset hx)
      exact ⟨n, hn.symm⟩
    clear h
    induction l with
    | nil => rfl
    | cons x xs ih =>
      obtain ⟨n, rfl⟩ := hall x (List.mem_cons_self _ _)
      have := ih (fun y hy => hall y (List.mem_cons_of_mem _ hy))
      simp only [List.filterMap_cons, id, List.map_cons]
      rw [← this]
  · have := List.Perm.filterMap id h
    simpa [List.filterMap_map] using this

/-- For two distances that are numbers, `b > a` is false exactly when
`a >= b` is true. -/
theorem SLfloat.ge_of_gt_false {a b : SLfloat} (ha : a.isNaN = false) (hb : b.isNaN = false)
    (h : b.gt a = false) : a.ge b = true := by
  obtain ⟨x, rfl⟩ := SLfloat.eq_num_of_isNaN_false ha
  obtain ⟨y, rfl⟩ := SLfloat.eq_num_of_isNaN_false hb
  simp only [SLfloat.gt, SLfloat.lt, decide_eq_false_iff_not, not_lt] at h
  simp only [SLfloat.ge, SLfloat.le, decide_eq_true_eq]
  exact h

theorem sortedWrt_depthCompare_map_some {ms : List SLNode}
    (hnan : ∀ n ∈ ms, n.sqrViewDist.isNaN = false)
    (h : SortedWrt depthCompare (ms.map some)) :
    ms.Pairwise (fun a b => a.sqrViewDist.ge b.sqrViewDist = true) := by
  unfold SortedWrt at h
  rw [List.pairwise_map] at h
  induction ms with
  | nil => exact List.Pairwise.nil
  | cons m ms ih =>
    rw [List.pairwise_cons] at h ⊢
    refine ⟨?_, ih (fun n hn => hnan n (List.mem_cons_of_mem _ hn)) h.2⟩
    intro b hb
    exact SLfloat.ge_of_gt_false (hnan m (List.mem_cons_self _ _))
      (hnan b (List.mem_cons_of_mem _ hb)) (h.1 b hb)

/-- The depth-sorting call of `draw3DGLNodes` on a vector without null
pointers and without NaN distances, for any implementation of `std::sort` that
keeps the contract. -/
theorem draw3DGLNodes_sorted_result (stdSort : StdSortFn) (hS : StdSortContract stdSort)
    (nodes : List SLNode) (hnan : ∀ n ∈ nodes, n.sqrViewDist.isNaN = false)
    (alphaBlended : Bool) (gl : SLGLState) :
    ∃ (sorted : List SLNode) (gl1 : SLGLState),
      SLSceneView.draw3DGLNodes stdSort (nodes.map some) alphaBlended true gl
        = some (sorted.map some, gl1) ∧
      sorted.Perm nodes ∧
      sorted.Pairwise (fun a b => a.sqrViewDist.ge b.sqrViewDist = true) ∧
      gl1.calls = gl.calls ++ sorted.map (meshCall alphaBlended gl.depthTest) ∧
      gl1.depthTest = gl.depthTest ∧ gl1.multiSample = gl.multiSample := by
  cases hn : nodes with
  | nil =>
    exact ⟨[], gl, by simp [SLSceneView.draw3DGLNodes], List.Perm.refl _, List.Pairwise.nil,
      by simp, rfl, rfl⟩
  | cons n ns =>
    rw [hn] at hnan
    have hswo : StrictWeakOrdering depthCompare ((n :: ns).map some) := by
      apply depthCompare_strictWeakOrdering
      intro m hm
      obtain ⟨m1, hm1, he⟩ := List.mem_map.1 hm
      rw [← Option.some.inj he]
      exact hnan m1 hm1
    obtain ⟨hp, hs⟩ := hS depthCompare ((n :: ns).map some) hswo
    obtain ⟨ms, hms, hperm⟩ := eq_map_some_of_perm hp
    rw [hms] at hs
    refine ⟨ms, { gl with
        blend := alphaBlended, depthMask := !alphaBlended,
        calls := gl.calls ++ ms.map (meshCall alphaBlended gl.depthTest) },
      ?_, hperm,
      sortedWrt_depthCompare_map_some (fun m hm => hnan m (hperm.subset hm)) hs, rfl, rfl, rfl⟩
    simp only [SLSceneView.draw3DGLNodes, List.map_cons, List.length_cons]
    rw [if_neg (by omega)]
    simp only [if_true]
    rw [← List.map_cons, hms, drawMeshesLoop_nonnull]
    rfl

/-- C1 (as stated, refuted): a squared view distance is a float and can be a
NaN, which is neither greater than nor equal to any float. Whatever `std::sort`
does, no arrangement of a node of distance NaN and a node of distance 1 has
each distance greater than or equal to the one following it. And GNU
`std::sort` runs to its end on the nodes of the distances 5, 1, NaN, 3 and
leaves them in this order, every comparison of a node with its predecessor
being false; `draw3DGLNodes` with `depthSorted = true` draws them so. The node
of distance 1 is drawn before the node of distance 3. -/
theorem draw3DGLNodes_depthSorted_nan_not_descending :
    (∀ sorted : List SLNode, sorted.Perm [nanNode 1, plainNode 2 1] →
      ¬ ∀ (i : Nat) (h : i + 1 < sorted.length),
        (sorted.get ⟨i, by omega⟩).sqrViewDist.ge (sorted.get ⟨i + 1, h⟩).sqrViewDist = true) ∧
    gnuSort depthCompare ([plainNode 1 5, plainNode 2 1, nanNode 3, plainNode 4 3].map some)
      = some ([plainNode 1 5, plainNode 2 1, nanNode 3, plainNode 4 3].map some) ∧
    SLSceneView.draw3DGLNodes gnuStdSort
        ([plainNode 1 5, plainNode 2 1, nanNode 3, plainNode 4 3].map some) true true freshGL
      = some ([plainNode 1 5, plainNode 2 1, nanNode 3, plainNode 4 3].map some,
          { freshGL with
              blend := true, depthMask := false,
              calls := [plainNode 1 5, plainNode 2 1, nanNode 3, plainNode 4 3].map
                (meshCall true true) }) ∧
    (¬ ∀ (i : Nat) (h : i + 1 < [plainNode 1 5, plainNode 2 1, nanNode 3, plainNode 4 3].length),
        ([plainNode 1 5, plainNode 2 1, nanNode 3, plainNode 4 3].get
            ⟨i, by omega⟩).sqrViewDist.ge
          ([plainNode 1 5, plainNode 2 1, nanNode 3, plainNode 4 3].get
            ⟨i + 1, h⟩).sqrViewDist = true) ∧
    (plainNode 2 1).sqrViewDist.ge (plainNode 4 3).sqrViewDist = false := by
  refine ⟨?_, by decide, by decide, ?_, by decide⟩
  · intro sorted hperm hdesc
    have hlen : sorted.length = 2 := hperm.length_eq
    obtain ⟨x, y, rfl⟩ := List.length_eq_two.1 hlen
    have h0 : x.sqrViewDist.ge y.sqrViewDist = true := hdesc 0 (by simp)
    have hmem : nanNode 1 ∈ [x, y] := hperm.mem_iff.2 (List.mem_cons_self _ _)
    simp only [List.mem_cons, List.mem_singleton, List.not_mem_nil, or_false] at hmem
    have hnan : (nanNode 1).sqrViewDist = SLfloat.nan := rfl
    rcases hmem with h | h
    · rw [← h, hnan] at h0
      revert h0
      cases y.sqrViewDist <;> simp [SLfloat.ge, SLfloat.le]
    · rw [← h, hnan] at h0
      revert h0
      cases x.sqrViewDist <;> simp [SLfloat.ge, SLfloat.le]
  · intro h
    have h1 : (plainNode 2 1).sqrViewDist.ge (nanNode 3).sqrViewDist = true :=
      h 1 (Nat.lt_of_sub_eq_succ rfl)
    revert h1
    decide

/-- C1 (amended): for every list of non-null nodes none of whose squared view
distances is a NaN and every `std::sort` that keeps its contract,
`draw3DGLNodes` with `depthSorted = true` leaves in the vector a permutation of
its input in which each node has a squared view distance greater than or equal
to that of the node following it, and the mesh draw calls it issues are those
of the nodes in exactly that order. -/
theorem draw3DGLNodes_depthSorted_descending (stdSort : StdSortFn)
    (hS : StdSortContract stdSort) (nodes : List SLNode)
    (hnan : ∀ n ∈ nodes, n.sqrViewDist.isNaN = false) (alphaBlended : Bool)
    (gl : SLGLState) :
    ∃ (sorted : List SLNode) (gl1 : SLGLState),
      SLSceneView.draw3DGLNodes stdSort (nodes.map some) alphaBlended true gl
        = some (sorted.map some, gl1) ∧
      sorted.Perm nodes ∧
      (∀ (i : Nat) (h : i + 1 < sorted.length),
        (sorted.get ⟨i, by omega⟩).sqrViewDist.ge (sorted.get ⟨i + 1, h⟩).sqrViewDist = true) ∧
      gl1.calls = gl.calls ++ sorted.map (meshCall alphaBlended gl.depthTest) := by
  obtain ⟨sorted, gl1, hrun, hperm, hpw, hcalls, _⟩ :=
    draw3DGLNodes_sorted_result stdSort hS nodes hnan alphaBlended gl
  refine ⟨sorted, gl1, hrun, hperm, ?_, hcalls⟩
  intro i h
  have := List.pairwise_iff_get.1 hpw ⟨i, by omega⟩ ⟨i + 1, h⟩ (by simp)
  exact this

theorem draw3DGLNodes_depthSorted_descending_witness :
    (StdSortContract stableInsertionSort ∧
      ∀ n ∈ [plainNode 1 5, plainNode 2 9, plainNode 3 5], n.sqrViewDist.isNaN = false) ∧
    (∃ (sorted : List SLNode) (gl1 : SLGLState),
      SLSceneView.draw3DGLNodes stableInsertionSort
          ([plainNode 1 5, plainNode 2 9, plainNode 3 5].map some) true true freshGL
        = some (sorted.map some, gl1) ∧
      sorted.Perm [plainNode 1 5, plainNode 2 9, plainNode 3 5] ∧
      (∀ (i : Nat) (h : i + 1 < sorted.length),
        (sorted.get ⟨i, by omega⟩).sqrViewDist.ge (sorted.get ⟨i + 1, h⟩).sqrViewDist = true) ∧
      gl1.calls = freshGL.calls ++ sorted.map (meshCall true freshGL.depthTest)) ∧
    SLSceneView.draw3DGLNodes stableInsertionSort
        ([plainNode 1 5, plainNode 2 9, plainNode 3 5].map some) true true freshGL
      = some ([plainNode 2 9, plainNode 1 5, plainNode 3 5].map some,
          { freshGL with
              blend := true, depthMask := false,
              calls := [plainNode 2 9, plainNode 1 5, plainNode 3 5].map (meshCall true true) }) :=
  ⟨⟨stableInsertionSort_contract, by decide⟩,
    draw3DGLNodes_depthSorted_descending stableInsertionSort stableInsertionSort_contract
      [plainNode 1 5, plainNode 2 9, plainNode 3 5] (by decide) true freshGL,
    by decide⟩

theorem sublist_pair_or_pairs {α : Type} {a b : α} (hne : a ≠ b) :
    ∀ l : List α, a ∈ l → b ∈ l → List.Sublist [a, b] l ∨ List.Sublist [b, a] l := by
  intro l
  induction l with
  | nil => intro ha; simp at ha
  | cons x xs ih =>
    intro ha hb
    by_cases hxa : x = a
    · subst hxa
      have hb1 : b ∈ xs := by
        rcases List.mem_cons.1 hb with h | h
        · exact absurd h.symm hne
        · exact h
      exact Or.inl (List.Sublist.cons₂ _ (List.singleton_sublist.2 hb1))
    · by_cases hxb : x = b
      · subst hxb
        have ha1 : a ∈ xs := by
          rcases List.mem_cons.1 ha with h | h
          · exact absurd h hne
          · exact h
        exact Or.inr (List.Sublist.cons₂ _ (List.singleton_sublist.2 ha1))
      · have ha1 : a ∈ xs := by
          rcases List.mem_cons.1 ha with h | h
          · exact absurd h.symm hxa
          · exact h
        have hb1 : b ∈ xs := by
          rcases List.mem_cons.1 hb with h | h
          · exact absurd h.symm hxb
          · exact h
        rcases ih ha1 hb1 with h | h
        · exact Or.inl (List.Sublist.cons _ h)
        · exact Or.inr (List.Sublist.cons _ h)

/-- C2 (as stated, refuted): the depth sort is not stable. An implementation of
`std::sort` that keeps the contract of the standard, run by `draw3DGLNodes` on
the two nodes 1 and 2 of equal squared view distance 5, leaves node 2 in front
of node 1. And GNU `std::sort`, run by `draw3DGLNodes` on seventeen nodes of
equal squared view distance given in the order 1, 2, ..., 17, leaves them in
the order 9, 17, 16, ..., 10, 1, 8, 7, ..., 2 (its median-of-three step and its
partition swap equivalent nodes), so node 9 ends in front of node 1. -/
theorem draw3DGLNodes_depthSort_not_stable :
    (¬ (∀ (stdSort : StdSortFn), StdSortContract stdSort →
        ∀ (nodes sorted : List SLNode) (gl gl1 : SLGLState),
          SLSceneView.draw3DGLNodes stdSort (nodes.map some) true true gl
            = some (sorted.map some, gl1) →
          TiesKeepOrder nodes sorted)) ∧
    ((SLSceneView.draw3DGLNodes gnuStdSort
        ((equalNodes [1, 2, 3, 4, 5, 6, 7, 8, 9, 10, 11, 12, 13, 14, 15, 16, 17]).map some)
        true true freshGL).map Prod.fst
      = some ((equalNodes
          [9, 17, 16, 15, 14, 13, 12, 11, 10, 1, 8, 7, 6, 5, 4, 3, 2]).map some) ∧
    ¬ TiesKeepOrder (equalNodes [1, 2, 3, 4, 5, 6, 7, 8, 9, 10, 11, 12, 13, 14, 15, 16, 17])
        (equalNodes [9, 17, 16, 15, 14, 13, 12, 11, 10, 1, 8, 7, 6, 5, 4, 3, 2])) := by
  refine ⟨?_, by decide, ?_⟩
  · intro h
    have h1 := h unstableInsertionSort unstableInsertionSort_contract
      [plainNode 1 5, plainNode 2 5] [plainNode 2 5, plainNode 1 5] freshGL
      { freshGL with
          blend := true, depthMask := false,
          calls := [plainNode 2 5, plainNode 1 5].map (meshCall true true) }
      (by decide) (plainNode 1 5) (plainNode 2 5) (by decide) (by unfold Precedes; decide)
    revert h1
    unfold Precedes
    decide
  · intro h
    have h1 := h (plainNode 1 5) (plainNode 9 5) (by decide) (by unfold Precedes; decide)
    revert h1
    unfold Precedes
    decide

/-- C2 (amended): for every list of non-null nodes none of whose squared view
distances is a NaN and every `std::sort` that keeps its contract, the depth
sort of `draw3DGLNodes` keeps, for each squared view distance, exactly the
nodes of that distance (as a permutation, their relative order is left to
`std::sort`), and puts any node in front of every node of strictly smaller
squared view distance. -/
theorem draw3DGLNodes_depthSort_ties_unordered (stdSort : StdSortFn)
    (hS : StdSortContract stdSort) (nodes : List SLNode)
    (hnan : ∀ n ∈ nodes, n.sqrViewDist.isNaN = false) (alphaBlended : Bool)
    (gl : SLGLState) :
    ∃ (sorted : List SLNode) (gl1 : SLGLState),
      SLSceneView.draw3DGLNodes stdSort (nodes.map some) alphaBlended true gl
        = some (sorted.map some, gl1) ∧
      (∀ d : Int, (nodesAtDist d sorted).Perm (nodesAtDist d nodes)) ∧
      (∀ a b : SLNode, a ∈ nodes → b ∈ nodes → a.sqrViewDist.gt b.sqrViewDist = true →
        Precedes sorted a b) := by
  obtain ⟨sorted, gl1, hrun, hperm, hpw, _, _⟩ :=
    draw3DGLNodes_sorted_result stdSort hS nodes hnan alphaBlended gl
  refine ⟨sorted, gl1, hrun, ?_, ?_⟩
  · intro d
    exact List.Perm.filter _ hperm
  · intro a b ha hb hab
    obtain ⟨x, hx⟩ := SLfloat.eq_num_of_isNaN_false (hnan a ha)
    obtain ⟨y, hy⟩ := SLfloat.eq_num_of_isNaN_false (hnan b hb)
    rw [hx, hy] at hab
    simp only [SLfloat.gt, SLfloat.lt, decide_eq_true_eq] at hab
    have hne : a ≠ b := by
      intro h
      rw [h, hy] at hx
      have hxy : y = x := SLfloat.num.inj hx
      omega
    rcases sublist_pair_or_pairs hne sorted (hperm.mem_iff.2 ha) (hperm.mem_iff.2 hb) with h | h
    · exact h
    · have := List.Pairwise.sublist h hpw
      simp only [List.pairwise_cons, List.mem_singleton, forall_eq] at this
      have h2 := this.1
      rw [hx, hy] at h2
      simp only [SLfloat.ge, SLfloat.le, decide_eq_true_eq] at h2
      omega

theorem draw3DGLNodes_depthSort_ties_unordered_witness :
    (StdSortContract unstableInsertionSort ∧
      ∀ n ∈ [plainNode 1 5, plainNode 2 9, plainNode 3 5], n.sqrViewDist.isNaN = false) ∧
    (∃ (sorted : List SLNode) (gl1 : SLGLState),
      SLSceneView.draw3DGLNodes unstableInsertionSort
          ([plainNode 1 5, plainNode 2 9, plainNode 3 5].map some) true true freshGL
        = some (sorted.map some, gl1) ∧
      (∀ d : Int, (nodesAtDist d sorted).Perm
        (nodesAtDist d [plainNode 1 5, plainNode 2 9, plainNode 3 5])) ∧
      (∀ a b : SLNode, a ∈ [plainNode 1 5, plainNode 2 9, plainNode 3 5] →
        b ∈ [plainNode 1 5, plainNode 2 9, plainNode 3 5] →
        a.sqrViewDist.gt b.sqrViewDist = true → Precedes sorted a b)) ∧
    (SLSceneView.draw3DGLNodes unstableInsertionSort
        ([plainNode 1 5, plainNode 2 9, plainNode 3 5].map some) true true freshGL).map Prod.fst
      = some ([plainNode 2 9, plainNode 3 5, plainNode 1 5].map some) :=
  ⟨⟨unstableInsertionSort_contract, by decide⟩,
    draw3DGLNodes_depthSort_ties_unordered unstableInsertionSort unstableInsertionSort_contract
      [plainNode 1 5, plainNode 2 9, plainNode 3 5] (by decide) true freshGL,
    by decide⟩

/-- GNU `std::sort` on nodes of pairwise different squared view distance: the
result is the descending order. -/
theorem gnuSort_sorts_distinct_nodes :
    gnuSort depthCompare
        ([plainNode 1 3, plainNode 2 11, plainNode 3 4, plainNode 4 1, plainNode 5 15,
          plainNode 6 9, plainNode 7 2, plainNode 8 6, plainNode 9 5, plainNode 10 13,
          plainNode 11 10, plainNode 12 8, plainNode 13 19, plainNode 14 7, plainNode 15 17,
          plainNode 16 12, plainNode 17 14, plainNode 18 16, plainNode 19 18,
          plainNode 20 20].map some)
      = some ([plainNode 20 20, plainNode 13 19, plainNode 19 18, plainNode 15 17,
          plainNode 18 16, plainNode 5 15, plainNode 17 14, plainNode 10 13, plainNode 16 12,
          plainNode 2 11, plainNode 11 10, plainNode 6 9, plainNode 12 8, plainNode 14 7,
          plainNode 8 6, plainNode 9 5, plainNode 3 4, plainNode 1 3, plainNode 7 2,
          plainNode 4 1].map some) := by
  decide

/-- The heap sort of GNU `std::sort`, `std::__partial_sort(first, last, last)`,
on nodes of pairwise different squared view distance: the result is the
descending order. -/
theorem partialSort_sorts_distinct_nodes :
    partialSort depthCompare
        ([plainNode 1 3, plainNode 2 11, plainNode 3 4, plainNode 4 1, plainNode 5 15,
          plainNode 6 9, plainNode 7 2, plainNode 8 6, plainNode 9 5, plainNode 10 13,
          plainNode 11 10, plainNode 12 8].map some) 0 12 12
      = some ([plainNode 5 15, plainNode 10 13, plainNode 2 11, plainNode 11 10,
          plainNode 6 9, plainNode 12 8, plainNode 8 6, plainNode 9 5, plainNode 3 4,
          plainNode 1 3, plainNode 7 2, plainNode 4 1].map some) := by
  decide

/-! ## The passes of draw3DGLAll -/

theorem meshCalls_append (a b : List SLDrawCall) :
    meshCalls (a ++ b) = meshCalls a ++ meshCalls b := by
  simp [meshCalls]

theorem meshCalls_map_meshCall (b dt : Bool) (ns : List SLNode) :
    meshCalls (ns.map (meshCall b dt)) = ns.map (meshCall b dt) := by
  induction ns with
  | nil => rfl
  | cons n ns ih =>
    simp only [meshCalls] at ih
    simp [meshCalls, meshCall, SLDrawCall.isMesh, SLDrawCall.meshNode, ih]

/-- A draw call that is not a mesh draw call leaves the mesh draw calls and the
depth test flag as they are. -/
theorem issue_nonMesh (gl : SLGLState) (k : SLDrawKind)
    (hk : ∀ b dm dt, SLDrawCall.isMesh ⟨k, b, dm, dt⟩ = false) :
    meshCalls (gl.issue k).calls = meshCalls gl.calls ∧ (gl.issue k).depthTest = gl.depthTest := by
  refine ⟨?_, rfl⟩
  simp [SLGLState.issue, meshCalls, hk]

theorem draw3DGLNodes_unsorted_result (stdSort : StdSortFn) (nodes : List SLNode)
    (alphaBlended : Bool) (gl : SLGLState) :
    ∃ gl1 : SLGLState,
      SLSceneView.draw3DGLNodes stdSort (nodes.map some) alphaBlended false gl
        = some (nodes.map some, gl1) ∧
      gl1.calls = gl.calls ++ nodes.map (meshCall alphaBlended gl.depthTest) ∧
      gl1.depthTest = gl.depthTest := by
  cases nodes with
  | nil => exact ⟨gl, by simp [SLSceneView.draw3DGLNodes], by simp, rfl⟩
  | cons n ns =>
    refine ⟨{ gl with
        blend := alphaBlended, depthMask := !alphaBlended,
        calls := gl.calls ++ (n :: ns).map (meshCall alphaBlended gl.depthTest) }, ?_, rfl, rfl⟩
    simp only [SLSceneView.draw3DGLNodes, List.map_cons, List.length_cons]
    rw [if_neg (by omega)]
    simp only [Bool.false_eq_true, if_false]
    rw [← List.map_cons, drawMeshesLoop_nonnull]
    rfl

theorem drawLinesOfNode_nonnull (viewBits : SLDrawBits) (cam : Option SLCamera)
    (gl : SLGLState) (n : SLNode) :
    ∃ gl1 : SLGLState, drawLinesOfNode viewBits cam gl (some n) = some gl1 ∧
      meshCalls gl1.calls = meshCalls gl.calls ∧ gl1.depthTest = gl.depthTest := by
  have h1 : ∀ (g : SLGLState) (r gg b : Nat),
      meshCalls (g.issue (.aabb n r gg b)).calls = meshCalls g.calls :=
    fun g r gg b => (issue_nonMesh g (.aabb n r gg b) (fun _ _ _ => rfl)).1
  simp only [drawLinesOfNode]
  split_ifs <;>
    exact ⟨_, rfl, by first | rfl | simp only [h1], rfl⟩

theorem drawLinesLoop_nonnull (viewBits : SLDrawBits) (cam : Option SLCamera)
    (ns : List SLNode) (gl : SLGLState) :
    ∃ gl1 : SLGLState, drawLinesLoop viewBits cam (ns.map some) gl = some gl1 ∧
      meshCalls gl1.calls = meshCalls gl.calls ∧ gl1.depthTest = gl.depthTest := by
  induction ns generalizing gl with
  | nil => exact ⟨gl, rfl, rfl, rfl⟩
  | cons n ns ih =>
    obtain ⟨g1, h1, hm1, hd1⟩ := drawLinesOfNode_nonnull viewBits cam gl n
    obtain ⟨g2, h2, hm2, hd2⟩ := ih g1
    refine ⟨g2, ?_, hm2.trans hm1, hd2.trans hd1⟩
    simp [drawLinesLoop, h1, h2]

theorem draw3DGLLines_nonnull (sv : SLSceneView) (ns : List SLNode) (gl : SLGLState) :
    ∃ gl1 : SLGLState, sv.draw3DGLLines (ns.map some) gl = some gl1 ∧
      meshCalls gl1.calls = meshCalls gl.calls ∧ gl1.depthTest = gl.depthTest := by
  unfold SLSceneView.draw3DGLLines
  split_ifs
  · exact ⟨gl, rfl, rfl, rfl⟩
  · exact drawLinesLoop_nonnull _ _ ns _

theorem drawBones_meshCalls (n : SLNode) (joints : List SLJointPtr) (j : Nat)
    (gl gl1 : SLGLState) (h : drawBones n joints j gl = some gl1) :
    meshCalls gl1.calls = meshCalls gl.calls := by
  induction joints generalizing j gl with
  | nil =>
    simp only [drawBones, Option.some.injEq] at h
    rw [← h]
  | cons p rest ih =>
    cases p with
    | none => simp [drawBones] at h
    | some joint =>
      simp only [drawBones] at h
      split_ifs at h
      rw [ih _ _ h]
      exact (issue_nonMesh gl (.bone n j) (fun _ _ _ => rfl)).1

/-- An iteration of the loop of `draw3DGLLinesOverlay` that runs to its end
issues no mesh draw call. -/
theorem drawOverlayOfNode_meshCalls (viewBits : SLDrawBits) (cam : Option SLCamera)
    (gl gl1 : SLGLState) (p : SLNodePtr)
    (h : drawOverlayOfNode viewBits cam gl p = some gl1) :
    meshCalls gl1.calls = meshCalls gl.calls := by
  cases p with
  | none =>
    simp only [drawOverlayOfNode] at h
    split_ifs at h
    rw [← Option.some.inj h]
  | some n =>
    have haxis : ∀ (g : SLGLState), meshCalls (g.issue (.axis n)).calls = meshCalls g.calls :=
      fun g => (issue_nonMesh g (.axis n) (fun _ _ _ => rfl)).1
    simp only [drawOverlayOfNode] at h
    cases hsk : n.skeleton with
    | none =>
      rw [hsk] at h
      simp only [] at h
      split_ifs at h
      all_goals
        have h2 := Option.some.inj h
        rw [← h2]
        try exact haxis _
    | some joints =>
      rw [hsk] at h
      simp only [] at h
      split_ifs at h
      all_goals
        first
        | (have h2 := Option.some.inj h
           rw [← h2]
           try exact haxis _)
        | (rw [drawBones_meshCalls _ _ _ _ _ h]
           try exact haxis _)

/-- A call of `draw3DGLLinesOverlay` that runs to its end issues no mesh draw
call. -/
theorem draw3DGLLinesOverlay_meshCalls (sv : SLSceneView) (nodes : SLVNode)
    (gl gl1 : SLGLState) (h : sv.draw3DGLLinesOverlay nodes gl = some gl1) :
    meshCalls gl1.calls = meshCalls gl.calls := by
  induction nodes generalizing gl with
  | nil =>
    simp only [SLSceneView.draw3DGLLinesOverlay, Option.some.injEq] at h
    rw [← h]
  | cons p rest ih =>
    simp only [SLSceneView.draw3DGLLinesOverlay] at h
    cases h1 : drawOverlayOfNode sv._drawBits sv._camera gl p with
    | none => simp [h1] at h
    | some g1 =>
      rw [h1] at h
      simp only [Option.some_bind] at h
      rw [ih g1 h, drawOverlayOfNode_meshCalls _ _ _ _ _ h1]

/-- For a node with a parent and without a skeleton the loop of
`draw3DGLLinesOverlay` runs to its end. -/
theorem draw3DGLLinesOverlay_of_no_skeleton (sv : SLSceneView) (ns : List SLNode)
    (hsk : ∀ n ∈ ns, n.skeleton = none) (gl : SLGLState) :
    ∃ gl1 : SLGLState, sv.draw3DGLLinesOverlay (ns.map some) gl = some gl1 := by
  induction ns generalizing gl with
  | nil => exact ⟨gl, rfl⟩
  | cons n ns ih =>
    have h1 : ∃ g1, drawOverlayOfNode sv._drawBits sv._camera gl (some n) = some g1 := by
      simp only [drawOverlayOfNode, hsk n (List.mem_cons_self _ _)]
      split_ifs <;> exact ⟨_, rfl⟩
    obtain ⟨g1, hg1⟩ := h1
    obtain ⟨g2, hg2⟩ := ih (fun m hm => hsk m (List.mem_cons_of_mem _ hm)) g1
    exact ⟨g2, by simp [SLSceneView.draw3DGLLinesOverlay, hg1, hg2]⟩

/-- The overlay of a node without a parent whose skeleton has a joint with a
parent: `node->parent()->updateAndGetWM()` dereferences a null pointer. -/
theorem draw3DGLLinesOverlay_parentless_node :
    (sampleView [] []).draw3DGLLinesOverlay
        [some { plainNode 1 5 with
          drawBits := ⟨false, false, false, false, true, false, false, false, false⟩,
          hasParent := false, skeleton := some [some ⟨true⟩] }] freshGL = none := by
  decide

theorem sceneView_eq_with_nodes (sv : SLSceneView) (vis bl : SLVNode)
    (hv : sv._visibleNodes = vis) (hb : sv._blendNodes = bl) :
    sv = { sv with _visibleNodes := vis, _blendNodes := bl } := by
  cases sv
  dsimp only at hv hb
  subst hv hb
  rfl

/-- The opaque pass of `draw3DGLAll` on vectors without null pointers. -/
theorem draw3DGLAllOpaque_result (stdSort : StdSortFn) (sv : SLSceneView)
    (vis bl : List SLNode) (hv : sv._visibleNodes = vis.map some)
    (hb : sv._blendNodes = bl.map some) :
    ∃ sv1 : SLSceneView, sv.draw3DGLAllOpaque stdSort = some sv1 ∧
      sv1._visibleNodes = vis.map some ∧ sv1._blendNodes = bl.map some ∧
      sv1._stateGL.depthTest = sv._stateGL.depthTest ∧
      meshCalls sv1._stateGL.calls =
        meshCalls sv._stateGL.calls ++ vis.map (meshCall false sv._stateGL.depthTest) := by
  rw [sceneView_eq_with_nodes sv _ _ hv hb]
  obtain ⟨g1, h1, hc1, hd1⟩ := draw3DGLNodes_unsorted_result stdSort vis false sv._stateGL
  obtain ⟨g2, h2, hm2, hd2⟩ :=
    draw3DGLLines_nonnull
      { sv with _visibleNodes := vis.map some, _blendNodes := bl.map some, _stateGL := g1 } vis g1
  obtain ⟨g3, h3, hm3, hd3⟩ :=
    draw3DGLLines_nonnull
      { sv with _visibleNodes := vis.map some, _blendNodes := bl.map some, _stateGL := g1 } bl g2
  refine ⟨{ sv with _visibleNodes := vis.map some, _blendNodes := bl.map some, _stateGL := g3 },
    ?_, rfl, rfl, ?_, ?_⟩
  · simp only [SLSceneView.draw3DGLAllOpaque, h1, Option.bind_eq_bind, Option.some_bind,
      h2, h3]
    rfl
  · exact hd3.trans (hd2.trans hd1)
  · show meshCalls g3.calls = _
    rw [hm3, hm2, hc1, meshCalls_append, meshCalls_map_meshCall]

/-- A run of the loop of `draw3DGLNodes` that ends has met no null pointer and
has issued the mesh draw calls of the nodes in vector order. -/
theorem drawMeshesLoop_some (l : SLVNode) (gl gl1 : SLGLState)
    (h : drawMeshesLoop l gl = some gl1) :
    ∃ ns : List SLNode, l = ns.map some ∧
      gl1 = { gl with
        calls := gl.calls ++ ns.map (fun n => ⟨.meshes n, gl.blend, gl.depthMask, gl.depthTest⟩) } := by
  induction l generalizing gl with
  | nil =>
    simp only [drawMeshesLoop, Option.some.injEq] at h
    exact ⟨[], rfl, by rw [← h]; simp⟩
  | cons p rest ih =>
    cases p with
    | none => simp [drawMeshesLoop] at h
    | some n =>
      simp only [drawMeshesLoop] at h
      obtain ⟨ns, hns, hgl⟩ := ih _ h
      refine ⟨n :: ns, by rw [hns]; rfl, ?_⟩
      rw [hgl]
      simp [SLGLState.issue]

/-- A call of `draw3DGLNodes` that runs to its end, for any `std::sort`: the
vector it leaves holds no null pointer and its mesh draw calls are those of
the nodes of that vector, in vector order. -/
theorem draw3DGLNodes_some (stdSort : StdSortFn) (nodes nodes1 : SLVNode)
    (alphaBlended depthSorted : Bool) (gl gl1 : SLGLState)
    (h : SLSceneView.draw3DGLNodes stdSort nodes alphaBlended depthSorted gl
      = some (nodes1, gl1)) :
    ∃ drawn : List SLNode, nodes1 = drawn.map some ∧
      gl1.calls = gl.calls ++ drawn.map (meshCall alphaBlended gl.depthTest) ∧
      gl1.depthTest = gl.depthTest := by
  simp only [SLSceneView.draw3DGLNodes] at h
  by_cases h0 : nodes.length = 0
  · rw [if_pos h0] at h
    simp only [Option.some.injEq, Prod.mk.injEq] at h
    have hn : nodes = [] := List.length_eq_zero.1 h0
    exact ⟨[], by rw [← h.1, hn]; rfl, by rw [← h.2]; simp, by rw [← h.2]⟩
  · rw [if_neg h0] at h
    generalize (if depthSorted = true then stdSort depthCompare nodes else nodes) = nodes2 at h
    simp only [Option.map_eq_some'] at h
    obtain ⟨g3, hg3, he⟩ := h
    simp only [Prod.mk.injEq] at he
    obtain ⟨ns, hns, hgl⟩ := drawMeshesLoop_some _ _ _ hg3
    refine ⟨ns, by rw [← he.1]; exact hns, ?_, ?_⟩
    · rw [← he.2, hgl]
      rfl
    · rw [← he.2, hgl]

/-- The blended pass of `draw3DGLAll` when it runs to its end, for any
`std::sort`. -/
theorem draw3DGLAllBlendedNodes_some (stdSort : StdSortFn) (sv svB : SLSceneView)
    (h : sv.draw3DGLAllBlendedNodes stdSort = some svB) :
    ∃ drawn : List SLNode,
      svB._visibleNodes = sv._visibleNodes ∧ svB._blendNodes = drawn.map some ∧
      meshCalls svB._stateGL.calls =
        meshCalls sv._stateGL.calls ++ drawn.map (meshCall true sv._stateGL.depthTest) := by
  simp only [SLSceneView.draw3DGLAllBlendedNodes, Option.bind_eq_bind, Option.bind_eq_some,
    Option.some.injEq, Prod.exists] at h
  obtain ⟨bl, g4, h4, he⟩ := h
  obtain ⟨drawn, hd, hc, _⟩ := draw3DGLNodes_some stdSort _ _ _ _ _ _ h4
  have he2 := Option.some.inj he
  rw [← he2]
  refine ⟨drawn, rfl, hd, ?_⟩
  show meshCalls g4.calls = _
  rw [hc, meshCalls_append, meshCalls_map_meshCall]

/-- The blended pass of `draw3DGLAll` on a vector without null pointers and
without NaN distances, for a `std::sort` that keeps its contract. -/
theorem draw3DGLAllBlendedNodes_result (stdSort : StdSortFn) (hS : StdSortContract stdSort)
    (sv : SLSceneView) (bl : List SLNode) (hb : sv._blendNodes = bl.map some)
    (hnan : ∀ n ∈ bl, n.sqrViewDist.isNaN = false) :
    ∃ (svB : SLSceneView) (sorted : List SLNode),
      sv.draw3DGLAllBlendedNodes stdSort = some svB ∧
      sorted.Perm bl ∧ sorted.Pairwise (fun a b => a.sqrViewDist.ge b.sqrViewDist = true) ∧
      svB._blendNodes = sorted.map some := by
  obtain ⟨sorted, g4, h4, hperm, hpw, _, _⟩ :=
    draw3DGLNodes_sorted_result stdSort hS bl hnan true sv._stateGL
  refine ⟨{ sv with _blendNodes := sorted.map some, _stateGL := g4 }, sorted, ?_, hperm, hpw, rfl⟩
  simp only [SLSceneView.draw3DGLAllBlendedNodes, hb, h4, Option.bind_eq_bind, Option.some_bind]
  rfl

/-- Steps 3 to 5 of `draw3DGLAll` when they run to their end: the node vectors
stay and no mesh draw call is issued. -/
theorem draw3DGLAllOverlays_some (sv sv1 : SLSceneView)
    (h : sv.draw3DGLAllOverlays = some sv1) :
    sv1._visibleNodes = sv._visibleNodes ∧ sv1._blendNodes = sv._blendNodes ∧
      meshCalls sv1._stateGL.calls = meshCalls sv._stateGL.calls := by
  simp only [SLSceneView.draw3DGLAllOverlays, Option.bind_eq_bind, Option.bind_eq_some,
    Option.some.injEq] at h
  obtain ⟨g5, h5, g6, h6, he⟩ := h
  have he2 := Option.some.inj he
  rw [← he2]
  refine ⟨rfl, rfl, ?_⟩
  show meshCalls (g6.issue .animVisuals).calls = _
  rw [(issue_nonMesh g6 .animVisuals (fun _ _ _ => rfl)).1,
    draw3DGLLinesOverlay_meshCalls _ _ _ _ h6, draw3DGLLinesOverlay_meshCalls _ _ _ _ h5]

/-- C3: the opaque set is drawn unsorted. For every implementation of
`std::sort`, `draw3DGLNodes` with `depthSorted = false` returns what it returns
for any other implementation, hands back every node vector unchanged, and on a
vector without null pointers issues the mesh draw calls of the nodes in list
order; `draw3DGLAll` runs its opaque pass over `_visibleNodes` in this
way, with blending off and depth writes on, before it goes on to the blended
pass. -/
theorem draw3DGLNodes_unsorted_list_order (stdSort : StdSortFn) :
    (∀ (stdSort2 : StdSortFn) (nodes : SLVNode) (alphaBlended : Bool) (gl : SLGLState),
      SLSceneView.draw3DGLNodes stdSort nodes alphaBlended false gl
        = SLSceneView.draw3DGLNodes stdSort2 nodes alphaBlended false gl) ∧
    (∀ (nodes : SLVNode) (alphaBlended : Bool) (gl : SLGLState),
      (SLSceneView.draw3DGLNodes stdSort nodes alphaBlended false gl).map Prod.fst
        = (SLSceneView.draw3DGLNodes stdSort nodes alphaBlended false gl).map (fun _ => nodes)) ∧
    (∀ (nodes : List SLNode) (alphaBlended : Bool) (gl : SLGLState),
      ∃ gl1 : SLGLState,
        SLSceneView.draw3DGLNodes stdSort (nodes.map some) alphaBlended false gl
          = some (nodes.map some, gl1) ∧
        gl1.calls = gl.calls ++ nodes.map (meshCall alphaBlended gl.depthTest)) ∧
    (∀ (sv : SLSceneView) (vis bl : List SLNode),
      ∃ sv1 : SLSceneView,
        SLSceneView.draw3DGLAll stdSort
            { sv with _visibleNodes := vis.map some, _blendNodes := bl.map some }
          = sv1.draw3DGLAllBlended stdSort ∧
        sv1._visibleNodes = vis.map some ∧
        meshCalls sv1._stateGL.calls =
          meshCalls sv._stateGL.calls ++ vis.map (meshCall false sv._stateGL.depthTest)) := by
  refine ⟨?_, ?_, ?_, ?_⟩
  · intro stdSort2 nodes ab gl
    simp [SLSceneView.draw3DGLNodes]
  · intro nodes ab gl
    simp only [SLSceneView.draw3DGLNodes, Bool.false_eq_true, if_false]
    split_ifs
    · rfl
    · cases hl : drawMeshesLoop nodes { gl with blend := ab, depthMask := !ab } <;> rfl
  · intro nodes ab gl
    obtain ⟨gl1, h1, h2, _⟩ := draw3DGLNodes_unsorted_result stdSort nodes ab gl
    exact ⟨gl1, h1, h2⟩
  · intro sv vis bl
    obtain ⟨sv1, h1, hv1, _, _, hm⟩ := draw3DGLAllOpaque_result stdSort
      { sv with _visibleNodes := vis.map some, _blendNodes := bl.map some } vis bl rfl rfl
    refine ⟨sv1, ?_, hv1, hm⟩
    simp [SLSceneView.draw3DGLAll, h1]

/-- The vector that `draw3DGLNodes` with `depthSorted = true` leaves when it
runs to its end: the empty vector as it is, any other as `std::sort` with the
depth comparison leaves it. -/
theorem draw3DGLNodes_sorted_vector (stdSort : StdSortFn) (nodes nodes1 : SLVNode)
    (alphaBlended : Bool) (gl gl1 : SLGLState)
    (h : SLSceneView.draw3DGLNodes stdSort nodes alphaBlended true gl = some (nodes1, gl1)) :
    nodes1 = if nodes.length = 0 then nodes else stdSort depthCompare nodes := by
  simp only [SLSceneView.draw3DGLNodes] at h
  by_cases h0 : nodes.length = 0
  · rw [if_pos h0] at h
    simp only [Option.some.injEq, Prod.mk.injEq] at h
    rw [if_pos h0, h.1]
  · rw [if_neg h0] at h
    simp only [if_true, Option.map_eq_some'] at h
    obtain ⟨g3, _, he⟩ := h
    simp only [Prod.mk.injEq] at he
    rw [if_neg h0, he.1]

/-- C4 (as stated, refuted): with a NaN among the squared view distances of
the blended nodes the blended pass is not drawn back to front. `draw3DGLAll`
with GNU `std::sort`, on the opaque node 9 and the blended nodes 1, 2, 3, 4 of
the distances 5, 1, NaN, 3, issues the mesh draw call of node 9 and then those
of the nodes 1, 2, 3, 4 in this order, in which the sort has left them: node 2
of distance 1 is drawn before node 4 of distance 3. -/
theorem draw3DGLAll_blended_nan_not_back_to_front :
    gnuSort depthCompare ([plainNode 1 5, plainNode 2 1, nanNode 3, plainNode 4 3].map some)
      = some ([plainNode 1 5, plainNode 2 1, nanNode 3, plainNode 4 3].map some) ∧
    ((sampleView ([plainNode 9 4].map some)
        ([plainNode 1 5, plainNode 2 1, nanNode 3, plainNode 4 3].map some)).draw3DGLAll
          gnuStdSort).map (fun s => meshCalls s._stateGL.calls)
      = some [⟨.meshes (plainNode 9 4), false, true, true⟩,
              ⟨.meshes (plainNode 1 5), true, false, true⟩,
              ⟨.meshes (plainNode 2 1), true, false, true⟩,
              ⟨.meshes (nanNode 3), true, false, true⟩,
              ⟨.meshes (plainNode 4 3), true, false, true⟩] ∧
    (plainNode 2 1).sqrViewDist.ge (nanNode 3).sqrViewDist = false ∧
    (plainNode 2 1).sqrViewDist.ge (plainNode 4 3).sqrViewDist = false ∧
    (plainNode 4 3).sqrViewDist.gt (plainNode 2 1).sqrViewDist = true := by
  refine ⟨by decide, by decide, by decide, by decide, by decide⟩

/-- C4 (amended): `draw3DGLAll` on vectors without null pointers, for any
`std::sort`. When the two mesh passes have run, the mesh draw calls have come
in two blocks: first those of `_visibleNodes`, in the order of the vector (not
sorted), each issued with blending off and depth writes on; then those of
`_blendNodes`, each issued with blending on and depth writes off, in the order
in which `std::sort` with the depth comparison has left that vector. The steps
after the blended pass issue no mesh draw call and leave the vectors, and the
call is the two mesh passes followed by these steps. For a `std::sort` that
keeps its contract and blended nodes none of whose squared view distances is a
NaN the two mesh passes do run to their end, and the order of the blended block
is a permutation of `_blendNodes` with descending squared view distance. -/
theorem draw3DGLAll_opaque_before_blended (stdSort : StdSortFn) (sv : SLSceneView)
    (vis bl : List SLNode)
    (hv : sv._visibleNodes = vis.map some) (hb : sv._blendNodes = bl.map some) :
    (∀ svB : SLSceneView,
      (sv.draw3DGLAllOpaque stdSort).bind (SLSceneView.draw3DGLAllBlendedNodes stdSort)
        = some svB →
      ∃ drawn : List SLNode,
        svB._visibleNodes = vis.map some ∧
        svB._blendNodes = drawn.map some ∧
        drawn.map some = (if bl.length = 0 then [] else stdSort depthCompare (bl.map some)) ∧
        meshCalls svB._stateGL.calls =
          meshCalls sv._stateGL.calls
            ++ vis.map (fun n => ⟨.meshes n, false, true, sv._stateGL.depthTest⟩)
            ++ drawn.map (fun n => ⟨.meshes n, true, false, sv._stateGL.depthTest⟩) ∧
        ∀ sv1 : SLSceneView, svB.draw3DGLAllOverlays = some sv1 →
          sv1._visibleNodes = svB._visibleNodes ∧ sv1._blendNodes = svB._blendNodes ∧
          meshCalls sv1._stateGL.calls = meshCalls svB._stateGL.calls) ∧
    sv.draw3DGLAll stdSort =
      ((sv.draw3DGLAllOpaque stdSort).bind (SLSceneView.draw3DGLAllBlendedNodes stdSort)).bind
        SLSceneView.draw3DGLAllOverlays ∧
    (StdSortContract stdSort → (∀ n ∈ bl, n.sqrViewDist.isNaN = false) →
      ∃ (svB : SLSceneView) (sorted : List SLNode),
        (sv.draw3DGLAllOpaque stdSort).bind (SLSceneView.draw3DGLAllBlendedNodes stdSort)
          = some svB ∧
        svB._blendNodes = sorted.map some ∧
        sorted.Perm bl ∧
        sorted.Pairwise (fun a b => a.sqrViewDist.ge b.sqrViewDist = true)) := by
  obtain ⟨svA, h1, hv1, hb1, hd1, hm1⟩ := draw3DGLAllOpaque_result stdSort sv vis bl hv hb
  refine ⟨?_, ?_, ?_⟩
  · intro svB hB
    rw [h1, Option.some_bind] at hB
    obtain ⟨drawn, hvB, hbB, hmB⟩ := draw3DGLAllBlendedNodes_some stdSort svA svB hB
    refine ⟨drawn, hvB.trans hv1, hbB, ?_, ?_, fun sv1 h => draw3DGLAllOverlays_some svB sv1 h⟩
    · rw [← hbB]
      simp only [SLSceneView.draw3DGLAllBlendedNodes, Option.bind_eq_bind, Option.bind_eq_some,
        Option.some.injEq, Prod.exists] at hB
      obtain ⟨bl1, g4, h4, he⟩ := hB
      have hvec := draw3DGLNodes_sorted_vector stdSort _ _ _ _ _ h4
      have he2 := Option.some.inj he
      rw [← he2]
      show bl1 = _
      rw [hvec, hb1]
      by_cases h0 : bl.length = 0
      · rw [if_pos h0, if_pos (by simpa using h0), List.length_eq_zero.1 h0]
        rfl
      · rw [if_neg h0, if_neg (by simpa using h0)]
    · rw [hmB, hm1, hd1]
      rfl
  · simp only [SLSceneView.draw3DGLAll, SLSceneView.draw3DGLAllBlended, h1, Option.some_bind]
  · intro hS hnan
    obtain ⟨svB, sorted, hB, hperm, hpw, hbl⟩ :=
      draw3DGLAllBlendedNodes_result stdSort hS svA bl hb1 hnan
    exact ⟨svB, sorted, by rw [h1]; exact hB, hbl, hperm, hpw⟩

theorem draw3DGLAll_opaque_before_blended_witness :
    ((sampleView ([plainNode 1 5, plainNode 2 9].map some)
        ([plainNode 3 2, plainNode 4 7].map some))._visibleNodes
      = [plainNode 1 5, plainNode 2 9].map some ∧
      (sampleView ([plainNode 1 5, plainNode 2 9].map some)
        ([plainNode 3 2, plainNode 4 7].map some))._blendNodes
      = [plainNode 3 2, plainNode 4 7].map some) ∧
    (StdSortContract stableInsertionSort ∧
      ∀ n ∈ [plainNode 3 2, plainNode 4 7], n.sqrViewDist.isNaN = false) ∧
    (∃ (svB : SLSceneView) (sorted : List SLNode),
      ((sampleView ([plainNode 1 5, plainNode 2 9].map some)
          ([plainNode 3 2, plainNode 4 7].map some)).draw3DGLAllOpaque stableInsertionSort).bind
        (SLSceneView.draw3DGLAllBlendedNodes stableInsertionSort) = some svB ∧
      svB._blendNodes = sorted.map some ∧
      sorted.Perm [plainNode 3 2, plainNode 4 7] ∧
      sorted.Pairwise (fun a b => a.sqrViewDist.ge b.sqrViewDist = true)) ∧
    ((sampleView ([plainNode 1 5, plainNode 2 9].map some)
        ([plainNode 3 2, plainNode 4 7].map some)).draw3DGLAll stableInsertionSort).map
        (fun s => (s._visibleNodes, s._blendNodes, meshCalls s._stateGL.calls))
      = some ([plainNode 1 5, plainNode 2 9].map some, [plainNode 4 7, plainNode 3 2].map some,
          [⟨.meshes (plainNode 1 5), false, true, true⟩,
           ⟨.meshes (plainNode 2 9), false, true, true⟩,
           ⟨.meshes (plainNode 4 7), true, false, true⟩,
           ⟨.meshes (plainNode 3 2), true, false, true⟩]) :=
  ⟨⟨rfl, rfl⟩, ⟨stableInsertionSort_contract, by decide⟩,
    (draw3DGLAll_opaque_before_blended stableInsertionSort
      (sampleView ([plainNode 1 5, plainNode 2 9].map some)
        ([plainNode 3 2, plainNode 4 7].map some))
      [plainNode 1 5, plainNode 2 9] [plainNode 3 2, plainNode 4 7] rfl rfl).2.2
      stableInsertionSort_contract (by decide),
    by decide⟩

/-! ## The frame: rebuilding the visible sets -/

/-- C5: the visible sets are rebuilt every frame. In every `draw3DGL` call
(with a camera set) both vectors are empty when the cull traversal starts, the
scene view on which `draw3DGLAll` is called is the outcome of that traversal,
and it is the emptied view itself, with both vectors empty, when the scene has
no 3D root. What the vectors held from an earlier frame has no influence on
the frame, provided the `preDraw` hook leaves the two vectors alone. -/
theorem draw3DGL_rebuilds_visible_sets (env : SLDrawEnv) (sv : SLSceneView) (cam : SLCamera)
    (hcam : (env.preDraw sv)._camera = some cam) :
    ∃ cleared svc : SLSceneView,
      cleared._visibleNodes = [] ∧ cleared._blendNodes = [] ∧
      sv.draw3DGLCull env = some (env.camUpdate cam, svc) ∧
      svc = (match env.root3D with
        | some cull3DRec => cull3DRec cleared
        | none => cleared) ∧
      sv.draw3DGL env = (svc.draw3DGLDraw env).map (fun sv2 => (env.camUpdate cam, sv2)) ∧
      (env.root3D = none → svc._visibleNodes = [] ∧ svc._blendNodes = []) ∧
      ((∀ (s : SLSceneView) (vis0 bl0 : SLVNode),
          env.preDraw { s with _visibleNodes := vis0, _blendNodes := bl0 }
            = { env.preDraw s with _visibleNodes := vis0, _blendNodes := bl0 }) →
        ∀ vis0 bl0 : SLVNode,
          SLSceneView.draw3DGL env { sv with _visibleNodes := vis0, _blendNodes := bl0 }
            = sv.draw3DGL env) := by
  refine ⟨{ env.preDraw sv with
      _stateGL := { (env.preDraw sv)._stateGL with
        multiSample := (env.preDraw sv)._doMultiSampling,
        depthTest := (env.preDraw sv)._doDepthTest },
      _blendNodes := [], _visibleNodes := [] }, _, rfl, rfl, ?_, rfl, ?_, ?_, ?_⟩
  · simp only [SLSceneView.draw3DGLCull, hcam]
    cases env.root3D <;> rfl
  · simp only [SLSceneView.draw3DGL, SLSceneView.draw3DGLCull, hcam]
    cases env.root3D <;> simp only [Option.bind_eq_bind, Option.some_bind] <;>
      (cases SLSceneView.draw3DGLDraw env _ <;> rfl)
  · intro h
    rw [h]
    exact ⟨rfl, rfl⟩
  · intro hpre vis0 bl0
    unfold SLSceneView.draw3DGL SLSceneView.draw3DGLCull
    rw [hpre sv vis0 bl0]

theorem draw3DGL_rebuilds_visible_sets_witness :
    (sampleDrawEnv.preDraw sampleFrameView)._camera = some sampleCamera ∧
    (∃ cleared svc : SLSceneView,
      cleared._visibleNodes = [] ∧ cleared._blendNodes = [] ∧
      sampleFrameView.draw3DGLCull sampleDrawEnv
        = some (sampleDrawEnv.camUpdate sampleCamera, svc) ∧
      svc = (match sampleDrawEnv.root3D with
        | some cull3DRec => cull3DRec cleared
        | none => cleared) ∧
      sampleFrameView.draw3DGL sampleDrawEnv
        = (svc.draw3DGLDraw sampleDrawEnv).map
            (fun sv2 => (sampleDrawEnv.camUpdate sampleCamera, sv2)) ∧
      (sampleDrawEnv.root3D = none → svc._visibleNodes = [] ∧ svc._blendNodes = []) ∧
      ((∀ (s : SLSceneView) (vis0 bl0 : SLVNode),
          sampleDrawEnv.preDraw { s with _visibleNodes := vis0, _blendNodes := bl0 }
            = { sampleDrawEnv.preDraw s with _visibleNodes := vis0, _blendNodes := bl0 }) →
        ∀ vis0 bl0 : SLVNode,
          SLSceneView.draw3DGL sampleDrawEnv
              { sampleFrameView with _visibleNodes := vis0, _blendNodes := bl0 }
            = sampleFrameView.draw3DGL sampleDrawEnv)) ∧
    (sampleFrameView.draw3DGLCull sampleDrawEnv).map
        (fun r => (r.2._visibleNodes, r.2._blendNodes))
      = some ([some (plainNode 1 5)], [some (plainNode 2 9)]) :=
  ⟨rfl, draw3DGL_rebuilds_visible_sets sampleDrawEnv sampleFrameView sampleCamera rfl,
    by decide⟩

/-! ## Render mode: resize and ESC -/

/-- C6: a resize forces the render mode back to OpenGL. After `onResize` with
non-zero width and height that differ from the stored screen size the render
type is `RT_gl`, and when it was `RT_rt` or `RT_pt` before, the continuous flag
of the ray tracer is false. -/
theorem onResize_forces_RT_gl (sv : SLSceneView) (width height : Int)
    (hw : width ≠ 0) (hh : height ≠ 0) (hdiff : sv._scrW ≠ width ∨ sv._scrH ≠ height) :
    (sv.onResize width height)._renderType = SLRenderType.RT_gl ∧
    (sv._renderType = SLRenderType.RT_rt ∨ sv._renderType = SLRenderType.RT_pt →
      (sv.onResize width height)._raytracer.continuous = false) := by
  unfold SLSceneView.onResize
  rw [if_neg (by simp [hw, hh]), if_pos hdiff]
  by_cases hgl : sv._renderType = SLRenderType.RT_gl
  · simp [hgl]
  · simp [hgl]

theorem onResize_forces_RT_gl_witness :
    ((800 : Int) ≠ 0 ∧ (600 : Int) ≠ 0 ∧
      (sampleViewRT._scrW ≠ 800 ∨ sampleViewRT._scrH ≠ 600)) ∧
    ((sampleViewRT.onResize 800 600)._renderType = SLRenderType.RT_gl ∧
    (sampleViewRT._renderType = SLRenderType.RT_rt ∨
        sampleViewRT._renderType = SLRenderType.RT_pt →
      (sampleViewRT.onResize 800 600)._raytracer.continuous = false)) ∧
    sampleViewRT._raytracer.continuous = true ∧
    (sampleViewRT.onResize 800 600)._scrWdiv2 = 400 :=
  ⟨⟨by decide, by decide, by decide⟩,
    onResize_forces_RT_gl sampleViewRT 800 600 (by decide) (by decide) (by decide),
    rfl, by decide⟩

/-- C7: ESC goes through the cooperative stop flag. With a 3D root loaded and
the key not captured by the GUI, `onKeyPress(K_esc)` in render type `RT_rt`
(resp. `RT_pt`) returns false, sets `_stopRT` (resp. `_stopPT`) and changes
nothing else, in particular not `_renderType`; the next `draw3DRT` (resp.
`draw3DPT`) returns true and leaves `_renderType` equal to `RT_gl`. -/
theorem onKeyPress_esc_stops_tracing (env : SLKeyEnv) (ops : SLTracerOps) (sv : SLSceneView)
    (mod : SLKey) (hroot : env.hasRoot3D = true) (hgui : env.wantCaptureKeyboard = false) :
    (sv._renderType = SLRenderType.RT_rt →
      sv.onKeyPress env SLKey.K_esc mod = some (false, { sv with _stopRT := true }) ∧
      ({ sv with _stopRT := true } : SLSceneView)._renderType = SLRenderType.RT_rt ∧
      (SLSceneView.draw3DRT ops { sv with _stopRT := true }).1 = true ∧
      (SLSceneView.draw3DRT ops { sv with _stopRT := true }).2._renderType
        = SLRenderType.RT_gl) ∧
    (sv._renderType = SLRenderType.RT_pt →
      sv.onKeyPress env SLKey.K_esc mod = some (false, { sv with _stopPT := true }) ∧
      ({ sv with _stopPT := true } : SLSceneView)._renderType = SLRenderType.RT_pt ∧
      (SLSceneView.draw3DPT ops { sv with _stopPT := true }).1 = true ∧
      (SLSceneView.draw3DPT ops { sv with _stopPT := true }).2._renderType
        = SLRenderType.RT_gl) := by
  constructor
  · intro hrt
    refine ⟨?_, hrt, ?_, ?_⟩
    · simp [SLSceneView.onKeyPress, hroot, hgui, hrt]
    · simp [SLSceneView.draw3DRT]
    · simp [SLSceneView.draw3DRT]
  · intro hpt
    refine ⟨?_, hpt, ?_, ?_⟩
    · simp [SLSceneView.onKeyPress, hroot, hgui, hpt]
    · simp [SLSceneView.draw3DPT]
    · simp [SLSceneView.draw3DPT]

theorem onKeyPress_esc_stops_tracing_witness :
    (sampleKeyEnv.hasRoot3D = true ∧ sampleKeyEnv.wantCaptureKeyboard = false ∧
      sampleViewRT._renderType = SLRenderType.RT_rt ∧
      sampleViewPT._renderType = SLRenderType.RT_pt) ∧
    (sampleViewRT.onKeyPress sampleKeyEnv SLKey.K_esc SLKey.K_none
        = some (false, { sampleViewRT with _stopRT := true }) ∧
      ({ sampleViewRT with _stopRT := true } : SLSceneView)._renderType = SLRenderType.RT_rt ∧
      (SLSceneView.draw3DRT sampleTracerOps { sampleViewRT with _stopRT := true }).1 = true ∧
      (SLSceneView.draw3DRT sampleTracerOps { sampleViewRT with _stopRT := true }).2._renderType
        = SLRenderType.RT_gl) ∧
    (sampleViewPT.onKeyPress sampleKeyEnv SLKey.K_esc SLKey.K_none
        = some (false, { sampleViewPT with _stopPT := true }) ∧
      ({ sampleViewPT with _stopPT := true } : SLSceneView)._renderType = SLRenderType.RT_pt ∧
      (SLSceneView.draw3DPT sampleTracerOps { sampleViewPT with _stopPT := true }).1 = true ∧
      (SLSceneView.draw3DPT sampleTracerOps { sampleViewPT with _stopPT := true }).2._renderType
        = SLRenderType.RT_gl) :=
  ⟨⟨rfl, rfl, rfl, rfl⟩,
    (onKeyPress_esc_stops_tracing sampleKeyEnv sampleTracerOps sampleViewRT SLKey.K_none
      rfl rfl).1 rfl,
    (onKeyPress_esc_stops_tracing sampleKeyEnv sampleTracerOps sampleViewPT SLKey.K_none
      rfl rfl).2 rfl⟩

/-- C8: `onResize` rejects invalid sizes. A call with `width == 0` or
`height == 0` returns the scene view unchanged in every member. -/
theorem onResize_zero_size_unchanged (sv : SLSceneView) (width height : Int)
    (hzero : width = 0 ∨ height = 0) : sv.onResize width height = sv := by
  unfold SLSceneView.onResize
  rw [if_pos hzero]

theorem onResize_zero_size_unchanged_witness :
    ((0 : Int) = 0 ∨ (600 : Int) = 0) ∧ sampleViewRT.onResize 0 600 = sampleViewRT :=
  ⟨by decide, onResize_zero_size_unchanged sampleViewRT 0 600 (by decide)⟩

/-! ## The scene-view registry -/

theorem fillFirstGap_of_not_mem (this : Nat) :
    ∀ (l : List SLSceneViewPtr) (k : Nat), none ∉ l → fillFirstGap this l k = none := by
  intro l
  induction l with
  | nil => intro k _; rfl
  | cons x xs ih =>
    intro k h
    cases x with
    | none => simp at h
    | some v =>
      have hxs : none ∉ xs := fun hm => h (List.mem_cons_of_mem _ hm)
      simp [fillFirstGap, ih (k + 1) hxs]

theorem fillFirstGap_of_mem (this : Nat) :
    ∀ (l : List SLSceneViewPtr) (k : Nat), none ∈ l →
      ∃ i, i < l.length ∧ l[i]? = some none ∧ (∀ j, j < i → l[j]? ≠ some none) ∧
        fillFirstGap this l k = some (l.set i (some this), k + i) := by
  intro l
  induction l with
  | nil => intro k h; simp at h
  | cons x xs ih =>
    intro k h
    cases x with
    | none =>
      refine ⟨0, by simp, by simp, ?_, by simp [fillFirstGap]⟩
      intro j hj
      omega
    | some v =>
      have hxs : none ∈ xs := by
        rcases List.mem_cons.1 h with h1 | h1
        · cases h1
        · exact h1
      obtain ⟨i, hi, hget, hmin, hfill⟩ := ih (k + 1) hxs
      refine ⟨i + 1, by simp [hi], by simpa using hget, ?_, ?_⟩
      · intro j hj
        cases j with
        | zero => simp
        | succ j =>
          simpa using hmin j (by omega)
      · simp only [fillFirstGap, hfill, List.set_cons_succ]
        congr 2
        omega

/-- C9: the constructor registers the new view in `sceneViews()`. If the vector
has a null entry, the view is stored at the lowest index holding null, the
length and all other entries stay as they are and `_index` is that index; if
there is no null entry, the view is appended and `_index` is the previous
length. In both cases `sceneViews()[_index]` is the new view. -/
theorem ctor_registers_view (s : SLScene) (this : Nat) :
    (none ∈ s._sceneViews →
      ∃ i, (SLSceneView.ctor s this).2 = i ∧
        s._sceneViews[i]? = some none ∧
        (∀ j, j < i → s._sceneViews[j]? ≠ some none) ∧
        (SLSceneView.ctor s this).1._sceneViews = s._sceneViews.set i (some this) ∧
        (SLSceneView.ctor s this).1._sceneViews.length = s._sceneViews.length ∧
        (∀ j, j ≠ i → (SLSceneView.ctor s this).1._sceneViews[j]? = s._sceneViews[j]?)) ∧
    (none ∉ s._sceneViews →
      (SLSceneView.ctor s this).1._sceneViews = s._sceneViews ++ [some this] ∧
      (SLSceneView.ctor s this).2 = s._sceneViews.length) ∧
    (SLSceneView.ctor s this).1._sceneViews[(SLSceneView.ctor s this).2]? = some (some this) := by
  by_cases hmem : none ∈ s._sceneViews
  · obtain ⟨i, hi, hget, hmin, hfill⟩ := fillFirstGap_of_mem this s._sceneViews 0 hmem
    have hctor : SLSceneView.ctor s this
        = ({ s with _sceneViews := s._sceneViews.set i (some this) }, i) := by
      simp [SLSceneView.ctor, hfill]
    refine ⟨?_, fun h => absurd hmem h, ?_⟩
    · intro _
      refine ⟨i, by rw [hctor], hget, hmin, by rw [hctor], by rw [hctor]; simp, ?_⟩
      intro j hj
      rw [hctor]
      simp [List.getElem?_set, Ne.symm hj]
    · rw [hctor]
      simp [List.getElem?_set, hi]
  · have hfill := fillFirstGap_of_not_mem this s._sceneViews 0 hmem
    have hctor : SLSceneView.ctor s this
        = ({ s with _sceneViews := s._sceneViews ++ [some this] }, s._sceneViews.length) := by
      simp [SLSceneView.ctor, hfill]
    refine ⟨fun h => absurd h hmem, ?_, ?_⟩
    · intro _
      rw [hctor]
      exact ⟨rfl, rfl⟩
    · rw [hctor]
      simp

theorem ctor_registers_view_witness :
    (none ∈ ({ _sceneViews := [some 11, none, some 13, none] } : SLScene)._sceneViews ∧
      none ∉ ({ _sceneViews := [some 11, some 12] } : SLScene)._sceneViews) ∧
    (∃ i, (SLSceneView.ctor { _sceneViews := [some 11, none, some 13, none] } 14).2 = i ∧
        ([some 11, none, some 13, none] : List SLSceneViewPtr)[i]? = some none ∧
        (∀ j, j < i → ([some 11, none, some 13, none] : List SLSceneViewPtr)[j]? ≠ some none) ∧
        (SLSceneView.ctor { _sceneViews := [some 11, none, some 13, none] } 14).1._sceneViews
          = ([some 11, none, some 13, none] : List SLSceneViewPtr).set i (some 14) ∧
        (SLSceneView.ctor { _sceneViews := [some 11, none, some 13, none] } 14).1._sceneViews.length
          = ([some 11, none, some 13, none] : List SLSceneViewPtr).length ∧
        (∀ j, j ≠ i →
          (SLSceneView.ctor { _sceneViews := [some 11, none, some 13, none] } 14).1._sceneViews[j]?
            = ([some 11, none, some 13, none] : List SLSceneViewPtr)[j]?)) ∧
    ((SLSceneView.ctor { _sceneViews := [some 11, some 12] } 14).1._sceneViews
        = [some 11, some 12] ++ [some 14] ∧
      (SLSceneView.ctor { _sceneViews := [some 11, some 12] } 14).2
        = ([some 11, some 12] : List SLSceneViewPtr).length) ∧
    SLSceneView.ctor { _sceneViews := [some 11, none, some 13, none] } 14
      = ({ _sceneViews := [some 11, some 14, some 13, none] }, 1) :=
  ⟨⟨by decide, by decide⟩,
    (ctor_registers_view { _sceneViews := [some 11, none, some 13, none] } 14).1 (by decide),
    (ctor_registers_view { _sceneViews := [some 11, some 12] } 14).2.1 (by decide),
    by decide⟩

theorem SLWorld.indexOf_eq_none {w : SLWorld} {a : Nat} (h : w.indexOf a = none) :
    a ∉ w.views.map Prod.fst := by
  unfold SLWorld.indexOf at h
  simp only [Option.map_eq_none', List.find?_eq_none] at h
  intro hm
  obtain ⟨v, hv, hva⟩ := List.mem_map.1 hm
  exact h v hv (by simpa using hva)

theorem SLWorld.indexOf_eq_some {w : SLWorld} {a i : Nat} (h : w.indexOf a = some i) :
    (a, i) ∈ w.views := by
  unfold SLWorld.indexOf at h
  cases hf : w.views.find? (fun v => decide (v.1 = a)) with
  | none => simp [hf] at h
  | some v =>
    simp only [hf, Option.map_some', Option.some.injEq] at h
    have hmem := List.mem_of_find?_eq_some hf
    have hp := List.find?_some hf
    simp only [decide_eq_true_eq] at hp
    have : v = (a, i) := by
      cases v
      simp only at hp h
      rw [hp, h]
    rw [← this]
    exact hmem

theorem ctor_slot (s : SLScene) (this : Nat) :
    (SLSceneView.ctor s this).1._sceneViews[(SLSceneView.ctor s this).2]? = some (some this) ∧
    (∀ b : Nat, s._sceneViews[(SLSceneView.ctor s this).2]? ≠ some (some b)) ∧
    (∀ (j b : Nat), s._sceneViews[j]? = some (some b) →
      (SLSceneView.ctor s this).1._sceneViews[j]? = some (some b)) := by
  by_cases hmem : none ∈ s._sceneViews
  · obtain ⟨i, hi, hget, _, hfill⟩ := fillFirstGap_of_mem this s._sceneViews 0 hmem
    have hctor : SLSceneView.ctor s this
        = ({ s with _sceneViews := s._sceneViews.set i (some this) }, i) := by
      simp [SLSceneView.ctor, hfill]
    rw [hctor]
    refine ⟨by simp [List.getElem?_set, hi], ?_, ?_⟩
    · intro b
      simp [hget]
    · intro j b hj
      have hne : i ≠ j := by
        intro h
        rw [h] at hget
        rw [hget] at hj
        simp at hj
      simp [List.getElem?_set, hne, hj]
  · have hfill := fillFirstGap_of_not_mem this s._sceneViews 0 hmem
    have hctor : SLSceneView.ctor s this
        = ({ s with _sceneViews := s._sceneViews ++ [some this] }, s._sceneViews.length) := by
      simp [SLSceneView.ctor, hfill]
    rw [hctor]
    refine ⟨by simp, ?_, ?_⟩
    · intro b
      simp
    · intro j b hj
      have hlt : j < s._sceneViews.length := by
        by_contra hge
        rw [List.getElem?_eq_none (by omega)] at hj
        simp at hj
      show (s._sceneViews ++ [some this])[j]? = some (some b)
      rw [List.getElem?_append_left hlt]
      exact hj

/-- One construction or destruction keeps every live view in its slot. -/
theorem SLWorld.step_registered {w w1 : SLWorld} {op : SLViewOp} (hw : w.Registered)
    (hstep : w.step op = some w1) : w1.Registered := by
  obtain ⟨hslot, hnodup⟩ := hw
  cases op with
  | construct a =>
    simp only [SLWorld.step] at hstep
    cases hidx : w.indexOf a with
    | some i => simp [hidx] at hstep
    | none =>
      simp only [hidx, Option.some.injEq] at hstep
      subst hstep
      obtain ⟨hnew, _, hold⟩ := ctor_slot w.scene a
      constructor
      · intro b j hb
        rcases List.mem_append.1 hb with h | h
        · exact hold j b (hslot b j h)
        · simp only [List.mem_singleton, Prod.mk.injEq] at h
          rw [h.1, h.2]
          exact hnew
      · simp only [List.map_append, List.map_cons, List.map_nil]
        refine List.Nodup.append hnodup (List.nodup_singleton _) ?_
        intro x hx hx2
        rw [List.mem_singleton] at hx2
        rw [hx2] at hx
        exact SLWorld.indexOf_eq_none hidx hx
  | destruct a =>
    simp only [SLWorld.step] at hstep
    cases hidx : w.indexOf a with
    | none => simp [hidx] at hstep
    | some i =>
      have hai := SLWorld.indexOf_eq_some hidx
      have hsl := hslot a i hai
      have hlt : i < w.scene._sceneViews.length := by
        by_contra hge
        rw [List.getElem?_eq_none (by omega)] at hsl
        simp at hsl
      simp only [hidx, SLSceneView.dtor, if_pos hlt, Option.some.injEq] at hstep
      subst hstep
      constructor
      · intro b j hb
        obtain ⟨hb1, hb2⟩ := List.mem_filter.1 hb
        simp only [ne_eq, decide_not, Bool.not_eq_true', decide_eq_false_iff_not] at hb2
        have hbj := hslot b j hb1
        have hne : i ≠ j := by
          intro h
          rw [h] at hsl
          rw [hsl] at hbj
          simp only [Option.some.injEq] at hbj
          exact hb2 hbj.symm
        simp only
        rw [List.getElem?_set]
        simp [hne, hbj]
      · exact List.Nodup.sublist (List.Sublist.map _ (List.filter_sublist _)) hnodup

theorem SLWorld.run_registered {w w1 : SLWorld} (ops : List SLViewOp) (hw : w.Registered)
    (hrun : w.run ops = some w1) : w1.Registered := by
  induction ops generalizing w with
  | nil =>
    simp only [SLWorld.run, Option.some.injEq] at hrun
    rw [← hrun]
    exact hw
  | cons op ops ih =>
    simp only [SLWorld.run] at hrun
    cases hs : w.step op with
    | none => simp [hs] at hrun
    | some w2 =>
      simp only [hs, Option.some_bind] at hrun
      exact ih (SLWorld.step_registered hw hs) hrun

theorem SLWorld.init_registered : SLWorld.init.Registered := by
  constructor
  · intro a i h
    simp [SLWorld.init] at h
  · simp [SLWorld.init]

theorem SLWorld.Registered.index_nodup {w : SLWorld} (hw : w.Registered) :
    (w.views.map Prod.snd).Nodup := by
  obtain ⟨hslot, hnodup⟩ := hw
  rw [List.Nodup, List.pairwise_map] at hnodup ⊢
  refine List.Pairwise.imp_of_mem ?_ hnodup
  intro v1 v2 h1 h2 hne hidx
  have e1 := hslot v1.1 v1.2 h1
  have e2 := hslot v2.1 v2.2 h2
  rw [hidx, e2] at e1
  simp only [Option.some.injEq] at e1
  exact hne e1.symm

/-- A step keeps every live view other than a destroyed one, with its index. -/
theorem SLWorld.step_keeps_view {w w1 : SLWorld} {op : SLViewOp} (hstep : w.step op = some w1)
    {a i : Nat} (hai : (a, i) ∈ w.views) (hop : op ≠ SLViewOp.destruct a) :
    (a, i) ∈ w1.views := by
  cases op with
  | construct b =>
    simp only [SLWorld.step] at hstep
    cases hidx : w.indexOf b with
    | some j => simp [hidx] at hstep
    | none =>
      simp only [hidx, Option.some.injEq] at hstep
      subst hstep
      exact List.mem_append_left _ hai
  | destruct b =>
    simp only [SLWorld.step] at hstep
    cases hidx : w.indexOf b with
    | none => simp [hidx] at hstep
    | some j =>
      simp only [hidx] at hstep
      cases hd : SLSceneView.dtor w.scene j with
      | none => simp [hd] at hstep
      | some s1 =>
        simp only [hd, Option.some.injEq] at hstep
        subst hstep
        refine List.mem_filter.2 ⟨hai, ?_⟩
        have : a ≠ b := fun h => hop (by rw [h])
        simpa using this

theorem SLWorld.run_keeps_view {w w1 : SLWorld} (ops : List SLViewOp)
    (hrun : w.run ops = some w1) {a i : Nat} (hai : (a, i) ∈ w.views)
    (hops : SLViewOp.destruct a ∉ ops) : (a, i) ∈ w1.views := by
  induction ops generalizing w with
  | nil =>
    simp only [SLWorld.run, Option.some.injEq] at hrun
    rw [← hrun]
    exact hai
  | cons op ops ih =>
    simp only [SLWorld.run] at hrun
    cases hs : w.step op with
    | none => simp [hs] at hrun
    | some w2 =>
      simp only [hs, Option.some_bind] at hrun
      have hop : op ≠ SLViewOp.destruct a := fun h => hops (by rw [h]; exact List.mem_cons_self _ _)
      exact ih hrun (SLWorld.step_keeps_view hs hai hop)
        (fun h => hops (List.mem_cons_of_mem _ h))

theorem SLWorld.run_append {w : SLWorld} (ops1 ops2 : List SLViewOp) :
    w.run (ops1 ++ ops2) = (w.run ops1).bind (fun w1 => w1.run ops2) := by
  induction ops1 generalizing w with
  | nil => rfl
  | cons op ops ih =>
    simp only [List.cons_append, SLWorld.run]
    cases w.step op with
    | none => rfl
    | some w2 => simp [ih]

/-- C10: scene-view indices are stable. After every sequence of constructions
and destructions on one scene, each live view sits in the slot named by its
`_index`, live views have pairwise distinct indices, a view constructed and
not destroyed since still has the index the constructor gave it, and
destroying a live view succeeds and only sets the slot of that view to null:
the vector keeps its length, every other entry and every other live view with
its index. -/
theorem sceneView_indices_stable (ops : List SLViewOp) (w : SLWorld)
    (hrun : SLWorld.init.run ops = some w) :
    (∀ a i, (a, i) ∈ w.views → w.scene._sceneViews[i]? = some (some a)) ∧
    (w.views.map Prod.snd).Nodup ∧
    (∀ (ops1 ops2 : List SLViewOp) (a : Nat) (w1 : SLWorld),
      ops = ops1 ++ SLViewOp.construct a :: ops2 → SLViewOp.destruct a ∉ ops2 →
      SLWorld.init.run ops1 = some w1 →
      (a, (SLSceneView.ctor w1.scene a).2) ∈ w.views) ∧
    (∀ a i, (a, i) ∈ w.views →
      ∃ w1, w.step (SLViewOp.destruct a) = some w1 ∧
        w1.scene._sceneViews = w.scene._sceneViews.set i none ∧
        w1.scene._sceneViews.length = w.scene._sceneViews.length ∧
        (∀ j, j ≠ i → w1.scene._sceneViews[j]? = w.scene._sceneViews[j]?) ∧
        (∀ b j, (b, j) ∈ w.views → b ≠ a → (b, j) ∈ w1.views)) := by
  have hreg := SLWorld.run_registered ops SLWorld.init_registered hrun
  refine ⟨hreg.1, hreg.index_nodup, ?_, ?_⟩
  · intro ops1 ops2 a w1 hops hnot hrun1
    rw [hops, SLWorld.run_append, hrun1, Option.some_bind, SLWorld.run] at hrun
    cases hs : w1.step (SLViewOp.construct a) with
    | none => simp [hs] at hrun
    | some w2 =>
      simp only [hs, Option.some_bind] at hrun
      refine SLWorld.run_keeps_view ops2 hrun ?_ hnot
      simp only [SLWorld.step] at hs
      cases hidx : w1.indexOf a with
      | some j => simp [hidx] at hs
      | none =>
        simp only [hidx, Option.some.injEq] at hs
        rw [← hs]
        simp
  · intro a i hai
    have hsl := hreg.1 a i hai
    have hlt : i < w.scene._sceneViews.length := by
      by_contra hge
      rw [List.getElem?_eq_none (by omega)] at hsl
      simp at hsl
    have hidx : w.indexOf a = some i := by
      cases hx : w.indexOf a with
      | none => exact absurd (List.mem_map_of_mem Prod.fst hai) (SLWorld.indexOf_eq_none hx)
      | some k =>
        have hak := SLWorld.indexOf_eq_some hx
        have hk := hreg.1 a k hak
        have hnd := hreg.index_nodup
        by_contra hne
        have hki : k ≠ i := fun h => hne (by rw [h])
        have hpair : (a, k) ≠ (a, i) := fun h => hki (Prod.mk.inj h).2
        have := hreg.2
        rw [List.Nodup, List.pairwise_map] at this
        rcases sublist_pair_or_pairs hpair w.views hak hai with h | h
        · have := List.Pairwise.sublist h this
          simp at this
        · have := List.Pairwise.sublist h this
          simp at this
    refine ⟨{ scene := { w.scene with _sceneViews := w.scene._sceneViews.set i none },
              views := w.views.filter (fun v => v.1 ≠ a) }, ?_, rfl, by simp, ?_, ?_⟩
    · simp [SLWorld.step, hidx, SLSceneView.dtor, hlt]
    · intro j hj
      simp [List.getElem?_set, Ne.symm hj]
    · intro b j hb hne
      exact List.mem_filter.2 ⟨hb, by simpa using hne⟩

theorem sceneView_indices_stable_witness :
    SLWorld.init.run [SLViewOp.construct 11, SLViewOp.construct 12, SLViewOp.construct 13,
        SLViewOp.destruct 12, SLViewOp.construct 14]
      = some { scene := { _sceneViews := [some 11, some 14, some 13] },
               views := [(11, 0), (13, 2), (14, 1)] } ∧
    (({ scene := { _sceneViews := [some 11, some 14, some 13] },
        views := [(11, 0), (13, 2), (14, 1)] } : SLWorld).views.map Prod.snd).Nodup ∧
    (14, 1) ∈ ({ scene := { _sceneViews := [some 11, some 14, some 13] },
                 views := [(11, 0), (13, 2), (14, 1)] } : SLWorld).views :=
  ⟨by decide,
    (sceneView_indices_stable
      [SLViewOp.construct 11, SLViewOp.construct 12, SLViewOp.construct 13,
        SLViewOp.destruct 12, SLViewOp.construct 14]
      { scene := { _sceneViews := [some 11, some 14, some 13] },
        views := [(11, 0), (13, 2), (14, 1)] } (by decide)).2.1,
    (sceneView_indices_stable
      [SLViewOp.construct 11, SLViewOp.construct 12, SLViewOp.construct 13,
        SLViewOp.destruct 12, SLViewOp.construct 14]
      { scene := { _sceneViews := [some 11, some 14, some 13] },
        views := [(11, 0), (13, 2), (14, 1)] } (by decide)).2.2.1
      [SLViewOp.construct 11, SLViewOp.construct 12, SLViewOp.construct 13,
        SLViewOp.destruct 12] [] 14
      { scene := { _sceneViews := [some 11, none, some 13] }, views := [(11, 0), (13, 2)] }
      (by decide) (by decide) (by decide)⟩

/-! ## Commands that start the tracers -/

/-- A command outside the scene range that leaves the camera switch by `break`
and is not `C_projSideBySideD` reaches the second switch on the scene view
itself or on the scene view with `_vrMode` cleared. -/
theorem onCommand_second_switch (env : SLCommandEnv) (cmd : SLCommand) (g : SLGlobals)
    (sv : SLSceneView) (hscene : env.isSceneCmd cmd = false)
    (hcam : ∀ cam v, onCommandCamera env cmd cam v = (none, v))
    (hvr : ∀ p v, onCommandVrMode env cmd p v =
      if env.perspectiveChanged p cmd then
        (if p = SLProjection.P_stereoSideBySideD then { v with _vrMode := false } else v)
      else v) :
    sv.onCommand env cmd g = onCommandOther env cmd g sv ∨
    sv.onCommand env cmd g = onCommandOther env cmd g { sv with _vrMode := false } := by
  have hrun : sv.onCommand env cmd g =
      match sv._camera with
      | none => onCommandOther env cmd g sv
      | some cam => onCommandOther env cmd g (onCommandVrMode env cmd cam.projection sv) := by
    unfold SLSceneView.onCommand
    rw [hscene]
    simp only [Bool.false_eq_true, if_false, hcam]
  rw [hrun]
  have key : ∀ c : Option SLCamera,
      (match c with
        | none => onCommandOther env cmd g sv
        | some cam => onCommandOther env cmd g (onCommandVrMode env cmd cam.projection sv))
        = onCommandOther env cmd g sv ∨
      (match c with
        | none => onCommandOther env cmd g sv
        | some cam => onCommandOther env cmd g (onCommandVrMode env cmd cam.projection sv))
        = onCommandOther env cmd g { sv with _vrMode := false } := by
    intro c
    cases c with
    | none => exact Or.inl rfl
    | some cam =>
      simp only [hvr]
      split_ifs
      · exact Or.inr rfl
      · exact Or.inl rfl
      · exact Or.inl rfl
  exact key sv._camera

theorem startRaytracing_fields (g : SLGlobals) (sv : SLSceneView) (maxDepth : Int) :
    (sv.startRaytracing g maxDepth)._renderType = SLRenderType.RT_rt ∧
    (sv.startRaytracing g maxDepth)._stopRT = false ∧
    (sv.startRaytracing g maxDepth)._raytracer.maxDepth = maxDepth ∧
    (sv.startRaytracing g maxDepth)._raytracer.aaSamples
      = (if sv._doMultiSampling = true ∧ g.dpi < 200 then 3 else 1) := by
  refine ⟨rfl, rfl, rfl, ?_⟩
  simp [SLSceneView.startRaytracing]

theorem startPathtracing_fields (sv : SLSceneView) (maxDepth samples : Int) :
    (sv.startPathtracing maxDepth samples)._renderType = SLRenderType.RT_pt ∧
    (sv.startPathtracing maxDepth samples)._stopPT = false ∧
    (sv.startPathtracing maxDepth samples)._pathtracer.maxDepth = maxDepth ∧
    (sv.startPathtracing maxDepth samples)._pathtracer.aaSamples = samples :=
  ⟨rfl, rfl, rfl, rfl⟩

/-- The command `C_rt<d>` outside the scene range: `onCommand` returns true
with the scene view that `startRaytracing(d)` leaves. -/
theorem onCommand_rt_eq (env : SLCommandEnv) (g : SLGlobals) (sv : SLSceneView)
    (d : Int) (cmd : SLCommand) (hcmd : (d, cmd) ∈ rtCommands)
    (hscene : env.isSceneCmd cmd = false) :
    ∃ v : SLSceneView, v._doMultiSampling = sv._doMultiSampling ∧
      sv.onCommand env cmd g = (true, g, v.startRaytracing g d) := by
  simp only [rtCommands, List.mem_cons, Prod.mk.injEq, List.mem_singleton,
    List.not_mem_nil, or_false] at hcmd
  rcases hcmd with e | e | e | e | e | e | e | e | e | e <;>
    (obtain ⟨hd, hc⟩ := e
     subst hd hc
     rcases onCommand_second_switch env _ g sv hscene (fun _ _ => rfl) (fun _ _ => rfl)
        with h | h
     · exact ⟨sv, rfl, h⟩
     · exact ⟨{ sv with _vrMode := false }, rfl, h⟩)

/-- C13: for each digit `d` from 0 to 9 the command `C_rt<d>`, outside the range
of the scene commands, makes `onCommand` return true and leaves the render type
`RT_rt`, `_stopRT` false, the maximal depth of the ray tracer `d` and its
sample count 3 when `_doMultiSampling` is set and `SL::dpi < 200`, otherwise 1;
the command `C_renderOpenGL` makes it return true and leaves the render type
`RT_gl`. -/
theorem onCommand_rt_starts_raytracing (env : SLCommandEnv) (g : SLGlobals) (sv : SLSceneView)
    (d : Int) (cmd : SLCommand) (hcmd : (d, cmd) ∈ rtCommands)
    (hscene : env.isSceneCmd cmd = false)
    (hgl : env.isSceneCmd SLCommand.C_renderOpenGL = false) :
    ((sv.onCommand env cmd g).1 = true ∧
      (sv.onCommand env cmd g).2.2._renderType = SLRenderType.RT_rt ∧
      (sv.onCommand env cmd g).2.2._stopRT = false ∧
      (sv.onCommand env cmd g).2.2._raytracer.maxDepth = d ∧
      (sv.onCommand env cmd g).2.2._raytracer.aaSamples
        = (if sv._doMultiSampling = true ∧ g.dpi < 200 then 3 else 1)) ∧
    ((sv.onCommand env SLCommand.C_renderOpenGL g).1 = true ∧
      (sv.onCommand env SLCommand.C_renderOpenGL g).2.2._renderType = SLRenderType.RT_gl) := by
  constructor
  · obtain ⟨v, hv, h⟩ := onCommand_rt_eq env g sv d cmd hcmd hscene
    rw [h]
    obtain ⟨h1, h2, h3, h4⟩ := startRaytracing_fields g v d
    rw [hv] at h4
    exact ⟨rfl, h1, h2, h3, h4⟩
  · rcases onCommand_second_switch env SLCommand.C_renderOpenGL g sv hgl (fun _ _ => rfl)
        (fun _ _ => rfl) with h | h <;>
      (rw [h]; exact ⟨rfl, rfl⟩)

theorem onCommand_rt_starts_raytracing_witness :
    ((7, SLCommand.C_rt7) ∈ rtCommands ∧
      sampleCommandEnv.isSceneCmd SLCommand.C_rt7 = false ∧
      sampleCommandEnv.isSceneCmd SLCommand.C_renderOpenGL = false) ∧
    (((sampleViewPT.onCommand sampleCommandEnv SLCommand.C_rt7 sampleGlobals).1 = true ∧
      (sampleViewPT.onCommand sampleCommandEnv SLCommand.C_rt7 sampleGlobals).2.2._renderType
        = SLRenderType.RT_rt ∧
      (sampleViewPT.onCommand sampleCommandEnv SLCommand.C_rt7 sampleGlobals).2.2._stopRT
        = false ∧
      (sampleViewPT.onCommand sampleCommandEnv SLCommand.C_rt7
        sampleGlobals).2.2._raytracer.maxDepth = 7 ∧
      (sampleViewPT.onCommand sampleCommandEnv SLCommand.C_rt7
        sampleGlobals).2.2._raytracer.aaSamples
        = (if sampleViewPT._doMultiSampling = true ∧ sampleGlobals.dpi < 200 then 3 else 1)) ∧
    ((sampleViewPT.onCommand sampleCommandEnv SLCommand.C_renderOpenGL sampleGlobals).1 = true ∧
      (sampleViewPT.onCommand sampleCommandEnv SLCommand.C_renderOpenGL
        sampleGlobals).2.2._renderType = SLRenderType.RT_gl)) ∧
    (sampleViewPT.onCommand sampleCommandEnv SLCommand.C_rt7
      sampleGlobals).2.2._raytracer.aaSamples = 3 :=
  ⟨⟨by simp [rtCommands], rfl, rfl⟩,
    onCommand_rt_starts_raytracing sampleCommandEnv sampleGlobals sampleViewPT 7
      SLCommand.C_rt7 (by simp [rtCommands]) rfl rfl,
    by decide⟩

/-- The command `C_pt<N>` outside the scene range: `onCommand` returns true
with the scene view that `startPathtracing` leaves; the sample count handed over
is `N`, except for `C_pt10000`, where it is 100000. -/
theorem onCommand_pt_eq (env : SLCommandEnv) (g : SLGlobals) (sv : SLSceneView)
    (n : Int) (cmd : SLCommand) (hcmd : (n, cmd) ∈ ptCommands)
    (hscene : env.isSceneCmd cmd = false) :
    ∃ v : SLSceneView,
      sv.onCommand env cmd g
        = (true, g, v.startPathtracing 5 (if n = 10000 then 100000 else n)) := by
  simp only [ptCommands, List.mem_cons, Prod.mk.injEq, List.mem_singleton,
    List.not_mem_nil, or_false] at hcmd
  rcases hcmd with e | e | e | e | e | e | e | e <;>
    (obtain ⟨hn, hc⟩ := e
     subst hn hc
     rcases onCommand_second_switch env _ g sv hscene (fun _ _ => rfl) (fun _ _ => rfl)
        with h | h
     · exact ⟨sv, h⟩
     · exact ⟨{ sv with _vrMode := false }, h⟩)

/-- C12 (what the code does): each path tracing command `C_pt<N>`, outside the
range of the scene commands, makes `onCommand` return true and leaves the
render type `RT_pt`, `_stopPT` false and the maximal depth of the path tracer 5.
The sample count it leaves is `N` for the seven commands up to `C_pt5000`, but
100000 for `C_pt10000`, whose menu entry checks for 10000. -/
theorem onCommand_pt_sample_count (env : SLCommandEnv) (g : SLGlobals) (sv : SLSceneView)
    (n : Int) (cmd : SLCommand) (hcmd : (n, cmd) ∈ ptCommands)
    (hscene : env.isSceneCmd cmd = false) :
    (sv.onCommand env cmd g).1 = true ∧
    (sv.onCommand env cmd g).2.2._renderType = SLRenderType.RT_pt ∧
    (sv.onCommand env cmd g).2.2._stopPT = false ∧
    (sv.onCommand env cmd g).2.2._pathtracer.maxDepth = 5 ∧
    (sv.onCommand env cmd g).2.2._pathtracer.aaSamples
      = (if n = 10000 then 100000 else n) := by
  obtain ⟨v, h⟩ := onCommand_pt_eq env g sv n cmd hcmd hscene
  rw [h]
  obtain ⟨h1, h2, h3, h4⟩ := startPathtracing_fields v 5 (if n = 10000 then 100000 else n)
  exact ⟨rfl, h1, h2, h3, h4⟩

theorem onCommand_pt_sample_count_witness :
    ((10000, SLCommand.C_pt10000) ∈ ptCommands ∧
      sampleCommandEnv.isSceneCmd SLCommand.C_pt10000 = false) ∧
    ((sampleViewRT.onCommand sampleCommandEnv SLCommand.C_pt10000 sampleGlobals).1 = true ∧
      (sampleViewRT.onCommand sampleCommandEnv SLCommand.C_pt10000 sampleGlobals).2.2._renderType
        = SLRenderType.RT_pt ∧
      (sampleViewRT.onCommand sampleCommandEnv SLCommand.C_pt10000 sampleGlobals).2.2._stopPT
        = false ∧
      (sampleViewRT.onCommand sampleCommandEnv SLCommand.C_pt10000
        sampleGlobals).2.2._pathtracer.maxDepth = 5 ∧
      (sampleViewRT.onCommand sampleCommandEnv SLCommand.C_pt10000
        sampleGlobals).2.2._pathtracer.aaSamples
        = (if (10000 : Int) = 10000 then 100000 else 10000)) ∧
    (sampleViewRT.onCommand sampleCommandEnv SLCommand.C_pt10000
      sampleGlobals).2.2._pathtracer.aaSamples = 100000 ∧
    (sampleViewRT.onCommand sampleCommandEnv SLCommand.C_pt10000
      sampleGlobals).2.2._pathtracer.aaSamples ≠ 10000 :=
  ⟨⟨by simp [ptCommands], rfl⟩,
    onCommand_pt_sample_count sampleCommandEnv sampleGlobals sampleViewRT 10000
      SLCommand.C_pt10000 (by simp [ptCommands]) rfl,
    by decide, by decide⟩

/-! ## Painting a frame -/

/-- After `draw2DGL` with a camera whose projection is not the Oculus one and
with no 2D root, `_visibleNodes` is empty and `_blendNodes` is as before. -/
theorem draw2DGL_clears_visibleNodes (env : SLPaintEnv) (sv sv1 : SLSceneView) (cam : SLCamera)
    (hcam : sv._camera = some cam)
    (hproj : cam.projection ≠ SLProjection.P_stereoSideBySideD)
    (hroot : env.root2D = none) (h : sv.draw2DGL env = some sv1) :
    sv1._visibleNodes = [] ∧ sv1._blendNodes = sv._blendNodes := by
  unfold SLSceneView.draw2DGL at h
  simp only [hcam, hroot, ne_eq, hproj, not_false_eq_true, if_true,
    SLSceneView.draw2DGLAll, drawMeshesLoop, Option.map_some', Option.some.injEq] at h
  rw [← h]
  exact ⟨rfl, rfl⟩

/-- C17 (what the code does): one `onPaint` in OpenGL mode over a scene whose
cull traversal collects two nodes, the opaque node 1 and the blended node 2.
`draw2DGL` empties `_visibleNodes` after the 3D pass, so after the frame
`windowTitle` computes the count 1, not 2. -/
theorem onPaint_windowTitle_undercounts :
    sampleFrameView._renderType = SLRenderType.RT_gl ∧
    (sampleFrameView.draw3DGLCull samplePaintEnv.draw).map
        (fun r => (r.2._visibleNodes, r.2._blendNodes))
      = some ([some (plainNode 1 5)], [some (plainNode 2 9)]) ∧
    (sampleFrameView.onPaint samplePaintEnv).map
        (fun r => (r.2._visibleNodes, r.2._blendNodes))
      = some ([], [some (plainNode 2 9)]) ∧
    (sampleFrameView.onPaint samplePaintEnv).map (fun r => r.2.windowTitleNodes) = some 1 := by
  refine ⟨rfl, by decide, by decide, by decide⟩

/-! ## The IFC importer -/

/-- C14: `CanRead` returns true for every file whose extension is `ifc` or
`ifczip`, whatever `checkSig` and `pIOHandler` are; for any other extension it
returns the result of the search of the file header for the token
`ISO-10303-21` when `pIOHandler` is not null and the extension is empty or
`checkSig` is set; in all remaining cases it returns false. -/
theorem CanRead_cases (env : IFCEnv) (pFile : String) (pIOHandler : Option IOSystem)
    (checkSig : Bool) :
    (env.GetExtension pFile = "ifc" ∨ env.GetExtension pFile = "ifczip" →
      IFCImporter.CanRead env pFile pIOHandler checkSig = true) ∧
    (¬ (env.GetExtension pFile = "ifc" ∨ env.GetExtension pFile = "ifczip") →
      ∀ io, pIOHandler = some io →
        ((env.GetExtension pFile).length = 0 ∨ checkSig = true) →
        IFCImporter.CanRead env pFile pIOHandler checkSig
          = env.SearchFileHeaderForToken io pFile ["ISO-10303-21"]) ∧
    (¬ (env.GetExtension pFile = "ifc" ∨ env.GetExtension pFile = "ifczip") →
      (pIOHandler = none ∨ ¬ ((env.GetExtension pFile).length = 0 ∨ checkSig = true)) →
      IFCImporter.CanRead env pFile pIOHandler checkSig = false) := by
  refine ⟨?_, ?_, ?_⟩
  · intro h
    simp [IFCImporter.CanRead, h]
  · intro h io hio hsig
    subst hio
    simp only [IFCImporter.CanRead, if_neg h, if_pos hsig]
  · intro h hrest
    cases pIOHandler with
    | none => simp only [IFCImporter.CanRead, if_neg h]
    | some io =>
      rcases hrest with h1 | h1
      · cases h1
      · simp only [IFCImporter.CanRead, if_neg h, if_neg h1]

theorem CanRead_cases_witness :
    ((sampleIFCEnv.GetExtension "model.ifczip" = "ifc" ∨
        sampleIFCEnv.GetExtension "model.ifczip" = "ifczip") ∧
      ¬ (sampleIFCEnv.GetExtension "model.stp" = "ifc" ∨
        sampleIFCEnv.GetExtension "model.stp" = "ifczip")) ∧
    IFCImporter.CanRead sampleIFCEnv "model.ifczip" none false = true ∧
    IFCImporter.CanRead sampleIFCEnv "model.stp" (some sampleIO) true
      = sampleIFCEnv.SearchFileHeaderForToken sampleIO "model.stp" ["ISO-10303-21"] ∧
    IFCImporter.CanRead sampleIFCEnv "model.stp" (some sampleIO) false = false ∧
    IFCImporter.CanRead sampleIFCEnv "model.stp" none true = false :=
  ⟨⟨by decide, by decide⟩,
    (CanRead_cases sampleIFCEnv "model.ifczip" none false).1 (by decide),
    (CanRead_cases sampleIFCEnv "model.stp" (some sampleIO) true).2.1 (by decide) sampleIO rfl
      (by decide),
    (CanRead_cases sampleIFCEnv "model.stp" (some sampleIO) false).2.2 (by decide)
      (Or.inr (by decide)),
    (CanRead_cases sampleIFCEnv "model.stp" none true).2.2 (by decide) (Or.inl rfl)⟩

/-- The member loop looks at the member the archive is positioned at and at no
other: it ends in its first pass when that member has the extension `ifc`, and
does not end at all otherwise. The exception `Found no IFC file member in
IFCZIP file (1)` is never raised. -/
theorem memberLoop_stays_on_current (env : IFCEnv) (current : ZipMember) :
    (env.GetExtension current.filename ≠ "ifc" →
      ∀ fuel, IFCImporter.memberLoop env fuel current = none) ∧
    (env.GetExtension current.filename = "ifc" →
      ∀ fuel, IFCImporter.memberLoop env (fuel + 1) current =
        if current.readResult < 0 ∨ current.readResult.toNat ≠ current.uncompressedSize then
          some (.error .decompressFailed)
        else some (.ok current.data)) ∧
    (∀ fuel, IFCImporter.memberLoop env fuel current ≠ some (.error .noMember1)) := by
  refine ⟨?_, ?_, ?_⟩
  · intro h fuel
    induction fuel with
    | zero => rfl
    | succ n ih => simp only [IFCImporter.memberLoop, if_pos h, ih]
  · intro h fuel
    simp only [IFCImporter.memberLoop, h, ne_eq, not_true_eq_false, if_false]
  · intro fuel
    induction fuel with
    | zero => simp [IFCImporter.memberLoop]
    | succ n ih =>
      simp only [IFCImporter.memberLoop]
      split_ifs
      · exact ih
      · simp
      · simp

/-- C16 (what the code does): for the archive `model.ifczip` with the members
`readme.txt` and `model.ifc`, in this order, the member search of
`InternReadFile` has no outcome for any number of passes of its loop. The loop
reads the name of `readme.txt` in every pass and never moves on to `model.ifc`. -/
theorem InternReadFile_ifczip_search_never_ends :
    sampleIFCEnv.unzOpen "model.ifczip" = some
      [{ filename := "readme.txt", uncompressedSize := 2, readResult := 2, data := [0, 0] },
       { filename := "model.ifc", uncompressedSize := 2, readResult := 2, data := [1, 0] }] ∧
    (∀ fuel : Nat, IFCImporter.openZip sampleIFCEnv fuel "model.ifczip" = none) ∧
    (∀ fuel : Nat,
      IFCImporter.InternReadFile sampleIFCEnv fuel "model.ifczip" sampleIO = none) := by
  have hloop : ∀ fuel : Nat, IFCImporter.openZip sampleIFCEnv fuel "model.ifczip" = none := by
    intro fuel
    have h := (memberLoop_stays_on_current sampleIFCEnv
      { filename := "readme.txt", uncompressedSize := 2, readResult := 2, data := [0, 0] }).1
      (by decide) fuel
    simpa [IFCImporter.openZip, sampleIFCEnv] using h
  refine ⟨rfl, hloop, ?_⟩
  intro fuel
  have hopen : sampleIO.Open "model.ifczip" = some [0, 0] := by decide
  have hext : sampleIFCEnv.GetExtension "model.ifczip" = "ifczip" := by decide
  simp only [IFCImporter.InternReadFile, hopen, hext, if_true, hloop fuel]

/-! ## The bounding box in view space -/

theorem minf_spec (a b : Int) : minf a b ≤ a ∧ minf a b ≤ b ∧ (minf a b = a ∨ minf a b = b) := by
  unfold minf
  by_cases h : b < a
  · rw [if_pos h]
    exact ⟨le_of_lt h, le_refl b, Or.inr rfl⟩
  · rw [if_neg h]
    exact ⟨le_refl a, not_lt.mp h, Or.inl rfl⟩

theorem maxf_spec (a b : Int) : a ≤ maxf a b ∧ b ≤ maxf a b ∧ (maxf a b = a ∨ maxf a b = b) := by
  unfold maxf
  by_cases h : a < b
  · rw [if_pos h]
    exact ⟨le_of_lt h, le_refl b, Or.inr rfl⟩
  · rw [if_neg h]
    exact ⟨le_refl a, not_lt.mp h, Or.inl rfl⟩

theorem foldl_minf_isMinOf (l : List Int) (a : Int) :
    IsMinOf (l.foldl minf a) (a :: l) := by
  induction l generalizing a with
  | nil => exact ⟨by simp, by simp⟩
  | cons b bs ih =>
    obtain ⟨h1, h2⟩ := ih (minf a b)
    have hab := minf_spec a b
    constructor
    · intro v hv
      simp only [List.foldl_cons]
      rcases List.mem_cons.1 hv with rfl | hv
      · exact le_trans (h1 _ (List.mem_cons_self _ _)) hab.1
      · rcases List.mem_cons.1 hv with rfl | hv
        · exact le_trans (h1 _ (List.mem_cons_self _ _)) hab.2.1
        · exact h1 _ (List.mem_cons_of_mem _ hv)
    · simp only [List.foldl_cons]
      rcases List.mem_cons.1 h2 with h | h
      · rcases hab.2.2 with e | e
        · rw [h, e]; exact List.mem_cons_self _ _
        · rw [h, e]; exact List.mem_cons_of_mem _ (List.mem_cons_self _ _)
      · exact List.mem_cons_of_mem _ (List.mem_cons_of_mem _ h)

theorem foldl_maxf_isMaxOf (l : List Int) (a : Int) :
    IsMaxOf (l.foldl maxf a) (a :: l) := by
  induction l generalizing a with
  | nil => exact ⟨by simp, by simp⟩
  | cons b bs ih =>
    obtain ⟨h1, h2⟩ := ih (maxf a b)
    have hab := maxf_spec a b
    constructor
    · intro v hv
      simp only [List.foldl_cons]
      rcases List.mem_cons.1 hv with rfl | hv
      · exact le_trans hab.1 (h1 _ (List.mem_cons_self _ _))
      · rcases List.mem_cons.1 hv with rfl | hv
        · exact le_trans hab.2.1 (h1 _ (List.mem_cons_self _ _))
        · exact h1 _ (List.mem_cons_of_mem _ hv)
    · simp only [List.foldl_cons]
      rcases List.mem_cons.1 h2 with h | h
      · rcases hab.2.2 with e | e
        · rw [h, e]; exact List.mem_cons_self _ _
        · rw [h, e]; exact List.mem_cons_of_mem _ (List.mem_cons_self _ _)
      · exact List.mem_cons_of_mem _ (List.mem_cons_of_mem _ h)

/-- The loop keeps the six components apart: each is the fold of `min` or
`max` over that component of the transformed corners. -/
theorem foldl_viewSpaceStep (vm : SLVec3f → SLVec3f) (cs : List SLVec3f)
    (acc : SLVec3f × SLVec3f) :
    cs.foldl (viewSpaceStep vm) acc =
      (⟨((cs.map vm).map SLVec3f.x).foldl minf acc.1.x,
        ((cs.map vm).map SLVec3f.y).foldl minf acc.1.y,
        ((cs.map vm).map SLVec3f.z).foldl minf acc.1.z⟩,
       ⟨((cs.map vm).map SLVec3f.x).foldl maxf acc.2.x,
        ((cs.map vm).map SLVec3f.y).foldl maxf acc.2.y,
        ((cs.map vm).map SLVec3f.z).foldl maxf acc.2.z⟩) := by
  induction cs generalizing acc with
  | nil => rfl
  | cons c cs ih =>
    simp only [List.foldl_cons, List.map_cons]
    rw [ih]
    rfl

/-- Whatever the view matrix and the box, each component of `vsMin` is the
minimum of `FLT_MAX` and that component of the eight transformed corners, and
each component of `vsMax` is the maximum of `FLT_MIN` and that component of
the eight transformed corners. -/
theorem viewSpaceMinMax_spec (vm : SLVec3f → SLVec3f) (minWS maxWS : SLVec3f) :
    (IsMinOf (viewSpaceMinMax vm minWS maxWS).1.x
        (FLT_MAX :: (viewSpaceCorners vm minWS maxWS).map SLVec3f.x) ∧
     IsMinOf (viewSpaceMinMax vm minWS maxWS).1.y
        (FLT_MAX :: (viewSpaceCorners vm minWS maxWS).map SLVec3f.y) ∧
     IsMinOf (viewSpaceMinMax vm minWS maxWS).1.z
        (FLT_MAX :: (viewSpaceCorners vm minWS maxWS).map SLVec3f.z)) ∧
    (IsMaxOf (viewSpaceMinMax vm minWS maxWS).2.x
        (FLT_MIN :: (viewSpaceCorners vm minWS maxWS).map SLVec3f.x) ∧
     IsMaxOf (viewSpaceMinMax vm minWS maxWS).2.y
        (FLT_MIN :: (viewSpaceCorners vm minWS maxWS).map SLVec3f.y) ∧
     IsMaxOf (viewSpaceMinMax vm minWS maxWS).2.z
        (FLT_MIN :: (viewSpaceCorners vm minWS maxWS).map SLVec3f.z)) := by
  unfold viewSpaceMinMax viewSpaceCorners
  rw [foldl_viewSpaceStep]
  generalize (boxCorners minWS maxWS).map vm = cs
  dsimp only
  exact ⟨⟨foldl_minf_isMinOf _ _, foldl_minf_isMinOf _ _, foldl_minf_isMinOf _ _⟩,
    ⟨foldl_maxf_isMaxOf _ _, foldl_maxf_isMaxOf _ _, foldl_maxf_isMaxOf _ _⟩⟩

/-- A maximum of a list is not above a bound of the list. -/
theorem IsMaxOf_le_of_forall_le {m b : Int} {l : List Int} (h : IsMaxOf m l)
    (hb : ∀ v ∈ l, v ≤ b) : m ≤ b := hb m h.2

/-- The flat box seen through the identity view matrix: every transformed
corner has `z = 0`. -/
theorem flatBox_corners_z :
    (viewSpaceCorners identityVM flatBoxMin flatBoxMax).map SLVec3f.z
      = [0, 0, 0, 0, 0, 0, 0, 0] := rfl

set_option maxRecDepth 100000 in
/-- The flat box seen through the identity view matrix: the loop ends with
`vsMin = (-1, -1, 0)` and `vsMax = (1, 1, FLT_MIN)`. -/
theorem flatBox_viewSpaceMinMax :
    viewSpaceMinMax identityVM flatBoxMin flatBoxMax
      = (⟨-oneF, -oneF, 0⟩, ⟨oneF, oneF, FLT_MIN⟩) := by decide

/-- The constant `FLT_MIN` is positive. -/
theorem FLT_MIN_pos : (0 : Int) < FLT_MIN := by decide

set_option maxRecDepth 100000 in
/-- The box from `(1, 1, 1)` to `(2, 2, 2)` seen through the identity view
matrix: the loop ends with `vsMin = (1, 1, 1)` and `vsMax = (2, 2, 2)`. -/
theorem unitBox_viewSpaceMinMax :
    viewSpaceMinMax identityVM ⟨oneF, oneF, oneF⟩ ⟨2 * oneF, 2 * oneF, 2 * oneF⟩
      = (⟨oneF, oneF, oneF⟩, ⟨2 * oneF, 2 * oneF, 2 * oneF⟩) := by decide

/-- The minimum of a value and a list is the minimum of the list when the
list is not empty and the value bounds it from above. -/
theorem IsMinOf_tail {m a : Int} {l : List Int} (h : IsMinOf m (a :: l)) (hne : l ≠ [])
    (hle : ∀ v ∈ l, v ≤ a) : IsMinOf m l := by
  refine ⟨fun v hv => h.1 v (List.mem_cons_of_mem _ hv), ?_⟩
  rcases List.mem_cons.1 h.2 with hm | hm
  · obtain ⟨v, hv⟩ := List.exists_mem_of_ne_nil l hne
    have h1 : m ≤ v := h.1 v (List.mem_cons_of_mem _ hv)
    have h2 : v ≤ a := hle v hv
    have h3 : v = m := by rw [hm] at h1 ⊢; exact le_antisymm h2 h1
    rw [← h3]
    exact hv
  · exact hm

/-- When no component of a transformed corner is above `FLT_MAX`, as for every
finite float, `vsMin` is the component-wise minimum of the eight transformed
corners. -/
theorem viewSpaceMinMax_vsMin (vm : SLVec3f → SLVec3f) (minWS maxWS : SLVec3f)
    (hfin : ∀ c ∈ viewSpaceCorners vm minWS maxWS,
      c.x ≤ FLT_MAX ∧ c.y ≤ FLT_MAX ∧ c.z ≤ FLT_MAX) :
    IsMinOf (viewSpaceMinMax vm minWS maxWS).1.x
        ((viewSpaceCorners vm minWS maxWS).map SLVec3f.x) ∧
    IsMinOf (viewSpaceMinMax vm minWS maxWS).1.y
        ((viewSpaceCorners vm minWS maxWS).map SLVec3f.y) ∧
    IsMinOf (viewSpaceMinMax vm minWS maxWS).1.z
        ((viewSpaceCorners vm minWS maxWS).map SLVec3f.z) := by
  obtain ⟨⟨hx, hy, hz⟩, _⟩ := viewSpaceMinMax_spec vm minWS maxWS
  have hne : ∀ f : SLVec3f → Int, (viewSpaceCorners vm minWS maxWS).map f ≠ [] := by
    intro f
    simp [viewSpaceCorners, boxCorners]
  refine ⟨IsMinOf_tail hx (hne _) ?_, IsMinOf_tail hy (hne _) ?_, IsMinOf_tail hz (hne _) ?_⟩
  · intro v hv
    obtain ⟨c, hc, rfl⟩ := List.mem_map.1 hv
    exact (hfin c hc).1
  · intro v hv
    obtain ⟨c, hc, rfl⟩ := List.mem_map.1 hv
    exact (hfin c hc).2.1
  · intro v hv
    obtain ⟨c, hc, rfl⟩ := List.mem_map.1 hv
    exact (hfin c hc).2.2

/-- C18 (what the code does): for every view matrix and every box whose
transformed corners are numbers, each component of `vsMin` after the loop is
the minimum of `FLT_MAX` and that component of the eight transformed corners,
and each component of `vsMax` is the maximum of `FLT_MIN` and that component
of the eight transformed corners, `FLT_MIN` being the smallest positive
normalised float and the start value of `vsMax`. For the box from `(1, 1, 1)`
to `(2, 2, 2)` seen through the identity view matrix both are right: `vsMin` is
`(1, 1, 1)` and `vsMax` is `(2, 2, 2)`. But `vsMax` is not the component-wise
maximum of the corners when a component of all eight is below `FLT_MIN`: for
the flat box from `(-1, -1, 0)` to `(1, 1, 0)` seen through the identity view
matrix every transformed corner has `z = 0`, `vsMin` is `(-1, -1, 0)`, and
`vsMax` is `(1, 1, FLT_MIN)`, whose `z` is not the maximum `0` of the
corners. -/
theorem initSceneViewCamera_vsMax_floor_FLT_MIN :
    (∀ (vm : SLVec3f → SLVec3f) (minWS maxWS : SLVec3f),
      (IsMinOf (viewSpaceMinMax vm minWS maxWS).1.x
          (FLT_MAX :: (viewSpaceCorners vm minWS maxWS).map SLVec3f.x) ∧
       IsMinOf (viewSpaceMinMax vm minWS maxWS).1.y
          (FLT_MAX :: (viewSpaceCorners vm minWS maxWS).map SLVec3f.y) ∧
       IsMinOf (viewSpaceMinMax vm minWS maxWS).1.z
          (FLT_MAX :: (viewSpaceCorners vm minWS maxWS).map SLVec3f.z)) ∧
      (IsMaxOf (viewSpaceMinMax vm minWS maxWS).2.x
          (FLT_MIN :: (viewSpaceCorners vm minWS maxWS).map SLVec3f.x) ∧
       IsMaxOf (viewSpaceMinMax vm minWS maxWS).2.y
          (FLT_MIN :: (viewSpaceCorners vm minWS maxWS).map SLVec3f.y) ∧
       IsMaxOf (viewSpaceMinMax vm minWS maxWS).2.z
          (FLT_MIN :: (viewSpaceCorners vm minWS maxWS).map SLVec3f.z))) ∧
    viewSpaceMinMax identityVM ⟨oneF, oneF, oneF⟩ ⟨2 * oneF, 2 * oneF, 2 * oneF⟩
      = (⟨oneF, oneF, oneF⟩, ⟨2 * oneF, 2 * oneF, 2 * oneF⟩) ∧
    (viewSpaceCorners identityVM flatBoxMin flatBoxMax).map SLVec3f.z
      = [0, 0, 0, 0, 0, 0, 0, 0] ∧
    viewSpaceMinMax identityVM flatBoxMin flatBoxMax
      = (⟨-oneF, -oneF, 0⟩, ⟨oneF, oneF, FLT_MIN⟩) ∧
    (0 : Int) < FLT_MIN ∧
    ¬ IsMaxOf (viewSpaceMinMax identityVM flatBoxMin flatBoxMax).2.z
        ((viewSpaceCorners identityVM flatBoxMin flatBoxMax).map SLVec3f.z) := by
  have hz := flatBox_corners_z
  have hr := flatBox_viewSpaceMinMax
  have hpos := FLT_MIN_pos
  refine ⟨viewSpaceMinMax_spec, unitBox_viewSpaceMinMax, hz, hr, hpos, ?_⟩
  intro h
  have hle : (viewSpaceMinMax identityVM flatBoxMin flatBoxMax).2.z ≤ 0 :=
    IsMaxOf_le_of_forall_le h (by rw [hz]; intro v hv; simp at hv; exact le_of_eq hv)
  rw [hr] at hle
  exact absurd hpos (not_lt.mpr hle)

end SLProject
